import Mathlib

/-! # AppRollout reconciler (kubevela)

A shallow embedding of
`pkg/controller/core.oam.dev/v1alpha2/applicationdeployment/applicationdeployment_controller.go`.

The reconciler talks to the cluster through `client.Client`, an interface.  It is
embedded as a record of functions over an abstract world `W`; every call the Go
code makes through the client, the event recorder, `extractWorkloads` or the
rollout plan controller is appended to a trace, so that "does not look up",
"does not invoke" and "writes nothing" are statements about that trace and about
the world that is returned.
-/

namespace AppRolloutController

/-! ## Errors and results -/

/-- The errors of the API machinery, by the class `apierrors` sorts them into. -/
inductive ApiError where
  | notFound (msg : String)
  | conflict (msg : String)
  | other (msg : String)
deriving DecidableEq, Repr

/-- Go `apierrors.IsNotFound`. -/
def IsNotFound : ApiError → Bool
  | .notFound _ => true
  | _ => false

/-- Go `apierrors.IsConflict`. -/
def IsConflict : ApiError → Bool
  | .conflict _ => true
  | _ => false

/-- Go `client.IgnoreNotFound`: nil for a not-found error, the error otherwise. -/
def IgnoreNotFound : Option ApiError → Option ApiError
  | none => none
  | some err => if IsNotFound err then none else some err

/-- Go `time.Second`, in nanoseconds. -/
def Second : Nat := 1000000000

/-- Go `reconcile.Result` (`ctrl.Result`); `RequeueAfter` is a duration in nanoseconds. -/
structure Result where
  Requeue : Bool := false
  RequeueAfter : Nat := 0
deriving DecidableEq, Repr

/-- Go `types.NamespacedName` (`client.ObjectKey`). -/
structure NamespacedName where
  Namespace : String
  Name : String
deriving DecidableEq, Repr

/-- Go `ctrl.Request`. -/
structure Request where
  NamespacedName : NamespacedName
deriving DecidableEq, Repr

/-! ## Data model -/

/-- Go `v1alpha1.RollingState`.  The type is declared outside `src/`; the values are the
four the specification lists, under the names the controller and its tests use. -/
inductive RollingState where
  | Initial
  | RollingInBatchesState
  | RolloutSucceedState
  | RolloutFailedState
deriving DecidableEq, Repr

/-- Go `v1alpha1.BatchRollingState`, the sub-phase within the current batch. -/
inductive BatchRollingState where
  | BatchInitial
  | BatchInRolling
  | BatchVerifying
  | BatchReadyState
  | BatchPausing
  | BatchPaused
deriving DecidableEq, Repr

/-- Go `v1alpha1.RolloutEvent`; the controller only ever raises `WorkloadModifiedEvent`. -/
inductive RolloutEvent where
  | WorkloadModifiedEvent
  | otherEvent (name : String)
deriving DecidableEq, Repr

/-- One condition record of the status. -/
structure Condition where
  type : String
  status : String
  lastTransitionTime : Nat
  reason : String
  message : String
deriving DecidableEq, Repr

/-- Go `v1alpha1.RolloutStatus`, the engine-owned part of the status. -/
structure RolloutStatus where
  RollingState : RollingState := .Initial
  BatchRollingState : BatchRollingState := .BatchInitial
  CurrentBatch : Nat := 0
  Conditions : List Condition := []
deriving DecidableEq, Repr

/-- Go `v1alpha2.AppRolloutStatus`: the rollout status inlined, and the recorded revision pair. -/
structure AppRolloutStatus extends RolloutStatus where
  LastUpgradedTargetAppRevision : String := ""
  LastSourceAppRevision : String := ""
deriving DecidableEq, Repr

/-- One batch of the plan: an absolute replica count or a percentage. -/
inductive RolloutBatch where
  | replicas (n : Nat)
  | percent (p : Nat)
deriving DecidableEq, Repr

/-- Go `v1alpha1.RolloutPlan`, the user-declared plan. -/
structure RolloutPlan where
  RolloutBatches : List RolloutBatch := []
  BatchPartition : Option Nat := none
  Paused : Bool := false
deriving DecidableEq, Repr

/-- Go `v1alpha2.AppRolloutSpec`. -/
structure AppRolloutSpec where
  TargetAppRevisionName : String
  SourceAppRevisionName : String := ""
  ComponentList : List String := []
  RolloutPlan : RolloutPlan := {}
deriving DecidableEq, Repr

/-- Go `v1alpha2.AppRollout`, with the fields of its object metadata the controller reads. -/
structure AppRollout where
  Namespace : String
  Name : String
  ResourceVersion : Nat := 0
  DeletionTimestamp : Option Nat := none
  Finalizers : List String := []
  Spec : AppRolloutSpec
  Status : AppRolloutStatus := {}
deriving DecidableEq, Repr

/-- Go `v1alpha2.RollingStatus` of an application configuration. -/
inductive RollingStatus where
  | RollingTemplating
  | RollingTemplated
  | RollingCompleted
  | InactiveAfterRollingCompleted
deriving DecidableEq, Repr

/-- Go `v1alpha2.ApplicationConfiguration` (an application revision): its identity, its
annotations as a key/value list, and its rolling status. -/
structure ApplicationConfiguration where
  Namespace : String
  Name : String
  ResourceVersion : Nat := 0
  Annotations : List (String × String) := []
  RollingStatus : RollingStatus := .RollingTemplating
deriving DecidableEq, Repr

/-- The workload handle (`*unstructured.Unstructured`) the plan controller works on. -/
structure Workload where
  Kind : String
  Namespace : String
  Name : String
deriving DecidableEq, Repr

/-! ## Annotations -/

/-- Modelled from the spec: the constant `oam.AnnotationAppRollout` (declared in `pkg/oam`,
not under `src/`), the marker "this object is under active rollout control". -/
def AnnotationAppRollout : String := "app.oam.dev/rollout-template"

/-- Modelled from the spec: the constant `oam.AnnotationAppRevision` (declared in `pkg/oam`,
not under `src/`), the marker "this object is now a superseded, inactive revision". -/
def AnnotationAppRevision : String := "app.oam.dev/app-revision"

/-- Go `strconv.FormatBool`. -/
def FormatBool : Bool → String
  | true => "true"
  | false => "false"

/-- The value an annotation list gives a key (Go map lookup). -/
def annotationOf (annotations : List (String × String)) (key : String) : Option String :=
  (annotations.find? (fun kv => kv.1 == key)).map (fun kv => kv.2)

/-- Modelled from the spec: `oamutil.RemoveAnnotations` (package `pkg/oam/util`, not under
`src/`) deletes the given keys from the annotations of the object. -/
def RemoveAnnotations (o : ApplicationConfiguration) (keys : List String) :
    ApplicationConfiguration :=
  { o with Annotations := o.Annotations.filter (fun kv => !keys.contains kv.1) }

/-- Modelled from the spec: `oamutil.AddAnnotations` (package `pkg/oam/util`, not under
`src/`) merges the given key/value pairs into the annotations of the object, the given
value winning over an existing one. -/
def AddAnnotations (o : ApplicationConfiguration) (kvs : List (String × String)) :
    ApplicationConfiguration :=
  { o with Annotations :=
      o.Annotations.filter (fun kv => !(kvs.map (fun p => p.1)).contains kv.1) ++ kvs }

/-! ## The state transition of the status -/

/-- Modelled from the spec: `RolloutStatus.StateTransition` (package
`apis/standard.oam.dev/v1alpha1`, not under `src/`).  The specification gives one rule for
the event the controller raises: from `RolloutSucceeded` or `RolloutFailed` a revision
change resets the status to `Initial` with `currentBatch = 0`, so that the new rollout
begins from scratch.  Nothing is said about other events or other states; the status is
left as it is there. -/
def StateTransition (s : RolloutStatus) (event : RolloutEvent) : RolloutStatus :=
  match event with
  | .WorkloadModifiedEvent =>
    if s.RollingState = .RolloutSucceedState ∨ s.RollingState = .RolloutFailedState then
      { s with RollingState := .Initial, BatchRollingState := .BatchInitial, CurrentBatch := 0 }
    else s
  | .otherEvent _ => s

/-! ## The reconciler and its collaborators -/

/-- One call that leaves the reconciler, in the order the Go code makes it. -/
inductive Call where
  | getAppRollout (key : NamespacedName)
  | getAppConfig (key : NamespacedName)
  | event (reason : String) (message : String)
  | extractWorkloads (componentList : List String) (targetApp : ApplicationConfiguration)
      (sourceApp : Option ApplicationConfiguration)
  | planReconcile (appRollout : AppRollout) (targetWorkload : Workload)
      (sourceWorkload : Option Workload)
  | update (obj : ApplicationConfiguration)
  | statusUpdate (obj : AppRollout)
deriving DecidableEq, Repr

/-- Go `Reconciler`: the embedded `client.Client` interface over a world `W`, together with
the two collaborators whose code is not under `src/`.

* `GetAppRollout`, `GetAppConfig`: `r.Get` at the two object types; a read does not change
  the world.
* `Update`, `StatusUpdate`: `r.Update` and `r.Status().Update`; nil or an error, and the
  world afterwards.
* `extractWorkloads`: the method `r.extractWorkloads` (another file of the package); it
  resolves the workloads of the two revisions, or fails.  It is taken to read only: the two
  revisions it is handed by pointer and the world are as before.
* `planReconcile`: `rollout.NewRolloutPlanController(...).Reconcile`; it is handed the
  AppRollout (whose `Spec.RolloutPlan` and `Status.RolloutStatus` it works on) and the two
  workloads, and gives back a result, the new rollout status and the world afterwards.  What
  it does to the object reaches Reconcile through the returned status, which line 158
  copies back. -/
structure Reconciler (W : Type) where
  GetAppRollout : NamespacedName → W → Except ApiError AppRollout
  GetAppConfig : NamespacedName → W → Except ApiError ApplicationConfiguration
  Update : ApplicationConfiguration → W → Option ApiError × W
  StatusUpdate : AppRollout → W → Option ApiError × W
  extractWorkloads : List String → ApplicationConfiguration →
    Option ApplicationConfiguration → W → Except ApiError (Workload × Option Workload)
  planReconcile : AppRollout → Workload → Option Workload → W → (Result × RolloutStatus) × W

/-- What one invocation leaves behind: the returned pair `(res, retErr)`, the world, and the
calls made. -/
structure Outcome (W : Type) where
  res : Result
  retErr : Option ApiError
  world : W
  trace : List Call

/-- Go `appRolloutFinalizer`. -/
def appRolloutFinalizer : String := "finalizers.approllout.oam.dev"

/-- Go `Reconciler.handleFinalizer` (lines 198-208): both branches only log. -/
def handleFinalizer (appRollout : AppRollout) : AppRollout :=
  if appRollout.DeletionTimestamp.isNone then
    if !appRollout.Finalizers.contains appRolloutFinalizer then
      appRollout
    else appRollout
  else if appRollout.Finalizers.contains appRolloutFinalizer then
    appRollout
  else appRollout

/-! ## Status persistence -/

/-- Go `wait.Backoff`, of which only the number of steps bounds the attempts. -/
structure Backoff where
  Steps : Nat
  DurationMillis : Nat
deriving DecidableEq, Repr

/-- Go `retry.DefaultBackoff` of client-go: four steps, ten milliseconds apart. -/
def DefaultBackoff : Backoff := { Steps := 4, DurationMillis := 10 }

/-- The state the retry loop of `updateStatus` carries: the in-memory object behind the
pointer, the world, and the calls made. -/
structure Persist (W : Type) where
  appRollout : AppRollout
  world : W
  trace : List Call

/-- Go `retry.RetryOnConflict` of client-go (`retry.OnError` over `wait.ExponentialBackoff`
with `IsConflict` as the retriable class): `fn` runs while steps remain; nil ends the loop
with nil, a conflict is remembered and retried, any other error ends the loop with that
error; when the steps run out the remembered conflict is returned. -/
def RetryOnConflict {σ : Type} (fn : σ → Option ApiError × σ) :
    Nat → Option ApiError → σ → Option ApiError × σ
  | 0, lastErr, s => (lastErr, s)
  | steps + 1, _, s =>
    match fn s with
    | (none, s1) => (none, s1)
    | (some err, s1) =>
      if IsConflict err then RetryOnConflict fn steps (some err) s1
      else (some err, s1)

/-- The state of a retry loop after `k` runs of `fn`. -/
def iterState {σ : Type} (fn : σ → Option ApiError × σ) : Nat → σ → σ
  | 0, s => s
  | k + 1, s => iterState fn k (fn s).2

/-- The closure `updateStatus` hands to `RetryOnConflict` (lines 189-195): re-read the
object, put the saved status on it, update the status sub-resource. -/
def updateStatusAttempt {W : Type} (r : Reconciler W) (status : AppRolloutStatus)
    (p : Persist W) : Option ApiError × Persist W :=
  let key : NamespacedName := { Namespace := p.appRollout.Namespace, Name := p.appRollout.Name }
  let t1 := p.trace ++ [Call.getAppRollout key]
  match r.GetAppRollout key p.world with
  | .error err => (some err, { p with trace := t1 })
  | .ok fresh =>
    let obj := { fresh with Status := status }
    let out := r.StatusUpdate obj p.world
    (out.1, { appRollout := obj, world := out.2, trace := t1 ++ [Call.statusUpdate obj] })

/-- Go `Reconciler.updateStatus` (lines 186-196). -/
def updateStatus {W : Type} (r : Reconciler W) (appRollout : AppRollout) (w : W)
    (trace : List Call) : Option ApiError × Persist W :=
  let status := appRollout.Status
  RetryOnConflict (updateStatusAttempt r status) DefaultBackoff.Steps none
    { appRollout := appRollout, world := w, trace := trace }

/-! ## Reconcile -/

/-- Go `Reconciler.Reconcile`, lines 172-178: remove the rollout annotation from the target
revision and update it.  Gives the error of the update, the world and the calls made. -/
def releaseTarget {W : Type} (r : Reconciler W) (targetApp : ApplicationConfiguration)
    (w : W) (trace : List Call) : Option ApiError × W × List Call :=
  let tgt := RemoveAnnotations targetApp [AnnotationAppRollout]
  let out := r.Update tgt w
  (out.1, out.2, trace ++ [Call.update tgt])

/-- Go `Reconciler.Reconcile`, lines 162-178, the body of the success branch: when there is
a source revision, mark it as a revision only and update it, returning its error at once;
then release the target. -/
def handOver {W : Type} (r : Reconciler W) (targetApp : ApplicationConfiguration)
    (sourceApp : Option ApplicationConfiguration) (w : W) (trace : List Call) :
    Option ApiError × W × List Call :=
  match sourceApp with
  | some src =>
    let src := RemoveAnnotations src [AnnotationAppRollout]
    let src := AddAnnotations src [(AnnotationAppRevision, FormatBool true)]
    let out := r.Update src w
    match out.1 with
    | some err => (some err, out.2, trace ++ [Call.update src])
    | none => releaseTarget r targetApp out.2 (trace ++ [Call.update src])
  | none => releaseTarget r targetApp w trace

/-- Go `Reconciler.Reconcile`, line 183: `return result, r.updateStatus(ctx, &appRollout)`. -/
def persistAndReturn {W : Type} (r : Reconciler W) (result : Result) (appRollout : AppRollout)
    (w : W) (trace : List Call) : Outcome W :=
  let out := updateStatus r appRollout w trace
  { res := result, retErr := out.1, world := out.2.world, trace := out.2.trace }

/-- Go `Reconciler.Reconcile`, lines 158-160: the status of the plan controller is copied
back into the object and the revision pair is recorded. -/
def copyBack (appRollout : AppRollout) (rolloutStatus : RolloutStatus)
    (targetAppName sourceAppName : String) : AppRollout :=
  { appRollout with Status :=
    { toRolloutStatus := rolloutStatus,
      LastUpgradedTargetAppRevision := targetAppName,
      LastSourceAppRevision := sourceAppName } }

/-- Go `Reconciler.Reconcile`, lines 153-183: run the rollout plan controller, copy its
status back, record the revision pair, hand the revisions over on success, persist. -/
def finishRollout {W : Type} (r : Reconciler W) (appRollout : AppRollout)
    (targetApp : ApplicationConfiguration) (sourceApp : Option ApplicationConfiguration)
    (targetWorkload : Workload) (sourceWorkload : Option Workload)
    (w : W) (trace : List Call) : Outcome W :=
  let targetAppName := appRollout.Spec.TargetAppRevisionName
  let sourceAppName := appRollout.Spec.SourceAppRevisionName
  let t1 := trace ++ [Call.planReconcile appRollout targetWorkload sourceWorkload]
  let out := r.planReconcile appRollout targetWorkload sourceWorkload w
  let result := out.1.1
  let rolloutStatus := out.1.2
  let appRollout := copyBack appRollout rolloutStatus targetAppName sourceAppName
  if rolloutStatus.RollingState = .RolloutSucceedState then
    match handOver r targetApp sourceApp out.2 t1 with
    | (some err, w2, t2) => { res := {}, retErr := some err, world := w2, trace := t2 }
    | (none, w2, t2) => persistAndReturn r result appRollout w2 t2
  else
    persistAndReturn r result appRollout out.2 t1

/-- Go `Reconciler.Reconcile`, lines 140-151: extract the workloads of the two revisions. -/
def reconcileWorkloads {W : Type} (r : Reconciler W) (appRollout : AppRollout)
    (targetApp : ApplicationConfiguration) (sourceApp : Option ApplicationConfiguration)
    (w : W) (trace : List Call) : Outcome W :=
  let t1 := trace ++ [Call.extractWorkloads appRollout.Spec.ComponentList targetApp sourceApp]
  match r.extractWorkloads appRollout.Spec.ComponentList targetApp sourceApp w with
  | .error err =>
    { res := { RequeueAfter := 5 * Second }, retErr := IgnoreNotFound (some err),
      world := w, trace := t1 }
  | .ok (targetWorkload, sourceWorkload) =>
    finishRollout r appRollout targetApp sourceApp targetWorkload sourceWorkload w t1

/-- The key of the target revision lookup (line 98). -/
def targetKey (req : Request) (a : AppRollout) : NamespacedName :=
  { Namespace := req.NamespacedName.Namespace, Name := a.Spec.TargetAppRevisionName }

/-- The key of the source revision lookup (line 121). -/
def sourceKey (req : Request) (a : AppRollout) : NamespacedName :=
  { Namespace := req.NamespacedName.Namespace, Name := a.Spec.SourceAppRevisionName }

/-- Go `Reconciler.Reconcile`, lines 95-138: look up the target revision, check that it is
templated, then the same for the source revision when one is named. -/
def reconcileRevisions {W : Type} (r : Reconciler W) (req : Request) (appRollout : AppRollout)
    (w : W) (trace : List Call) : Outcome W :=
  let sourceAppName := appRollout.Spec.SourceAppRevisionName
  let t1 := trace ++ [Call.getAppConfig (targetKey req appRollout)]
  match r.GetAppConfig (targetKey req appRollout) w with
  | .error err =>
    if IsNotFound err then
      { res := { RequeueAfter := 5 * Second }, retErr := none, world := w, trace := t1 }
    else
      { res := {}, retErr := some err, world := w, trace := t1 }
  | .ok targetApp =>
    if targetApp.RollingStatus ≠ .RollingTemplated then
      { res := { RequeueAfter := 5 * Second }, retErr := none, world := w,
        trace := t1 ++ [Call.event "Rollout Paused"
          "target app revision is not ready for rolling yet"] }
    else if sourceAppName = "" then
      reconcileWorkloads r appRollout targetApp none w t1
    else
      let t2 := t1 ++ [Call.getAppConfig (sourceKey req appRollout)]
      match r.GetAppConfig (sourceKey req appRollout) w with
      | .error err =>
        if IsNotFound err then
          { res := { RequeueAfter := 5 * Second }, retErr := none, world := w, trace := t2 }
        else
          { res := {}, retErr := some err, world := w, trace := t2 }
      | .ok sourceApp =>
        if sourceApp.RollingStatus ≠ .RollingTemplated then
          { res := { RequeueAfter := 5 * Second }, retErr := none, world := w,
            trace := t2 ++ [Call.event "Rollout Paused"
              "source app revision is not ready for rolling yet"] }
        else
          reconcileWorkloads r appRollout targetApp (some sourceApp) w t2

/-- Go `Reconciler.Reconcile` (lines 47-184), with the state transition of the status
(`RolloutStatus.StateTransition`, line 92, whose code is not under `src/`) as a parameter:
read the AppRollout; when the rollout has terminated and the revision pair is the recorded
one, stop; when it has terminated and the pair has changed, raise `WorkloadModifiedEvent` on
the status; then reconcile the pair. -/
def ReconcileWith {W : Type} (transition : RolloutStatus → RolloutEvent → RolloutStatus)
    (r : Reconciler W) (req : Request) (w : W) : Outcome W :=
  let t0 := [Call.getAppRollout req.NamespacedName]
  match r.GetAppRollout req.NamespacedName w with
  | .error err =>
    { res := {}, retErr := IgnoreNotFound (some err), world := w, trace := t0 }
  | .ok appRollout =>
    let appRollout := handleFinalizer appRollout
    if appRollout.Status.RollingState = .RolloutSucceedState ∨
        appRollout.Status.RollingState = .RolloutFailedState then
      if appRollout.Status.LastUpgradedTargetAppRevision = appRollout.Spec.TargetAppRevisionName ∧
          appRollout.Status.LastSourceAppRevision = appRollout.Spec.SourceAppRevisionName then
        { res := {}, retErr := none, world := w, trace := t0 }
      else
        let appRollout := { appRollout with Status :=
          { appRollout.Status with
            toRolloutStatus :=
              transition appRollout.Status.toRolloutStatus .WorkloadModifiedEvent } }
        reconcileRevisions r req appRollout w t0
    else
      reconcileRevisions r req appRollout w t0

/-- Go `Reconciler.Reconcile` (lines 47-184): `ReconcileWith` at the state transition
modelled from the specification. -/
def Reconcile {W : Type} (r : Reconciler W) (req : Request) (w : W) : Outcome W :=
  ReconcileWith StateTransition r req w

/-! ## Vocabulary of the statements -/

/-- The rollout has terminated (the test of lines 82-83). -/
def Terminated (a : AppRollout) : Prop :=
  a.Status.RollingState = .RolloutSucceedState ∨ a.Status.RollingState = .RolloutFailedState

instance (a : AppRollout) : Decidable (Terminated a) := by
  unfold Terminated; infer_instance

/-- The recorded revision pair is the pair of the spec (the test of lines 84-85). -/
def SamePair (a : AppRollout) : Prop :=
  a.Status.LastUpgradedTargetAppRevision = a.Spec.TargetAppRevisionName ∧
  a.Status.LastSourceAppRevision = a.Spec.SourceAppRevisionName

instance (a : AppRollout) : Decidable (SamePair a) := by
  unfold SamePair; infer_instance

/-- The AppRollout with `WorkloadModifiedEvent` raised once on its rollout status (line 92). -/
def restart (a : AppRollout) : AppRollout :=
  { a with Status :=
    { a.Status with
      toRolloutStatus := StateTransition a.Status.toRolloutStatus .WorkloadModifiedEvent } }

/-- The AppRollout with `WorkloadModifiedEvent` raised once on its rollout status by the
given state transition (line 92). -/
def restartWith (transition : RolloutStatus → RolloutEvent → RolloutStatus) (a : AppRollout) :
    AppRollout :=
  { a with Status :=
    { a.Status with
      toRolloutStatus := transition a.Status.toRolloutStatus .WorkloadModifiedEvent } }

/-- The in-memory object lines 95-184 work on when Reconcile has not returned at line 88:
restarted when the rollout had terminated, as read otherwise. -/
def proceedsWith (a : AppRollout) : AppRollout :=
  if Terminated a then restart a else a

/-- The call is an invocation of the rollout plan controller. -/
def Call.isPlanReconcile : Call → Bool
  | .planReconcile _ _ _ => true
  | _ => false

/-- The call is an update of an application revision (an annotation update). -/
def Call.isUpdate : Call → Bool
  | .update _ => true
  | _ => false

/-- The call is an update of the status of the AppRollout. -/
def Call.isStatusUpdate : Call → Bool
  | .statusUpdate _ => true
  | _ => false

/-- The call is a lookup of an application revision. -/
def Call.isGetAppConfig : Call → Bool
  | .getAppConfig _ => true
  | _ => false

/-- The source revision as Reconcile updates it on success (lines 164-165): the rollout
annotation removed, the app-revision annotation set to "true". -/
def markedSource (src : ApplicationConfiguration) : ApplicationConfiguration :=
  AddAnnotations (RemoveAnnotations src [AnnotationAppRollout])
    [(AnnotationAppRevision, FormatBool true)]

/-- The target revision as Reconcile updates it on success (line 173): the rollout
annotation removed. -/
def releasedTarget (tgt : ApplicationConfiguration) : ApplicationConfiguration :=
  RemoveAnnotations tgt [AnnotationAppRollout]

/-- The call is not an invocation of the plan controller, or is one on the object `a`. -/
def planOn (a : AppRollout) : Call → Bool
  | .planReconcile ar _ _ => decide (ar = a)
  | _ => true

/-- The call is a re-read of the AppRollout or a status update that writes `status`. -/
def persistOf (status : AppRolloutStatus) : Call → Bool
  | .getAppRollout _ => true
  | .statusUpdate obj => decide (obj.Status = status)
  | _ => false

/-- The call is one of the two `updateStatus` makes: the re-read or the status update. -/
def Call.isPersist : Call → Bool
  | .getAppRollout _ => true
  | .statusUpdate _ => true
  | _ => false

/-- The calls of an invocation up to and including the workload extraction, when every
lookup succeeds. -/
def lookupTrace (req : Request) (a : AppRollout) (targetApp : ApplicationConfiguration)
    (sourceApp : Option ApplicationConfiguration) : List Call :=
  [Call.getAppRollout req.NamespacedName, Call.getAppConfig (targetKey req a)] ++
  (match sourceApp with
   | some _ => [Call.getAppConfig (sourceKey req a)]
   | none => []) ++
  [Call.extractWorkloads a.Spec.ComponentList targetApp sourceApp]

/-- The invocation reaches the rollout plan controller: the AppRollout is read, the rollout
has not terminated on the same pair, the target revision is found and templated, the source
revision is either not named or found and templated, and the workloads are extracted. -/
structure ReachesPlan {W : Type} (r : Reconciler W) (req : Request) (w : W) (a : AppRollout)
    (targetApp : ApplicationConfiguration) (sourceApp : Option ApplicationConfiguration)
    (targetWorkload : Workload) (sourceWorkload : Option Workload) : Prop where
  read : r.GetAppRollout req.NamespacedName w = .ok a
  proceeds : ¬ (Terminated a ∧ SamePair a)
  target : r.GetAppConfig (targetKey req a) w = .ok targetApp
  targetTemplated : targetApp.RollingStatus = .RollingTemplated
  source : (a.Spec.SourceAppRevisionName = "" ∧ sourceApp = none) ∨
    (a.Spec.SourceAppRevisionName ≠ "" ∧ ∃ src, sourceApp = some src ∧
      r.GetAppConfig (sourceKey req a) w = .ok src ∧ src.RollingStatus = .RollingTemplated)
  workloads : r.extractWorkloads a.Spec.ComponentList targetApp sourceApp w =
    .ok (targetWorkload, sourceWorkload)

/-- In world `w` an invocation gets as far as the revision lookups and finds the target
revision missing, or finds the target and then the source revision missing. -/
def RevisionMissing {W : Type} (r : Reconciler W) (req : Request) (w : W) : Prop :=
  ∃ a, r.GetAppRollout req.NamespacedName w = .ok a ∧ ¬ (Terminated a ∧ SamePair a) ∧
    ((∃ err, r.GetAppConfig (targetKey req a) w = .error err ∧ IsNotFound err = true) ∨
     (∃ tgt, r.GetAppConfig (targetKey req a) w = .ok tgt ∧
        tgt.RollingStatus = .RollingTemplated ∧ a.Spec.SourceAppRevisionName ≠ "" ∧
        ∃ err, r.GetAppConfig (sourceKey req a) w = .error err ∧ IsNotFound err = true))

/-- The world after `n` consecutive invocations of Reconcile for the same request, nothing
else touching the world in between. -/
def reconcileN {W : Type} (r : Reconciler W) (req : Request) : Nat → W → W
  | 0, w => w
  | n + 1, w => reconcileN r req n (Reconcile r req w).world

/-! ## An in-memory client -/

/-- The objects of a small in-memory cluster. -/
structure Store where
  appRollouts : List AppRollout := []
  appConfigs : List ApplicationConfiguration := []
deriving DecidableEq, Repr

/-- Read an AppRollout by key; not-found when the store has none under it. -/
def Store.getAppRollout (key : NamespacedName) (s : Store) : Except ApiError AppRollout :=
  match s.appRollouts.find? (fun a => a.Namespace == key.Namespace && a.Name == key.Name) with
  | some a => .ok a
  | none => .error (.notFound key.Name)

/-- Read an application revision by key; not-found when the store has none under it. -/
def Store.getAppConfig (key : NamespacedName) (s : Store) :
    Except ApiError ApplicationConfiguration :=
  match s.appConfigs.find? (fun a => a.Namespace == key.Namespace && a.Name == key.Name) with
  | some a => .ok a
  | none => .error (.notFound key.Name)

/-- Replace the stored application revision of the same key. -/
def Store.update (obj : ApplicationConfiguration) (s : Store) : Option ApiError × Store :=
  if s.appConfigs.any (fun a => a.Namespace == obj.Namespace && a.Name == obj.Name) then
    (none, { s with appConfigs := s.appConfigs.map (fun a =>
      if a.Namespace == obj.Namespace && a.Name == obj.Name then obj else a) })
  else (some (.notFound obj.Name), s)

/-- Replace the status of the stored AppRollout of the same key, under optimistic
concurrency: the write is refused with a conflict unless the resource versions agree. -/
def Store.statusUpdate (obj : AppRollout) (s : Store) : Option ApiError × Store :=
  match s.appRollouts.find? (fun a => a.Namespace == obj.Namespace && a.Name == obj.Name) with
  | none => (some (.notFound obj.Name), s)
  | some cur =>
    if cur.ResourceVersion = obj.ResourceVersion then
      (none, { s with appRollouts := s.appRollouts.map (fun a =>
        if a.Namespace == obj.Namespace && a.Name == obj.Name then
          { a with Status := obj.Status, ResourceVersion := a.ResourceVersion + 1 } else a) })
    else (some (.conflict obj.Name), s)

/-- The workload of a revision, as a CloneSet named after it. -/
def workloadOf (app : ApplicationConfiguration) : Workload :=
  { Kind := "CloneSet", Namespace := app.Namespace, Name := app.Name }

/-- The reconciler over the in-memory cluster, for a given rollout plan controller. -/
def memReconciler (plan : AppRollout → Result × RolloutStatus) : Reconciler Store where
  GetAppRollout := Store.getAppRollout
  GetAppConfig := Store.getAppConfig
  Update := Store.update
  StatusUpdate := Store.statusUpdate
  extractWorkloads := fun _ targetApp sourceApp _ =>
    .ok (workloadOf targetApp, sourceApp.map workloadOf)
  planReconcile := fun appRollout _ _ s => (plan appRollout, s)

/-- A plan controller that leaves the status as it is and asks for nothing. -/
def planKeep (appRollout : AppRollout) : Result × RolloutStatus :=
  ({}, appRollout.Status.toRolloutStatus)

/-- A plan controller that reports the rollout as succeeded. -/
def planSucceed (appRollout : AppRollout) : Result × RolloutStatus :=
  ({}, { appRollout.Status.toRolloutStatus with RollingState := .RolloutSucceedState })

/-- A plan controller that reports the rollout as failed. -/
def planFail (appRollout : AppRollout) : Result × RolloutStatus :=
  ({}, { appRollout.Status.toRolloutStatus with RollingState := .RolloutFailedState })

/-- The request for the AppRollout `rolling-e2e-test/rolling-test`. -/
def demoRequest : Request :=
  { NamespacedName := { Namespace := "rolling-e2e-test", Name := "rolling-test" } }

/-- A succeeded AppRollout from revision `app-v1` to `app-v2`, with the pair recorded. -/
def doneRollout : AppRollout :=
  { Namespace := "rolling-e2e-test", Name := "rolling-test",
    Spec := { TargetAppRevisionName := "app-v2", SourceAppRevisionName := "app-v1",
              RolloutPlan := { RolloutBatches := [.percent 50, .percent 100],
                               BatchPartition := some 0, Paused := true } },
    Status := { RollingState := .RolloutSucceedState, BatchRollingState := .BatchReadyState,
                CurrentBatch := 1,
                Conditions := [{ type := "RolloutSucceed", status := "True",
                                 lastTransitionTime := 1611000000, reason := "", message := "" }],
                LastUpgradedTargetAppRevision := "app-v2",
                LastSourceAppRevision := "app-v1" } }

/-- The source revision `app-v1`, templated and under rollout control. -/
def appV1 : ApplicationConfiguration :=
  { Namespace := "rolling-e2e-test", Name := "app-v1",
    Annotations := [("app.oam.dev/rollout-template", "true"), ("owner", "team-a")],
    RollingStatus := .RollingTemplated }

/-- The target revision `app-v2`, templated and under rollout control. -/
def appV2 : ApplicationConfiguration :=
  { Namespace := "rolling-e2e-test", Name := "app-v2",
    Annotations := [("app.oam.dev/rollout-template", "true"), ("owner", "team-a")],
    RollingStatus := .RollingTemplated }

/-- A cluster holding the succeeded rollout and its two revisions. -/
def doneStore : Store :=
  { appRollouts := [doneRollout], appConfigs := [appV1, appV2] }

/-- The succeeded rollout after the user has pointed it at a new pair: from `app-v2` back
to `app-v3`, while the recorded pair is still `app-v1`, `app-v2`. -/
def changedRollout : AppRollout :=
  { doneRollout with
    Spec := { doneRollout.Spec with
      TargetAppRevisionName := "app-v3", SourceAppRevisionName := "app-v2" } }

/-- The revision `app-v3`, templated and under rollout control. -/
def appV3 : ApplicationConfiguration :=
  { Namespace := "rolling-e2e-test", Name := "app-v3",
    Annotations := [("app.oam.dev/rollout-template", "true"), ("owner", "team-a")],
    RollingStatus := .RollingTemplated }

/-- A cluster holding the re-pointed rollout and the revisions `app-v2` and `app-v3`. -/
def changedStore : Store :=
  { appRollouts := [changedRollout], appConfigs := [appV2, appV3] }

/-- A rollout in progress from `app-v1` to `app-v2`, in its last batch. -/
def rollingRollout : AppRollout :=
  { Namespace := "rolling-e2e-test", Name := "rolling-test",
    Spec := { TargetAppRevisionName := "app-v2", SourceAppRevisionName := "app-v1",
              RolloutPlan := { RolloutBatches := [.percent 50, .percent 100],
                               BatchPartition := some 1 } },
    Status := { RollingState := .RollingInBatchesState, BatchRollingState := .BatchReadyState,
                CurrentBatch := 1,
                LastUpgradedTargetAppRevision := "app-v2",
                LastSourceAppRevision := "app-v1" } }

/-- A cluster holding the rollout in progress and its two revisions. -/
def rollingStore : Store :=
  { appRollouts := [rollingRollout], appConfigs := [appV1, appV2] }

/-- The reconciler over the in-memory cluster when the server refuses every update of an
application revision. -/
def refusedUpdates (plan : AppRollout → Result × RolloutStatus) : Reconciler Store :=
  { memReconciler plan with Update := fun _ s => (some (.other "update refused"), s) }

/-- The status another writer has persisted meanwhile: the batch was paused. -/
def pausedStatus : AppRolloutStatus :=
  { rollingRollout.Status with
    BatchRollingState := .BatchPaused,
    Conditions := [{ type := "BatchPaused", status := "True",
                     lastTransitionTime := 1611000300, reason := "", message := "" }] }

/-- A cluster in which another writer has persisted `pausedStatus` on the rollout after
the invocation read it: the stored object is one resource version ahead. -/
def concurrentStore : Store :=
  { appRollouts := [{ rollingRollout with ResourceVersion := 1, Status := pausedStatus }],
    appConfigs := [appV1, appV2] }

/-- The in-memory object of the invocation: read at resource version 0, with the status
the invocation has computed (the rollout succeeded). -/
def computedRollout : AppRollout :=
  copyBack rollingRollout (planSucceed rollingRollout).2 "app-v2" "app-v1"

/-- The reconciler over the in-memory cluster when another writer wins every race: each
status update is refused with a conflict. -/
def conflictingWrites (plan : AppRollout → Result × RolloutStatus) : Reconciler Store :=
  { memReconciler plan with StatusUpdate := fun obj s => (some (.conflict obj.Name), s) }

/-- The reconciler over the in-memory cluster when the server forbids status updates. -/
def forbiddenWrites (plan : AppRollout → Result × RolloutStatus) : Reconciler Store :=
  { memReconciler plan with StatusUpdate := fun _ s => (some (.other "forbidden"), s) }

/-- A rollout that has not started yet, from `app-v1` to `app-v2`. -/
def pendingRollout : AppRollout :=
  { Namespace := "rolling-e2e-test", Name := "rolling-test",
    Spec := { TargetAppRevisionName := "app-v2", SourceAppRevisionName := "app-v1",
              RolloutPlan := { RolloutBatches := [.percent 50, .percent 100] } } }

/-- A cluster holding the rollout that has not started, and neither of its revisions. -/
def missingStore : Store :=
  { appRollouts := [pendingRollout], appConfigs := [] }

/-- A cluster holding the rollout that has not started and its target revision only. -/
def sourceMissingStore : Store :=
  { appRollouts := [pendingRollout], appConfigs := [appV2] }

/-- The reconciler over the in-memory cluster when the workload extraction fails with the
given error. -/
def brokenExtraction (plan : AppRollout → Result × RolloutStatus) (err : ApiError) :
    Reconciler Store :=
  { memReconciler plan with extractWorkloads := fun _ _ _ _ => .error err }

/-- The reconciler over the in-memory cluster when the server cannot be reached for the
revision of the given name. -/
def unreachableRevision (plan : AppRollout → Result × RolloutStatus) (name : String) :
    Reconciler Store :=
  { memReconciler plan with
    GetAppConfig := fun key s =>
      if key.Name = name then .error (.other "connection refused")
      else Store.getAppConfig key s }

/-- The call is an event handed to the recorder. -/
def Call.isEvent : Call → Bool
  | .event _ _ => true
  | _ => false

/-- The call is a workload extraction. -/
def Call.isExtractWorkloads : Call → Bool
  | .extractWorkloads _ _ _ => true
  | _ => false

/-- The world and the calls after lines 161-181, given the rollout status `rs` the plan
controller returned: after the hand-over when `rs` reports success, untouched otherwise. -/
def afterHandOver {W : Type} (r : Reconciler W) (rs : RolloutStatus)
    (targetApp : ApplicationConfiguration) (sourceApp : Option ApplicationConfiguration)
    (w : W) (t : List Call) : W × List Call :=
  if rs.RollingState = .RolloutSucceedState then (handOver r targetApp sourceApp w t).2
  else (w, t)

/-- The invocation ends before the rollout plan controller: the AppRollout cannot be read,
the rollout has terminated on the recorded pair, a revision lookup fails, a revision is not
templated, or the workload extraction fails. -/
inductive EndsEarly {W : Type} (r : Reconciler W) (req : Request) (w : W) : Prop where
  | readFails (err : ApiError) (hget : r.GetAppRollout req.NamespacedName w = .error err)
  | terminated (a : AppRollout) (hget : r.GetAppRollout req.NamespacedName w = .ok a)
      (hdone : Terminated a ∧ SamePair a)
  | targetFails (a : AppRollout) (hget : r.GetAppRollout req.NamespacedName w = .ok a)
      (hgo : ¬ (Terminated a ∧ SamePair a)) (err : ApiError)
      (htgt : r.GetAppConfig (targetKey req a) w = .error err)
  | targetNotTemplated (a : AppRollout)
      (hget : r.GetAppRollout req.NamespacedName w = .ok a)
      (hgo : ¬ (Terminated a ∧ SamePair a)) (tgt : ApplicationConfiguration)
      (htgt : r.GetAppConfig (targetKey req a) w = .ok tgt)
      (htempl : tgt.RollingStatus ≠ .RollingTemplated)
  | sourceFails (a : AppRollout) (hget : r.GetAppRollout req.NamespacedName w = .ok a)
      (hgo : ¬ (Terminated a ∧ SamePair a)) (tgt : ApplicationConfiguration)
      (htgt : r.GetAppConfig (targetKey req a) w = .ok tgt)
      (htempl : tgt.RollingStatus = .RollingTemplated)
      (hname : a.Spec.SourceAppRevisionName ≠ "") (err : ApiError)
      (hsrc : r.GetAppConfig (sourceKey req a) w = .error err)
  | sourceNotTemplated (a : AppRollout)
      (hget : r.GetAppRollout req.NamespacedName w = .ok a)
      (hgo : ¬ (Terminated a ∧ SamePair a)) (tgt src : ApplicationConfiguration)
      (htgt : r.GetAppConfig (targetKey req a) w = .ok tgt)
      (htempl : tgt.RollingStatus = .RollingTemplated)
      (hname : a.Spec.SourceAppRevisionName ≠ "")
      (hsrc : r.GetAppConfig (sourceKey req a) w = .ok src)
      (hstempl : src.RollingStatus ≠ .RollingTemplated)
  | extractFails (a : AppRollout) (hget : r.GetAppRollout req.NamespacedName w = .ok a)
      (hgo : ¬ (Terminated a ∧ SamePair a)) (tgt : ApplicationConfiguration)
      (src : Option ApplicationConfiguration)
      (htgt : r.GetAppConfig (targetKey req a) w = .ok tgt)
      (htempl : tgt.RollingStatus = .RollingTemplated)
      (hsrc : (a.Spec.SourceAppRevisionName = "" ∧ src = none) ∨
        (a.Spec.SourceAppRevisionName ≠ "" ∧ ∃ s, src = some s ∧
          r.GetAppConfig (sourceKey req a) w = .ok s ∧ s.RollingStatus = .RollingTemplated))
      (err : ApiError)
      (hext : r.extractWorkloads a.Spec.ComponentList tgt src w = .error err)

/-- A cluster in which the target revision of the pending rollout is still being templated. -/
def targetTemplatingStore : Store :=
  { appRollouts := [pendingRollout],
    appConfigs := [appV1, { appV2 with RollingStatus := .RollingTemplating }] }

/-- A cluster in which the source revision of the pending rollout is still being templated. -/
def sourceTemplatingStore : Store :=
  { appRollouts := [pendingRollout],
    appConfigs := [{ appV1 with RollingStatus := .RollingTemplating }, appV2] }

/-- A rollout that deploys `app-v2` for the first time: no source revision is named. -/
def firstRollout : AppRollout :=
  { Namespace := "rolling-e2e-test", Name := "rolling-test",
    Spec := { TargetAppRevisionName := "app-v2", SourceAppRevisionName := "",
              RolloutPlan := { RolloutBatches := [.percent 50, .percent 100],
                               BatchPartition := some 1 } },
    Status := { RollingState := .RollingInBatchesState, BatchRollingState := .BatchReadyState,
                CurrentBatch := 1 } }

/-- A cluster holding the first-time rollout and the revisions `app-v1` and `app-v2`. -/
def firstStore : Store :=
  { appRollouts := [firstRollout], appConfigs := [appV1, appV2] }

/-- The reconciler over the in-memory cluster when the server refuses the update of the
application revision of the given name and accepts every other. -/
def refusedUpdateOf (plan : AppRollout → Result × RolloutStatus) (name : String) :
    Reconciler Store :=
  { memReconciler plan with
    Update := fun obj s =>
      if obj.Name = name then (some (.other "update refused"), s) else Store.update obj s }

/-! ## The batch planner and the rollout state machine, modelled from the specification -/

/-- The error of the batch planner. -/
inductive PlanError where
  | InvalidPlan (reason : String)
deriving DecidableEq, Repr

/-- Modelled from the spec: the batch planner (package `pkg/controller/common/rollout`, not
under `src/`) resolves the declared size of a batch against the total of desired replicas:
an absolute count is itself, a percentage is taken of the total, rounding down. -/
def resolveBatch (totalDesiredReplicas : Nat) : RolloutBatch → Nat
  | .replicas n => n
  | .percent p => totalDesiredReplicas * p / 100

/-- The count batch `i` of the plan declares, resolved against the total; 0 when the plan
has no batch `i`. -/
def declaredCount (batches : List RolloutBatch) (i : Nat) (totalDesiredReplicas : Nat) : Nat :=
  match batches[i]? with
  | some b => resolveBatch totalDesiredReplicas b
  | none => 0

/-- Modelled from the spec: `computeBatchTarget(batches, batchIndex, totalDesiredReplicas)`
of the batch planner (§4.1; package `pkg/controller/common/rollout`, not under `src/`).
The replica count of batch `i` is cumulative, the replicas that are to be on the target
version once batch `i` completes: it is the count the batch declares, resolved against the
total (rounding down), so that the plan `[25%, 50%, 100%]` over 4 replicas has the targets
1, 2, 4 of Scenarios A and B (§8).  The final batch always resolves to exactly the total,
whatever it declares, and so absorbs the rounding remainder.  The planner answers
`InvalidPlan` when a declared count exceeds the total; sizes are natural numbers, so a
negative weight cannot be written.  An index that names no batch is refused as well. -/
def computeBatchTarget (batches : List RolloutBatch) (batchIndex : Nat)
    (totalDesiredReplicas : Nat) : Except PlanError Nat :=
  if batches.length ≤ batchIndex then
    .error (.InvalidPlan "no such batch")
  else if batches.any (fun b => totalDesiredReplicas < resolveBatch totalDesiredReplicas b) then
    .error (.InvalidPlan "a declared count exceeds the total")
  else if batchIndex + 1 = batches.length then .ok totalDesiredReplicas
  else .ok (declaredCount batches batchIndex totalDesiredReplicas)

/-- A valid batch plan for a total of desired replicas (§4.1, §7): there is a batch, and no
declared count exceeds the total. -/
def ValidBatches (batches : List RolloutBatch) (totalDesiredReplicas : Nat) : Prop :=
  batches ≠ [] ∧ ∀ b ∈ batches, resolveBatch totalDesiredReplicas b ≤ totalDesiredReplicas

instance (batches : List RolloutBatch) (totalDesiredReplicas : Nat) :
    Decidable (ValidBatches batches totalDesiredReplicas) := by
  unfold ValidBatches; infer_instance

/-- Modelled from the spec: the workload snapshot (§3), read on each invocation. -/
structure WorkloadSnapshot where
  desiredReplicas : Nat
  updatedReplicas : Nat
  updatedReadyReplicas : Nat
  totalReplicas : Nat
  pauseFlag : Bool := true
  ownedByRollout : Bool := true
deriving DecidableEq, Repr

/-- Modelled from the spec: the side-effecting actions the state machine asks for (§2,
§4.2); the plan engine that issues them is not under `src/`. -/
inductive RolloutAction where
  | claimOwnership
  | setTargetReplicaCount (n : Nat)
  | markSourceInactive
  | releaseOwnership
deriving DecidableEq, Repr

/-- Modelled from the spec: the step of a rollout whose current batch is `BatchReady`
(§4.2).  A partition below the current batch is a backward move and fails the rollout; on
the final batch the rollout succeeds; otherwise the next batch starts only if the current
batch is below the partition (or no partition is given), going through `BatchPausing` when
the plan is paused; otherwise the rollout holds in `BatchReady`. -/
def batchReadyStep (plan : RolloutPlan) (s : RolloutStatus) :
    RolloutStatus × List RolloutAction :=
  if plan.BatchPartition.any (fun p => decide (p < s.CurrentBatch)) then
    ({ s with RollingState := .RolloutFailedState }, [])
  else if s.CurrentBatch + 1 = plan.RolloutBatches.length then
    ({ s with RollingState := .RolloutSucceedState },
      [.markSourceInactive, .releaseOwnership])
  else if plan.BatchPartition.all (fun p => decide (s.CurrentBatch < p)) then
    if plan.Paused then ({ s with BatchRollingState := .BatchPausing }, [])
    else ({ s with CurrentBatch := s.CurrentBatch + 1, BatchRollingState := .BatchInitial }, [])
  else (s, [])

/-- Modelled from the spec: the rollout state machine of the plan engine (§4.2, §9; package
`pkg/controller/common/rollout`, not under `src/`), as the pure function
`reduce(plan, snapshot, priorStatus) → (newStatus, actions)`.

* `Initial`: the engine first claims ownership of the target workload; once the snapshot
  shows the claim, the rollout enters `RollingInBatches` at `BatchInitial`.
* `BatchInitial → BatchInRolling`, setting the replica target of the current batch.
* `BatchInRolling → BatchVerifying` once `updatedReplicas` reaches the batch target.
* `BatchVerifying → BatchReady` once `updatedReadyReplicas` reaches the batch target.
* `BatchReady`: see `batchReadyStep`.
* `BatchPausing → BatchPaused`; `BatchPaused` fails on a backward move and otherwise holds
  until `paused` clears.
* `RolloutSucceeded` and `RolloutFailed` are terminal.

A batch target the planner refuses (`InvalidPlan`) holds the state.  The conditions of the
status and the grace period of the health gate, which run on the clock, are left out: the
status keeps the conditions it came with. -/
def reduce (plan : RolloutPlan) (snapshot : WorkloadSnapshot) (s : RolloutStatus) :
    RolloutStatus × List RolloutAction :=
  match s.RollingState with
  | .Initial =>
    if snapshot.ownedByRollout && snapshot.pauseFlag then
      ({ s with RollingState := .RollingInBatchesState, BatchRollingState := .BatchInitial }, [])
    else (s, [.claimOwnership])
  | .RollingInBatchesState =>
    match s.BatchRollingState with
    | .BatchInitial =>
      match computeBatchTarget plan.RolloutBatches s.CurrentBatch snapshot.desiredReplicas with
      | .ok target =>
        ({ s with BatchRollingState := .BatchInRolling }, [.setTargetReplicaCount target])
      | .error _ => (s, [])
    | .BatchInRolling =>
      match computeBatchTarget plan.RolloutBatches s.CurrentBatch snapshot.desiredReplicas with
      | .ok target =>
        if target ≤ snapshot.updatedReplicas then
          ({ s with BatchRollingState := .BatchVerifying }, [])
        else (s, [.setTargetReplicaCount target])
      | .error _ => (s, [])
    | .BatchVerifying =>
      match computeBatchTarget plan.RolloutBatches s.CurrentBatch snapshot.desiredReplicas with
      | .ok target =>
        if target ≤ snapshot.updatedReadyReplicas then
          ({ s with BatchRollingState := .BatchReadyState }, [])
        else (s, [])
      | .error _ => (s, [])
    | .BatchReadyState => batchReadyStep plan s
    | .BatchPausing => ({ s with BatchRollingState := .BatchPaused }, [])
    | .BatchPaused =>
      if plan.BatchPartition.any (fun p => decide (p < s.CurrentBatch)) then
        ({ s with RollingState := .RolloutFailedState }, [])
      else if plan.Paused then (s, [])
      else ({ s with BatchRollingState := .BatchReadyState }, [])
  | .RolloutSucceedState => (s, [])
  | .RolloutFailedState => (s, [])

/-- The status after consecutive invocations of the state machine with the same plan, one
for each snapshot of the list. -/
def runPlan (plan : RolloutPlan) : List WorkloadSnapshot → RolloutStatus → RolloutStatus
  | [], s => s
  | snapshot :: rest, s => runPlan plan rest (reduce plan snapshot s).1

/-- The workload has caught up with the plan: it has applied every target the planner can
set and the replicas are ready, so neither gate of a batch holds the rollout back. -/
def CaughtUp (plan : RolloutPlan) (snapshot : WorkloadSnapshot) : Prop :=
  ValidBatches plan.RolloutBatches snapshot.desiredReplicas ∧
  snapshot.desiredReplicas ≤ snapshot.updatedReplicas ∧
  snapshot.desiredReplicas ≤ snapshot.updatedReadyReplicas

/-- A workload of four replicas that has applied every target and is ready. -/
def readySnapshot : WorkloadSnapshot :=
  { desiredReplicas := 4, updatedReplicas := 4, updatedReadyReplicas := 4, totalReplicas := 4 }

/-- The plan controller of the in-memory cluster when it is the modelled state machine over
a workload that always shows the given snapshot. -/
def enginePlan (snapshot : WorkloadSnapshot) (appRollout : AppRollout) :
    Result × RolloutStatus :=
  ({}, (reduce appRollout.Spec.RolloutPlan snapshot appRollout.Status.toRolloutStatus).1)

/-- The plan of Scenarios A and B (§8): batches `[25%, 50%, 100%]`, stopping after the
first batch. -/
def threeBatchPlan : RolloutPlan :=
  { RolloutBatches := [.percent 25, .percent 50, .percent 100], BatchPartition := some 0 }

/-- The actions the state machine asks for over consecutive invocations with the same plan,
in order. -/
def planActions (plan : RolloutPlan) :
    List WorkloadSnapshot → RolloutStatus → List RolloutAction
  | [], _ => []
  | snapshot :: rest, s =>
    (reduce plan snapshot s).2 ++ planActions plan rest (reduce plan snapshot s).1

/-- A rollout from `app-v1` to `app-v2` under `threeBatchPlan` whose first batch is ready. -/
def heldRollout : AppRollout :=
  { Namespace := "rolling-e2e-test", Name := "rolling-test",
    Spec := { TargetAppRevisionName := "app-v2", SourceAppRevisionName := "app-v1",
              RolloutPlan := threeBatchPlan },
    Status := { RollingState := .RollingInBatchesState, BatchRollingState := .BatchReadyState,
                CurrentBatch := 0,
                LastUpgradedTargetAppRevision := "app-v2",
                LastSourceAppRevision := "app-v1" } }

/-- A cluster holding the held rollout and its two revisions. -/
def heldStore : Store :=
  { appRollouts := [heldRollout], appConfigs := [appV1, appV2] }

/-- The rollout in progress (second batch of two ready, partition 1) after the user has
lowered the partition to 0. -/
def loweredRollout : AppRollout :=
  { rollingRollout with
    Spec := { rollingRollout.Spec with
      RolloutPlan := { rollingRollout.Spec.RolloutPlan with BatchPartition := some 0 } } }

/-- A cluster holding the rollout with the lowered partition and its two revisions. -/
def loweredStore : Store :=
  { appRollouts := [loweredRollout], appConfigs := [appV1, appV2] }

/-- The held rollout after the user has raised the partition to the last batch index. -/
def raisedRollout : AppRollout :=
  { heldRollout with
    Spec := { heldRollout.Spec with
      RolloutPlan := { threeBatchPlan with BatchPartition := some 2 } } }

/-- A cluster holding the rollout with the raised partition and its two revisions. -/
def raisedStore : Store :=
  { appRollouts := [raisedRollout], appConfigs := [appV1, appV2] }

/-- The reconciler over the in-memory cluster when the server cannot be reached for the
AppRollout: every read of it fails with the given error. -/
def unreadableRollouts (plan : AppRollout → Result × RolloutStatus) (err : ApiError) :
    Reconciler Store :=
  { memReconciler plan with GetAppRollout := fun _ _ => .error err }

/-- A cluster that holds the two revisions but no AppRollout. -/
def orphanStore : Store :=
  { appRollouts := [], appConfigs := [appV1, appV2] }

/-- The lines `handleFinalizer` logs (lines 198-208), the only thing either branch does:
"add finalizer" for a live object that lacks the finalizer, "perform clean up" for an
object under deletion that carries it, nothing otherwise. -/
def handleFinalizerLog (appRollout : AppRollout) : List String :=
  if appRollout.DeletionTimestamp.isNone then
    if !appRollout.Finalizers.contains appRolloutFinalizer then ["add finalizer"] else []
  else if appRollout.Finalizers.contains appRolloutFinalizer then ["perform clean up"]
  else []

/-- The rollout in progress once its deletion has been requested, with the given
finalizers. -/
def deletedRollout (finalizers : List String) : AppRollout :=
  { rollingRollout with DeletionTimestamp := some 1611000600, Finalizers := finalizers }

/-- The rollout in progress after the user has pointed it at a new pair, from `app-v2` to
`app-v3`, while it is still rolling and the recorded pair is `app-v1`, `app-v2`. -/
def retargetedRollout : AppRollout :=
  { rollingRollout with
    Spec := { rollingRollout.Spec with
      TargetAppRevisionName := "app-v3", SourceAppRevisionName := "app-v2" } }

/-- A cluster holding the re-pointed rollout in progress and the revisions `app-v2` and
`app-v3`. -/
def retargetedStore : Store :=
  { appRollouts := [retargetedRollout], appConfigs := [appV2, appV3] }

/-- The cluster after a user has replaced the rollout plan of every stored AppRollout. -/
def Store.editPlan (plan : RolloutPlan) (s : Store) : Store :=
  { s with appRollouts := s.appRollouts.map (fun a =>
      { a with Spec := { a.Spec with RolloutPlan := plan } }) }

/-- A plan edited after the rollout has ended: other batches, the partition moved, paused. -/
def editedPlan : RolloutPlan :=
  { RolloutBatches := [.replicas 1, .percent 20, .percent 100], BatchPartition := some 0,
    Paused := true }

/-- A state transition that counts the events raised on a status: each event moves
`currentBatch` up by one.  It is not the transition of the controller; raising an event
twice under it differs from raising it once. -/
def countingTransition (s : RolloutStatus) (_ : RolloutEvent) : RolloutStatus :=
  { s with CurrentBatch := s.CurrentBatch + 1 }

/-- A failed AppRollout from `app-v1` to `app-v2` after the user has pointed it at the pair
`app-v2`, `app-v3`. -/
def failedChangedRollout : AppRollout :=
  { changedRollout with
    Status := { changedRollout.Status with RollingState := .RolloutFailedState } }

/-- A cluster holding the re-pointed failed rollout and the revisions `app-v2` and `app-v3`. -/
def failedChangedStore : Store :=
  { appRollouts := [failedChangedRollout], appConfigs := [appV2, appV3] }

/-- The status lines 158-160 leave on the in-memory object: the rollout status the plan
controller returned, with the names of the spec as the recorded pair. -/
def recordedStatus (rolloutStatus : RolloutStatus) (a : AppRollout) : AppRolloutStatus :=
  { toRolloutStatus := rolloutStatus,
    LastUpgradedTargetAppRevision := a.Spec.TargetAppRevisionName,
    LastSourceAppRevision := a.Spec.SourceAppRevisionName }

/-- The key under which `updateStatus` re-reads the AppRollout (line 190). -/
def rereadKey (a : AppRollout) : NamespacedName :=
  { Namespace := a.Namespace, Name := a.Name }

/-- The object the status update of line 194 writes: the re-read object with the given
status on it. -/
def withStatus (fresh : AppRollout) (status : AppRolloutStatus) : AppRollout :=
  { fresh with Status := status }

/-- A plan controller that moves the batch on to its verification and asks to be invoked
again after three seconds. -/
def planVerify (appRollout : AppRollout) : Result × RolloutStatus :=
  ({ RequeueAfter := 3 * Second },
   { appRollout.Status.toRolloutStatus with BatchRollingState := .BatchVerifying })

/-- The rollout in progress after the user has cleared the source name: `app-v2` is now
deployed as for the first time, while the recorded pair is still `app-v2`, `app-v1`. -/
def sourceClearedRollout : AppRollout :=
  { rollingRollout with
    Spec := { rollingRollout.Spec with SourceAppRevisionName := "" } }

/-- A cluster holding the rollout with the cleared source name and both revisions. -/
def sourceClearedStore : Store :=
  { appRollouts := [sourceClearedRollout], appConfigs := [appV1, appV2] }

/-! ## Theorems -/

/-! ### Annotations -/

theorem annotationOf_filter (l : List (String × String)) (p : String → Bool) (k : String) :
    annotationOf (l.filter (fun kv => p kv.1)) k = if p k then annotationOf l k else none := by
  induction l with
  | nil => simp [annotationOf]
  | cons hd tl ih =>
    unfold annotationOf at ih ⊢
    by_cases hp : p hd.1 = true
    · by_cases hk : hd.1 = k
      · subst hk
        simp [List.filter, hp, List.find?]
      · have hne : (hd.1 == k) = false := by simpa using hk
        simp only [List.filter, hp, List.find?, hne]
        exact ih
    · have hp2 : p hd.1 = false := by simpa using hp
      by_cases hk : hd.1 = k
      · subst hk
        simp only [List.filter, hp2, List.find?, beq_self_eq_true]
        rw [ih]; simp [hp2]
      · have hne : (hd.1 == k) = false := by simpa using hk
        simp only [List.filter, hp2, List.find?, hne]
        exact ih

theorem annotationOf_append (l1 l2 : List (String × String)) (k : String) :
    annotationOf (l1 ++ l2) k =
      match annotationOf l1 k with
      | some v => some v
      | none => annotationOf l2 k := by
  unfold annotationOf
  rw [List.find?_append]
  cases h : List.find? (fun kv => kv.1 == k) l1 <;> simp

theorem annotation_keys_ne : AnnotationAppRollout ≠ AnnotationAppRevision := by decide

/-- Removing keys leaves no value under a removed key and every other value as it was. -/
theorem annotationOf_RemoveAnnotations (o : ApplicationConfiguration) (keys : List String)
    (k : String) :
    annotationOf (RemoveAnnotations o keys).Annotations k =
      if keys.contains k then none else annotationOf o.Annotations k := by
  unfold RemoveAnnotations
  simp only
  rw [annotationOf_filter o.Annotations (fun x => !keys.contains x) k]
  cases keys.contains k <;> simp

/-- Adding one pair gives its value under its key and leaves every other value as it was. -/
theorem annotationOf_AddAnnotations (o : ApplicationConfiguration) (key value k : String) :
    annotationOf (AddAnnotations o [(key, value)]).Annotations k =
      if k = key then some value else annotationOf o.Annotations k := by
  unfold AddAnnotations
  simp only [List.map_cons, List.map_nil]
  rw [annotationOf_append, annotationOf_filter o.Annotations (fun x => !(List.contains [key] x)) k]
  by_cases hk : k = key
  · subst hk
    simp [annotationOf]
  · have hk2 : ¬ key = k := fun h => hk h.symm
    have hsingle : annotationOf [(key, value)] k = none := by simp [annotationOf, hk2]
    rw [hsingle]
    generalize annotationOf o.Annotations k = g
    cases g <;> simp [hk]

/-! ### The path of an invocation -/

theorem handleFinalizer_eq (a : AppRollout) : handleFinalizer a = a := by
  unfold handleFinalizer
  split <;> split <;> rfl

theorem proceedsWith_Spec (a : AppRollout) : (proceedsWith a).Spec = a.Spec := by
  unfold proceedsWith restart
  split <;> rfl

/-- Past line 93: unless the rollout has terminated on the same pair, Reconcile goes on to
the revision lookups with the in-memory object. -/
theorem reconcile_proceeds {W : Type} (r : Reconciler W) (req : Request) (w : W)
    (a : AppRollout) (hget : r.GetAppRollout req.NamespacedName w = .ok a)
    (hgo : ¬ (Terminated a ∧ SamePair a)) :
    Reconcile r req w =
      reconcileRevisions r req (proceedsWith a) w [Call.getAppRollout req.NamespacedName] := by
  unfold Reconcile ReconcileWith
  simp only [hget, handleFinalizer_eq]
  unfold proceedsWith
  by_cases hterm : Terminated a
  · have hpair : ¬ SamePair a := fun h => hgo ⟨hterm, h⟩
    rw [if_pos hterm]
    unfold Terminated at hterm
    unfold SamePair at hpair
    rw [if_pos hterm, if_neg hpair]
    rfl
  · rw [if_neg hterm]
    unfold Terminated at hterm
    rw [if_neg hterm]

theorem targetKey_proceedsWith (req : Request) (a : AppRollout) :
    targetKey req (proceedsWith a) = targetKey req a := by
  unfold targetKey; rw [proceedsWith_Spec]

theorem sourceKey_proceedsWith (req : Request) (a : AppRollout) :
    sourceKey req (proceedsWith a) = sourceKey req a := by
  unfold sourceKey; rw [proceedsWith_Spec]

/-- Past line 151: when every lookup succeeds, Reconcile is the rest of the invocation from
the plan controller on, after the calls of the lookups. -/
theorem reconcile_reaches_plan {W : Type} {r : Reconciler W} {req : Request} {w : W}
    {a : AppRollout} {targetApp : ApplicationConfiguration}
    {sourceApp : Option ApplicationConfiguration} {tw : Workload} {sw : Option Workload}
    (h : ReachesPlan r req w a targetApp sourceApp tw sw) :
    Reconcile r req w =
      finishRollout r (proceedsWith a) targetApp sourceApp tw sw w
        (lookupTrace req a targetApp sourceApp) := by
  rw [reconcile_proceeds r req w a h.read h.proceeds]
  unfold reconcileRevisions
  simp only [targetKey_proceedsWith, sourceKey_proceedsWith, h.target, h.targetTemplated,
    ne_eq, not_true_eq_false, if_false, proceedsWith_Spec]
  rcases h.source with ⟨hno, hsrc⟩ | ⟨hyes, src, hsrc, hgetsrc, htempl⟩
  · subst hsrc
    rw [if_pos hno]
    unfold reconcileWorkloads
    simp only [proceedsWith_Spec, h.workloads]
    rfl
  · subst hsrc
    rw [if_neg hyes]
    simp only [hgetsrc, htempl, not_true_eq_false, if_false]
    unfold reconcileWorkloads
    simp only [proceedsWith_Spec, h.workloads]
    rfl

/-! ### The calls of an invocation -/

/-- An invariant of the state that every attempt keeps is kept by the retry loop. -/
theorem RetryOnConflict_invariant {σ : Type} (fn : σ → Option ApiError × σ) (P : σ → Prop)
    (hfn : ∀ s, P s → P (fn s).2) :
    ∀ (n : Nat) (e : Option ApiError) (s : σ), P s → P (RetryOnConflict fn n e s).2 := by
  intro n
  induction n with
  | zero => intro e s hs; simpa [RetryOnConflict] using hs
  | succ n ih =>
    intro e s hs
    have hstep := hfn s hs
    unfold RetryOnConflict
    cases hres : fn s with
    | mk err s1 =>
      rw [hres] at hstep
      cases err with
      | none => simpa using hstep
      | some err =>
        by_cases hc : IsConflict err = true
        · simpa [hc] using ih (some err) s1 hstep
        · simpa [hc] using hstep

theorem RetryOnConflict_succ {σ : Type} (fn : σ → Option ApiError × σ) (n : Nat)
    (e : Option ApiError) (s : σ) :
    RetryOnConflict fn (n + 1) e s =
      match fn s with
      | (none, s1) => (none, s1)
      | (some err, s1) =>
        if IsConflict err then RetryOnConflict fn n (some err) s1 else (some err, s1) := by
  rw [RetryOnConflict]

/-- When each of the `n + 1` runs ends in a conflict, the loop makes exactly `n + 1` runs
and returns the conflict of the last one. -/
theorem RetryOnConflict_all_conflict {σ : Type} (fn : σ → Option ApiError × σ) :
    ∀ (n : Nat) (e : Option ApiError) (s : σ),
      (∀ k, k < n + 1 → ∃ err, (fn (iterState fn k s)).1 = some err ∧ IsConflict err = true) →
      RetryOnConflict fn (n + 1) e s = ((fn (iterState fn n s)).1, iterState fn (n + 1) s) := by
  intro n
  induction n with
  | zero =>
    intro e s h
    obtain ⟨err, herr, hc⟩ := h 0 (by omega)
    rw [RetryOnConflict_succ]
    simp only [iterState] at herr
    cases hres : fn s with
    | mk e1 s1 =>
      rw [hres] at herr
      simp only at herr
      subst herr
      simp [hc, RetryOnConflict, iterState, hres]
  | succ n ih =>
    intro e s h
    obtain ⟨err, herr, hc⟩ := h 0 (by omega)
    rw [RetryOnConflict_succ]
    simp only [iterState] at herr
    cases hres : fn s with
    | mk e1 s1 =>
      rw [hres] at herr
      simp only at herr
      subst herr
      simp only [hc, if_true]
      have hshift : ∀ k, k < n + 1 →
          ∃ err, (fn (iterState fn k s1)).1 = some err ∧ IsConflict err = true := by
        intro k hk
        have := h (k + 1) (by omega)
        simpa [iterState, hres] using this
      rw [ih (some err) s1 hshift]
      simp [iterState, hres]

/-- The loop ends with the first run that does not end in a conflict, and returns what
that run returned: nil, or an error that is not a conflict. -/
theorem RetryOnConflict_stops {σ : Type} (fn : σ → Option ApiError × σ) :
    ∀ (k n : Nat) (e : Option ApiError) (s : σ), k < n →
      (∀ j, j < k → ∃ err, (fn (iterState fn j s)).1 = some err ∧ IsConflict err = true) →
      (∀ err, (fn (iterState fn k s)).1 = some err → IsConflict err = false) →
      RetryOnConflict fn n e s = ((fn (iterState fn k s)).1, iterState fn (k + 1) s) := by
  intro k
  induction k with
  | zero =>
    intro n e s hn _ hstop
    obtain ⟨m, rfl⟩ : ∃ m, n = m + 1 := ⟨n - 1, by omega⟩
    rw [RetryOnConflict_succ]
    simp only [iterState] at hstop ⊢
    cases hres : fn s with
    | mk e1 s1 =>
      rw [hres] at hstop
      cases e1 with
      | none => rfl
      | some err =>
        have := hstop err rfl
        simp [this]
  | succ k ih =>
    intro n e s hn hconf hstop
    obtain ⟨m, rfl⟩ : ∃ m, n = m + 1 := ⟨n - 1, by omega⟩
    obtain ⟨err, herr, hc⟩ := hconf 0 (by omega)
    rw [RetryOnConflict_succ]
    simp only [iterState] at herr
    cases hres : fn s with
    | mk e1 s1 =>
      rw [hres] at herr
      simp only at herr
      subst herr
      simp only [hc, if_true]
      have hshift : ∀ j, j < k →
          ∃ err, (fn (iterState fn j s1)).1 = some err ∧ IsConflict err = true := by
        intro j hj
        have := hconf (j + 1) (by omega)
        simpa [iterState, hres] using this
      have hstop2 : ∀ err, (fn (iterState fn k s1)).1 = some err → IsConflict err = false := by
        intro err2 h2
        apply hstop err2
        simpa [iterState, hres] using h2
      rw [ih m (some err) s1 (by omega) hshift hstop2]
      simp [iterState, hres]

theorem isPersist_of_persistOf {status : AppRolloutStatus} {c : Call}
    (h : persistOf status c = true) : c.isPersist = true := by
  cases c <;> simp_all [persistOf, Call.isPersist]

/-- One attempt of `updateStatus` adds only its own calls: a re-read, then, when the
re-read succeeds, the update of the re-read object with the saved status on it. -/
theorem updateStatusAttempt_trace {W : Type} (r : Reconciler W) (status : AppRolloutStatus)
    (p : Persist W) :
    ∃ ext, (updateStatusAttempt r status p).2.trace = p.trace ++ ext ∧
      (∀ c ∈ ext, persistOf status c = true) ∧
      ∀ fresh, r.GetAppRollout ⟨p.appRollout.Namespace, p.appRollout.Name⟩ p.world =
          .ok fresh →
        ext = [Call.getAppRollout ⟨p.appRollout.Namespace, p.appRollout.Name⟩,
          Call.statusUpdate { fresh with Status := status }] := by
  unfold updateStatusAttempt
  simp only
  split
  · rename_i err herr
    refine ⟨[Call.getAppRollout ⟨p.appRollout.Namespace, p.appRollout.Name⟩], rfl, ?_, ?_⟩
    · intro c hc
      simp only [List.mem_singleton] at hc
      rw [hc]; rfl
    · intro fresh hfresh
      rw [hfresh] at herr
      cases herr
  · rename_i fresh hok
    refine ⟨[Call.getAppRollout ⟨p.appRollout.Namespace, p.appRollout.Name⟩,
      Call.statusUpdate { fresh with Status := status }], ?_, ?_, ?_⟩
    · simp
    · intro c hc
      simp only [List.mem_cons, List.mem_singleton, List.mem_nil_iff, or_false] at hc
      rcases hc with h | h <;> (rw [h]; simp [persistOf])
    · intro fresh2 hfresh
      rw [hfresh] at hok
      cases hok
      rfl

/-- Every call of `updateStatus` is a re-read or a status update that writes the status
the object had on entry. -/
theorem updateStatus_writes {W : Type} (r : Reconciler W) (a : AppRollout) (w : W)
    (t : List Call) :
    ∃ ext, (updateStatus r a w t).2.trace = t ++ ext ∧
      ∀ c ∈ ext, persistOf a.Status c = true := by
  unfold updateStatus
  apply RetryOnConflict_invariant (updateStatusAttempt r a.Status)
    (fun p => ∃ ext, p.trace = t ++ ext ∧ ∀ c ∈ ext, persistOf a.Status c = true)
  · rintro p ⟨ext, hp, hext⟩
    obtain ⟨ext2, h2, hext2, _⟩ := updateStatusAttempt_trace r a.Status p
    refine ⟨ext ++ ext2, ?_, ?_⟩
    · rw [h2, hp, List.append_assoc]
    · intro c hc
      rcases List.mem_append.mp hc with h | h
      · exact hext c h
      · exact hext2 c h
  · exact ⟨[], by simp, by simp⟩

/-- The calls of `updateStatus` are re-reads and status updates only. -/
theorem updateStatus_trace {W : Type} (r : Reconciler W) (a : AppRollout) (w : W)
    (t : List Call) :
    ∃ ext, (updateStatus r a w t).2.trace = t ++ ext ∧ ∀ c ∈ ext, c.isPersist = true := by
  obtain ⟨ext, h, hext⟩ := updateStatus_writes r a w t
  exact ⟨ext, h, fun c hc => isPersist_of_persistOf (hext c hc)⟩

/-- The calls of `updateStatus` begin with the calls of its first attempt. -/
theorem updateStatus_first_attempt {W : Type} (r : Reconciler W) (a : AppRollout) (w : W)
    (t : List Call) :
    ∃ rest, (updateStatus r a w t).2.trace =
      (updateStatusAttempt r a.Status { appRollout := a, world := w, trace := t }).2.trace ++
        rest := by
  unfold updateStatus
  have hsteps : DefaultBackoff.Steps = 3 + 1 := rfl
  rw [hsteps, RetryOnConflict_succ]
  cases hres : updateStatusAttempt r a.Status { appRollout := a, world := w, trace := t } with
  | mk err p1 =>
    cases err with
    | none => exact ⟨[], by simp⟩
    | some err =>
      simp only
      split
      · apply RetryOnConflict_invariant (updateStatusAttempt r a.Status)
          (fun p => ∃ rest, p.trace = p1.trace ++ rest)
        · rintro p ⟨rest, hp⟩
          obtain ⟨ext2, h2, _⟩ := updateStatusAttempt_trace r a.Status p
          exact ⟨rest ++ ext2, by rw [h2, hp, List.append_assoc]⟩
        · exact ⟨[], by simp⟩
      · exact ⟨[], by simp⟩

/-- The calls of the hand-over are updates of application revisions only. -/
theorem handOver_trace {W : Type} (r : Reconciler W) (targetApp : ApplicationConfiguration)
    (sourceApp : Option ApplicationConfiguration) (w : W) (t : List Call) :
    ∃ ext, (handOver r targetApp sourceApp w t).2.2 = t ++ ext ∧
      ∀ c ∈ ext, c.isUpdate = true := by
  unfold handOver
  cases sourceApp with
  | none =>
    refine ⟨[Call.update (RemoveAnnotations targetApp [AnnotationAppRollout])], rfl, ?_⟩
    intro c hc
    simp only [List.mem_singleton] at hc
    rw [hc]; rfl
  | some src =>
    simp only
    split
    · refine ⟨[Call.update (AddAnnotations (RemoveAnnotations src [AnnotationAppRollout])
        [(AnnotationAppRevision, FormatBool true)])], rfl, ?_⟩
      intro c hc
      simp only [List.mem_singleton] at hc
      rw [hc]; rfl
    · refine ⟨[Call.update (AddAnnotations (RemoveAnnotations src [AnnotationAppRollout])
        [(AnnotationAppRevision, FormatBool true)]),
        Call.update (RemoveAnnotations targetApp [AnnotationAppRollout])], ?_, ?_⟩
      · simp [releaseTarget]
      · intro c hc
        simp only [List.mem_cons, List.mem_singleton, List.mem_nil_iff, or_false] at hc
        rcases hc with h | h <;> (rw [h]; rfl)

/-- The hand-over without a source revision is the release of the target. -/
theorem handOver_none {W : Type} (r : Reconciler W) (targetApp : ApplicationConfiguration)
    (w : W) (t : List Call) :
    handOver r targetApp none w t =
      ((r.Update (releasedTarget targetApp) w).1, (r.Update (releasedTarget targetApp) w).2,
        t ++ [Call.update (releasedTarget targetApp)]) := rfl

/-- The hand-over stops at a failed update of the source revision. -/
theorem handOver_source_fails {W : Type} (r : Reconciler W)
    (targetApp src : ApplicationConfiguration) (w : W) (t : List Call) (err : ApiError)
    (h : (r.Update (markedSource src) w).1 = some err) :
    handOver r targetApp (some src) w t =
      (some err, (r.Update (markedSource src) w).2, t ++ [Call.update (markedSource src)]) := by
  unfold handOver
  unfold markedSource at h
  simp only [h]
  rfl

/-- After a successful update of the source revision the hand-over releases the target. -/
theorem handOver_source_ok {W : Type} (r : Reconciler W)
    (targetApp src : ApplicationConfiguration) (w : W) (t : List Call)
    (h : (r.Update (markedSource src) w).1 = none) :
    handOver r targetApp (some src) w t =
      ((r.Update (releasedTarget targetApp) (r.Update (markedSource src) w).2).1,
        (r.Update (releasedTarget targetApp) (r.Update (markedSource src) w).2).2,
        t ++ [Call.update (markedSource src), Call.update (releasedTarget targetApp)]) := by
  unfold handOver
  unfold markedSource at h
  simp only [h, releaseTarget, List.append_assoc, List.singleton_append]
  rfl

/-- When the plan controller does not report success, the status is persisted at once. -/
theorem finishRollout_not_succeeded {W : Type} (r : Reconciler W) (a : AppRollout)
    (targetApp : ApplicationConfiguration) (sourceApp : Option ApplicationConfiguration)
    (tw : Workload) (sw : Option Workload) (w : W) (t : List Call)
    (h : (r.planReconcile a tw sw w).1.2.RollingState ≠ .RolloutSucceedState) :
    finishRollout r a targetApp sourceApp tw sw w t =
      persistAndReturn r (r.planReconcile a tw sw w).1.1
        (copyBack a (r.planReconcile a tw sw w).1.2 a.Spec.TargetAppRevisionName
          a.Spec.SourceAppRevisionName)
        (r.planReconcile a tw sw w).2 (t ++ [Call.planReconcile a tw sw]) := by
  unfold finishRollout
  simp only [h, if_false]

/-- When the plan controller reports success and the hand-over fails, its error is
returned with the empty result and the status is not persisted. -/
theorem finishRollout_handOver_fails {W : Type} (r : Reconciler W) (a : AppRollout)
    (targetApp : ApplicationConfiguration) (sourceApp : Option ApplicationConfiguration)
    (tw : Workload) (sw : Option Workload) (w : W) (t : List Call)
    (h : (r.planReconcile a tw sw w).1.2.RollingState = .RolloutSucceedState)
    (err : ApiError) (w2 : W) (t2 : List Call)
    (hho : handOver r targetApp sourceApp (r.planReconcile a tw sw w).2
      (t ++ [Call.planReconcile a tw sw]) = (some err, w2, t2)) :
    finishRollout r a targetApp sourceApp tw sw w t =
      { res := {}, retErr := some err, world := w2, trace := t2 } := by
  unfold finishRollout
  simp only [h, if_true, hho]

/-- When the plan controller reports success and the hand-over succeeds, the status is
persisted after it. -/
theorem finishRollout_handOver_ok {W : Type} (r : Reconciler W) (a : AppRollout)
    (targetApp : ApplicationConfiguration) (sourceApp : Option ApplicationConfiguration)
    (tw : Workload) (sw : Option Workload) (w : W) (t : List Call)
    (h : (r.planReconcile a tw sw w).1.2.RollingState = .RolloutSucceedState)
    (w2 : W) (t2 : List Call)
    (hho : handOver r targetApp sourceApp (r.planReconcile a tw sw w).2
      (t ++ [Call.planReconcile a tw sw]) = (none, w2, t2)) :
    finishRollout r a targetApp sourceApp tw sw w t =
      persistAndReturn r (r.planReconcile a tw sw w).1.1
        (copyBack a (r.planReconcile a tw sw w).1.2 a.Spec.TargetAppRevisionName
          a.Spec.SourceAppRevisionName) w2 t2 := by
  unfold finishRollout
  simp only [h, if_true, hho]

/-- The calls of the last step are those before it, then re-reads and status updates. -/
theorem persistAndReturn_trace {W : Type} (r : Reconciler W) (res : Result) (a : AppRollout)
    (w : W) (t : List Call) :
    ∃ ext, (persistAndReturn r res a w t).trace = t ++ ext ∧
      ∀ c ∈ ext, c.isPersist = true :=
  updateStatus_trace r a w t

theorem isUpdate_false_of_isPersist {c : Call} (h : c.isPersist = true) :
    c.isUpdate = false := by
  cases c <;> simp_all [Call.isPersist, Call.isUpdate]

/-- From the plan controller on: one invocation of the plan controller, on the object
handed in, then only annotation updates and the calls of the status persistence. -/
theorem finishRollout_trace {W : Type} (r : Reconciler W) (a : AppRollout)
    (targetApp : ApplicationConfiguration) (sourceApp : Option ApplicationConfiguration)
    (tw : Workload) (sw : Option Workload) (w : W) (t : List Call) :
    ∃ ext, (finishRollout r a targetApp sourceApp tw sw w t).trace =
        t ++ Call.planReconcile a tw sw :: ext ∧
      ∀ c ∈ ext, c.isUpdate = true ∨ c.isPersist = true := by
  unfold finishRollout
  simp only
  split
  · obtain ⟨e1, h1, he1⟩ := handOver_trace r targetApp sourceApp (r.planReconcile a tw sw w).2
      (t ++ [Call.planReconcile a tw sw])
    split
    · rename_i err w2 t2 heq
      rw [heq] at h1
      simp only at h1
      refine ⟨e1, ?_, fun c hc => Or.inl (he1 c hc)⟩
      simp [h1]
    · rename_i w2 t2 heq
      rw [heq] at h1
      simp only at h1
      simp only [persistAndReturn]
      obtain ⟨e2, h2, he2⟩ := updateStatus_trace r
        (copyBack a (r.planReconcile a tw sw w).1.2 a.Spec.TargetAppRevisionName
          a.Spec.SourceAppRevisionName) w2 t2
      refine ⟨e1 ++ e2, ?_, ?_⟩
      · rw [h2, h1]
        simp only [List.append_assoc, List.singleton_append, List.cons_append, List.nil_append]
      · intro c hc
        rcases List.mem_append.mp hc with h | h
        · exact Or.inl (he1 c h)
        · exact Or.inr (he2 c h)
  · simp only [persistAndReturn]
    obtain ⟨e2, h2, he2⟩ := updateStatus_trace r
      (copyBack a (r.planReconcile a tw sw w).1.2 a.Spec.TargetAppRevisionName
        a.Spec.SourceAppRevisionName)
      (r.planReconcile a tw sw w).2 (t ++ [Call.planReconcile a tw sw])
    refine ⟨e2, ?_, fun c hc => Or.inr (he2 c hc)⟩
    simp only [h2, List.append_assoc, List.singleton_append]

/-- From the workload extraction on, the plan controller is invoked on the object handed in
or not at all. -/
theorem reconcileWorkloads_trace {W : Type} (r : Reconciler W) (a : AppRollout)
    (targetApp : ApplicationConfiguration) (sourceApp : Option ApplicationConfiguration)
    (w : W) (t : List Call) :
    ∃ ext, (reconcileWorkloads r a targetApp sourceApp w t).trace =
        t ++ Call.extractWorkloads a.Spec.ComponentList targetApp sourceApp :: ext ∧
      ∀ c ∈ ext, planOn a c = true := by
  unfold reconcileWorkloads
  simp only
  split
  · exact ⟨[], by simp, by simp⟩
  · rename_i tw sw _
    obtain ⟨e, h, he⟩ := finishRollout_trace r a targetApp sourceApp tw sw w
      (t ++ [Call.extractWorkloads a.Spec.ComponentList targetApp sourceApp])
    refine ⟨Call.planReconcile a tw sw :: e, ?_, ?_⟩
    · simp only [h, List.append_assoc, List.singleton_append]
    · intro c hc
      rcases List.mem_cons.mp hc with h1 | h1
      · rw [h1]; simp [planOn]
      · rcases he c h1 with h2 | h2
        · cases c <;> simp_all [planOn, Call.isUpdate]
        · cases c <;> simp_all [planOn, Call.isPersist]

/-- The revision lookups start with the lookup of the target revision, and the plan
controller is invoked on the object they were entered with or not at all. -/
theorem reconcileRevisions_trace {W : Type} (r : Reconciler W) (req : Request)
    (a : AppRollout) (w : W) (t : List Call) :
    ∃ ext, (reconcileRevisions r req a w t).trace =
        t ++ Call.getAppConfig (targetKey req a) :: ext ∧
      ∀ c ∈ ext, planOn a c = true := by
  unfold reconcileRevisions
  simp only
  split
  · split <;> exact ⟨[], by simp, by simp⟩
  · rename_i tgt _
    split
    · exact ⟨[Call.event "Rollout Paused" "target app revision is not ready for rolling yet"],
        by simp, by simp [planOn]⟩
    · split
      · obtain ⟨e, h, he⟩ := reconcileWorkloads_trace r a tgt none w
          (t ++ [Call.getAppConfig (targetKey req a)])
        refine ⟨Call.extractWorkloads a.Spec.ComponentList tgt none :: e, ?_, ?_⟩
        · simp only [h, List.append_assoc, List.singleton_append]
        · intro c hc
          rcases List.mem_cons.mp hc with h1 | h1
          · rw [h1]; rfl
          · exact he c h1
      · split
        · split <;> exact ⟨[Call.getAppConfig (sourceKey req a)], by simp, by simp [planOn]⟩
        · rename_i src _
          split
          · exact ⟨[Call.getAppConfig (sourceKey req a),
              Call.event "Rollout Paused" "source app revision is not ready for rolling yet"],
              by simp, by simp [planOn]⟩
          · obtain ⟨e, h, he⟩ := reconcileWorkloads_trace r a tgt (some src) w
              (t ++ [Call.getAppConfig (targetKey req a)] ++
                [Call.getAppConfig (sourceKey req a)])
            refine ⟨Call.getAppConfig (sourceKey req a) ::
              Call.extractWorkloads a.Spec.ComponentList tgt (some src) :: e, ?_, ?_⟩
            · rw [h]
              simp only [List.append_assoc, List.singleton_append, List.cons_append, List.nil_append]
            · intro c hc
              rcases List.mem_cons.mp hc with h1 | h1
              · rw [h1]; rfl
              · rcases List.mem_cons.mp h1 with h2 | h2
                · rw [h2]; rfl
                · exact he c h2

/-- None of the calls of the lookups is an update of an application revision. -/
theorem lookupTrace_no_update (req : Request) (a : AppRollout)
    (targetApp : ApplicationConfiguration) (sourceApp : Option ApplicationConfiguration) :
    ∀ c ∈ lookupTrace req a targetApp sourceApp, c.isUpdate = false := by
  have hall : (lookupTrace req a targetApp sourceApp).all (fun c => !c.isUpdate) = true := by
    cases sourceApp <;> rfl
  intro c hc
  have h := List.all_eq_true.mp hall c hc
  simpa using h

/-- Line 183: once the hand-over is through (or not due), Reconcile is the persistence of
the status, returned with the result of the plan controller. -/
theorem reconcile_persists {W : Type} {r : Reconciler W} {req : Request} {w : W}
    {a : AppRollout} {targetApp : ApplicationConfiguration}
    {sourceApp : Option ApplicationConfiguration} {tw : Workload} {sw : Option Workload}
    (hreach : ReachesPlan r req w a targetApp sourceApp tw sw) (w2 : W) (t2 : List Call)
    (hpath :
      ((r.planReconcile (proceedsWith a) tw sw w).1.2.RollingState ≠ .RolloutSucceedState ∧
        w2 = (r.planReconcile (proceedsWith a) tw sw w).2 ∧
        t2 = lookupTrace req a targetApp sourceApp ++
          [Call.planReconcile (proceedsWith a) tw sw]) ∨
      ((r.planReconcile (proceedsWith a) tw sw w).1.2.RollingState = .RolloutSucceedState ∧
        handOver r targetApp sourceApp (r.planReconcile (proceedsWith a) tw sw w).2
          (lookupTrace req a targetApp sourceApp ++
            [Call.planReconcile (proceedsWith a) tw sw]) = (none, w2, t2))) :
    Reconcile r req w =
      persistAndReturn r (r.planReconcile (proceedsWith a) tw sw w).1.1
        (copyBack (proceedsWith a) (r.planReconcile (proceedsWith a) tw sw w).1.2
          a.Spec.TargetAppRevisionName a.Spec.SourceAppRevisionName) w2 t2 := by
  rw [reconcile_reaches_plan hreach]
  rcases hpath with ⟨hne, hw, ht⟩ | ⟨hs, hho⟩
  · rw [finishRollout_not_succeeded r _ targetApp sourceApp tw sw w _ hne, proceedsWith_Spec,
      hw, ht]
  · rw [finishRollout_handOver_ok r _ targetApp sourceApp tw sw w _ hs w2 t2 hho,
      proceedsWith_Spec]

/-- Lines 98-104: a target revision that is not found ends the invocation. -/
theorem reconcile_target_error {W : Type} (r : Reconciler W) (req : Request) (w : W)
    (a : AppRollout) (hget : r.GetAppRollout req.NamespacedName w = .ok a)
    (hgo : ¬ (Terminated a ∧ SamePair a)) (err : ApiError)
    (herr : r.GetAppConfig (targetKey req a) w = .error err) :
    Reconcile r req w =
      if IsNotFound err then
        { res := { RequeueAfter := 5 * Second }, retErr := none, world := w,
          trace := [Call.getAppRollout req.NamespacedName, Call.getAppConfig (targetKey req a)] }
      else
        { res := {}, retErr := some err, world := w,
          trace := [Call.getAppRollout req.NamespacedName,
            Call.getAppConfig (targetKey req a)] } := by
  rw [reconcile_proceeds r req w a hget hgo]
  unfold reconcileRevisions
  simp only [targetKey_proceedsWith, herr]
  rfl

/-- Lines 121-130: a source revision lookup that fails ends the invocation. -/
theorem reconcile_source_error {W : Type} (r : Reconciler W) (req : Request) (w : W)
    (a : AppRollout) (hget : r.GetAppRollout req.NamespacedName w = .ok a)
    (hgo : ¬ (Terminated a ∧ SamePair a)) (tgt : ApplicationConfiguration)
    (htgt : r.GetAppConfig (targetKey req a) w = .ok tgt)
    (htempl : tgt.RollingStatus = .RollingTemplated)
    (hsrc : a.Spec.SourceAppRevisionName ≠ "") (err : ApiError)
    (herr : r.GetAppConfig (sourceKey req a) w = .error err) :
    Reconcile r req w =
      if IsNotFound err then
        { res := { RequeueAfter := 5 * Second }, retErr := none, world := w,
          trace := [Call.getAppRollout req.NamespacedName, Call.getAppConfig (targetKey req a),
            Call.getAppConfig (sourceKey req a)] }
      else
        { res := {}, retErr := some err, world := w,
          trace := [Call.getAppRollout req.NamespacedName, Call.getAppConfig (targetKey req a),
            Call.getAppConfig (sourceKey req a)] } := by
  rw [reconcile_proceeds r req w a hget hgo]
  unfold reconcileRevisions
  simp only [targetKey_proceedsWith, sourceKey_proceedsWith, htgt, htempl, ne_eq,
    not_true_eq_false, if_false, proceedsWith_Spec, hsrc, herr]
  rfl

/-- Lines 140-146: a workload extraction that fails ends the invocation. -/
theorem reconcile_extract_error {W : Type} (r : Reconciler W) (req : Request) (w : W)
    (a : AppRollout) (hget : r.GetAppRollout req.NamespacedName w = .ok a)
    (hgo : ¬ (Terminated a ∧ SamePair a)) (tgt : ApplicationConfiguration)
    (src : Option ApplicationConfiguration)
    (htgt : r.GetAppConfig (targetKey req a) w = .ok tgt)
    (htempl : tgt.RollingStatus = .RollingTemplated)
    (hsrc : (a.Spec.SourceAppRevisionName = "" ∧ src = none) ∨
      (a.Spec.SourceAppRevisionName ≠ "" ∧ ∃ s, src = some s ∧
        r.GetAppConfig (sourceKey req a) w = .ok s ∧ s.RollingStatus = .RollingTemplated))
    (err : ApiError)
    (herr : r.extractWorkloads a.Spec.ComponentList tgt src w = .error err) :
    Reconcile r req w =
      { res := { RequeueAfter := 5 * Second }, retErr := IgnoreNotFound (some err), world := w,
        trace := lookupTrace req a tgt src } := by
  rw [reconcile_proceeds r req w a hget hgo]
  unfold reconcileRevisions
  simp only [targetKey_proceedsWith, sourceKey_proceedsWith, htgt, htempl, ne_eq,
    not_true_eq_false, if_false, proceedsWith_Spec]
  rcases hsrc with ⟨hno, hs⟩ | ⟨hyes, s, hs, hgets, hst⟩
  · subst hs
    rw [if_pos hno]
    unfold reconcileWorkloads
    simp only [proceedsWith_Spec, herr]
    rfl
  · subst hs
    rw [if_neg hyes]
    simp only [hgets, hst, not_true_eq_false, if_false]
    unfold reconcileWorkloads
    simp only [proceedsWith_Spec, herr]
    rfl

/-- An invocation that finds a revision missing asks to be run again in five seconds and
leaves the world as it was. -/
theorem reconcile_revision_missing {W : Type} (r : Reconciler W) (req : Request) (w : W)
    (h : RevisionMissing r req w) :
    (Reconcile r req w).res = { RequeueAfter := 5 * Second } ∧
    (Reconcile r req w).retErr = none ∧ (Reconcile r req w).world = w := by
  obtain ⟨a, hget, hgo, hmiss⟩ := h
  rcases hmiss with ⟨err, herr, hnf⟩ | ⟨tgt, htgt, htempl, hsrc, err, herr, hnf⟩
  · rw [reconcile_target_error r req w a hget hgo err herr, if_pos hnf]
    exact ⟨rfl, rfl, rfl⟩
  · rw [reconcile_source_error r req w a hget hgo tgt htgt htempl hsrc err herr, if_pos hnf]
    exact ⟨rfl, rfl, rfl⟩

/-- The calls of the lookups are reads only: no plan controller, no update, no status
update. -/
theorem lookupTrace_reads_only (req : Request) (a : AppRollout)
    (targetApp : ApplicationConfiguration) (sourceApp : Option ApplicationConfiguration) :
    ∀ c ∈ lookupTrace req a targetApp sourceApp,
      c.isPlanReconcile = false ∧ c.isUpdate = false ∧ c.isStatusUpdate = false := by
  have hall : (lookupTrace req a targetApp sourceApp).all
      (fun c => !c.isPlanReconcile && !c.isUpdate && !c.isStatusUpdate) = true := by
    cases sourceApp <;> rfl
  intro c hc
  have h := List.all_eq_true.mp hall c hc
  simpa [and_assoc] using h

/-- C1: when the rollout has terminated (succeeded or failed) and the recorded revision
pair equals the pair of the spec, Reconcile returns the empty result with a nil error, its
only call is the read of the AppRollout (no revision lookup, no plan controller, no update,
no status update), and the world is unchanged, so the object read back is the same object,
status and condition timestamps included, whatever the plan fields are. -/
theorem reconcile_terminated_same_pair_noop {W : Type} (r : Reconciler W) (req : Request)
    (w : W) (a : AppRollout)
    (hget : r.GetAppRollout req.NamespacedName w = .ok a)
    (hterm : a.Status.RollingState = .RolloutSucceedState ∨
      a.Status.RollingState = .RolloutFailedState)
    (htgt : a.Status.LastUpgradedTargetAppRevision = a.Spec.TargetAppRevisionName)
    (hsrc : a.Status.LastSourceAppRevision = a.Spec.SourceAppRevisionName) :
    (Reconcile r req w).res = {} ∧
    (Reconcile r req w).retErr = none ∧
    (Reconcile r req w).trace = [Call.getAppRollout req.NamespacedName] ∧
    (Reconcile r req w).world = w ∧
    r.GetAppRollout req.NamespacedName (Reconcile r req w).world = .ok a := by
  have hfin : handleFinalizer a = a := by
    unfold handleFinalizer
    split <;> split <;> rfl
  have hrun : Reconcile r req w =
      { res := {}, retErr := none, world := w,
        trace := [Call.getAppRollout req.NamespacedName] } := by
    unfold Reconcile ReconcileWith
    simp only [hget, hfin]
    rw [if_pos hterm, if_pos ⟨htgt, hsrc⟩]
  rw [hrun]
  exact ⟨rfl, rfl, rfl, rfl, hget⟩

/-- C1, on the in-memory cluster holding a succeeded rollout whose plan is paused with
partition 0. -/
theorem reconcile_terminated_same_pair_noop_witness :
    (Reconcile (memReconciler planKeep) demoRequest doneStore).res = {} ∧
    (Reconcile (memReconciler planKeep) demoRequest doneStore).retErr = none ∧
    (Reconcile (memReconciler planKeep) demoRequest doneStore).trace =
      [Call.getAppRollout demoRequest.NamespacedName] ∧
    (Reconcile (memReconciler planKeep) demoRequest doneStore).world = doneStore ∧
    (memReconciler planKeep).GetAppRollout demoRequest.NamespacedName
      (Reconcile (memReconciler planKeep) demoRequest doneStore).world = .ok doneRollout :=
  reconcile_terminated_same_pair_noop (memReconciler planKeep) demoRequest doneStore doneRollout
    (by rfl) (by decide) (by decide) (by decide)

/-- C3 (Scenario D; `StateTransition` is modelled from the specification): when the rollout
has succeeded and the target or source name differs from the recorded pair, the status the
rollout plan controller is handed has `rollingState = Initial` and `currentBatch = 0`: every
invocation of the plan controller in the trace is on such an object, and when the lookups
succeed the plan controller is invoked on it. -/
theorem reconcile_succeeded_changed_pair_resets {W : Type} (r : Reconciler W)
    (req : Request) (w : W) (a : AppRollout)
    (hget : r.GetAppRollout req.NamespacedName w = .ok a)
    (hsucc : a.Status.RollingState = .RolloutSucceedState)
    (hchg : a.Spec.TargetAppRevisionName ≠ a.Status.LastUpgradedTargetAppRevision ∨
      a.Spec.SourceAppRevisionName ≠ a.Status.LastSourceAppRevision) :
    (∀ ar tw sw, Call.planReconcile ar tw sw ∈ (Reconcile r req w).trace →
      ar.Status.RollingState = .Initial ∧ ar.Status.CurrentBatch = 0) ∧
    (∀ targetApp sourceApp tw sw, ReachesPlan r req w a targetApp sourceApp tw sw →
      ∃ ar, Call.planReconcile ar tw sw ∈ (Reconcile r req w).trace ∧
        ar.Status.RollingState = .Initial ∧ ar.Status.CurrentBatch = 0 ∧
        ar.Spec = a.Spec) := by
  have hterm : Terminated a := Or.inl hsucc
  have hgo : ¬ (Terminated a ∧ SamePair a) := by
    rintro ⟨_, h1, h2⟩
    rcases hchg with h | h
    · exact h h1.symm
    · exact h h2.symm
  have hp : proceedsWith a = restart a := by
    unfold proceedsWith
    rw [if_pos hterm]
  have hreset : (restart a).Status.RollingState = .Initial ∧
      (restart a).Status.CurrentBatch = 0 := by
    unfold restart StateTransition
    simp [hsucc]
  constructor
  · intro ar tw sw hmem
    rw [reconcile_proceeds r req w a hget hgo, hp] at hmem
    obtain ⟨ext, hext, hplan⟩ := reconcileRevisions_trace r req (restart a) w
      [Call.getAppRollout req.NamespacedName]
    rw [hext] at hmem
    simp only [List.singleton_append, List.mem_cons] at hmem
    rcases hmem with h | h | h
    · cases h
    · cases h
    · have := hplan _ h
      simp only [planOn, decide_eq_true_eq] at this
      rw [this]
      exact hreset
  · intro targetApp sourceApp tw sw hreach
    refine ⟨restart a, ?_, hreset.1, hreset.2, rfl⟩
    rw [reconcile_reaches_plan hreach, hp]
    obtain ⟨ext, hext, _⟩ := finishRollout_trace r (restart a) targetApp sourceApp tw sw w
      (lookupTrace req a targetApp sourceApp)
    rw [hext]
    simp

/-- The lookups of the re-pointed rollout succeed on the in-memory cluster. -/
theorem changedStore_reaches_plan :
    ReachesPlan (memReconciler planKeep) demoRequest changedStore changedRollout appV3
      (some appV2) (workloadOf appV3) (some (workloadOf appV2)) where
  read := by rfl
  proceeds := by decide
  target := by rfl
  targetTemplated := by rfl
  source := Or.inr ⟨by decide, appV2, rfl, by rfl, by rfl⟩
  workloads := by rfl

/-- C3, on the in-memory cluster: the re-pointed succeeded rollout reaches the plan
controller, which is handed a status reset to `Initial` with `currentBatch = 0`. -/
theorem reconcile_succeeded_changed_pair_resets_witness :
    ∃ ar, Call.planReconcile ar (workloadOf appV3) (some (workloadOf appV2)) ∈
        (Reconcile (memReconciler planKeep) demoRequest changedStore).trace ∧
      ar.Status.RollingState = .Initial ∧ ar.Status.CurrentBatch = 0 ∧
      ar.Spec = changedRollout.Spec :=
  (reconcile_succeeded_changed_pair_resets (memReconciler planKeep) demoRequest changedStore
    changedRollout (by rfl) (by decide) (by decide)).2 appV3 (some appV2) (workloadOf appV3)
    (some (workloadOf appV2)) changedStore_reaches_plan

/-- The lookups of the rollout in progress succeed on the in-memory cluster, whatever the
server does with updates. -/
theorem rollingStore_reaches_plan (plan : AppRollout → Result × RolloutStatus) :
    ReachesPlan (refusedUpdates plan) demoRequest rollingStore rollingRollout appV2
      (some appV1) (workloadOf appV2) (some (workloadOf appV1)) where
  read := by rfl
  proceeds := by decide
  target := by rfl
  targetTemplated := by rfl
  source := Or.inr ⟨by decide, appV1, rfl, by rfl, by rfl⟩
  workloads := by rfl

/-- C4 as stated fails: the plan controller returns `RolloutSucceeded`, a source revision
is given, the update of the source is refused by the server, and Reconcile returns that
error without ever updating the target, which keeps its rollout annotation. -/
theorem handover_target_skipped_when_source_update_fails :
    ((refusedUpdates planSucceed).planReconcile (proceedsWith rollingRollout)
      (workloadOf appV2) (some (workloadOf appV1)) rollingStore).1.2.RollingState =
      .RolloutSucceedState ∧
    rollingRollout.Spec.SourceAppRevisionName = "app-v1" ∧
    (Reconcile (refusedUpdates planSucceed) demoRequest rollingStore).trace =
      [Call.getAppRollout demoRequest.NamespacedName,
       Call.getAppConfig (targetKey demoRequest rollingRollout),
       Call.getAppConfig (sourceKey demoRequest rollingRollout),
       Call.extractWorkloads [] appV2 (some appV1),
       Call.planReconcile rollingRollout (workloadOf appV2) (some (workloadOf appV1)),
       Call.update (markedSource appV1)] ∧
    Call.update (releasedTarget appV2) ∉
      (Reconcile (refusedUpdates planSucceed) demoRequest rollingStore).trace ∧
    (Reconcile (refusedUpdates planSucceed) demoRequest rollingStore).retErr =
      some (.other "update refused") ∧
    (Store.getAppConfig (targetKey demoRequest rollingRollout)
      (Reconcile (refusedUpdates planSucceed) demoRequest rollingStore).world).toOption.map
        (fun tgt => annotationOf tgt.Annotations AnnotationAppRollout) = some (some "true") := by
  refine ⟨by rfl, by rfl, by rfl, ?_, by rfl, by rfl⟩
  have htr : (Reconcile (refusedUpdates planSucceed) demoRequest rollingStore).trace =
      [Call.getAppRollout demoRequest.NamespacedName,
       Call.getAppConfig (targetKey demoRequest rollingRollout),
       Call.getAppConfig (sourceKey demoRequest rollingRollout),
       Call.extractWorkloads [] appV2 (some appV1),
       Call.planReconcile rollingRollout (workloadOf appV2) (some (workloadOf appV1)),
       Call.update (markedSource appV1)] := by rfl
  rw [htr]
  decide

/-- C4, amended: when the rollout plan controller returns `RolloutSucceeded` and a source
revision is given, Reconcile updates the source revision with the rollout annotation
removed and the app-revision annotation set to "true", every other annotation unchanged;
when that update succeeds, it next updates the target revision with the rollout annotation
removed, every other annotation unchanged, and makes no further update; when the update of
the source fails, no other call follows. -/
theorem handover_on_success {W : Type} (r : Reconciler W) (req : Request) (w : W)
    (a : AppRollout) (targetApp src : ApplicationConfiguration) (tw : Workload)
    (sw : Option Workload)
    (hreach : ReachesPlan r req w a targetApp (some src) tw sw)
    (hsucc : (r.planReconcile (proceedsWith a) tw sw w).1.2.RollingState =
      .RolloutSucceedState) :
    (annotationOf (markedSource src).Annotations AnnotationAppRollout = none ∧
     annotationOf (markedSource src).Annotations AnnotationAppRevision = some "true" ∧
     (∀ k, k ≠ AnnotationAppRollout → k ≠ AnnotationAppRevision →
       annotationOf (markedSource src).Annotations k = annotationOf src.Annotations k) ∧
     { markedSource src with Annotations := src.Annotations } = src) ∧
    (annotationOf (releasedTarget targetApp).Annotations AnnotationAppRollout = none ∧
     (∀ k, k ≠ AnnotationAppRollout →
       annotationOf (releasedTarget targetApp).Annotations k =
         annotationOf targetApp.Annotations k) ∧
     { releasedTarget targetApp with Annotations := targetApp.Annotations } = targetApp) ∧
    ∃ ext, (Reconcile r req w).trace =
        lookupTrace req a targetApp (some src) ++
          Call.planReconcile (proceedsWith a) tw sw :: Call.update (markedSource src) :: ext ∧
      ((r.Update (markedSource src) (r.planReconcile (proceedsWith a) tw sw w).2).1 = none →
        ∃ rest, ext = Call.update (releasedTarget targetApp) :: rest ∧
          ∀ c ∈ rest, c.isUpdate = false) ∧
      ((r.Update (markedSource src) (r.planReconcile (proceedsWith a) tw sw w).2).1 ≠ none →
        ext = [] ∧ (Reconcile r req w).retErr =
          (r.Update (markedSource src) (r.planReconcile (proceedsWith a) tw sw w).2).1) := by
  refine ⟨⟨?_, ?_, ?_, rfl⟩, ⟨?_, ?_, rfl⟩, ?_⟩
  · unfold markedSource
    rw [annotationOf_AddAnnotations, if_neg annotation_keys_ne,
      annotationOf_RemoveAnnotations]
    simp
  · unfold markedSource
    rw [annotationOf_AddAnnotations, if_pos rfl]
    rfl
  · intro k h1 h2
    unfold markedSource
    rw [annotationOf_AddAnnotations, if_neg h2, annotationOf_RemoveAnnotations]
    simp [h1]
  · unfold releasedTarget
    rw [annotationOf_RemoveAnnotations]
    simp
  · intro k h1
    unfold releasedTarget
    rw [annotationOf_RemoveAnnotations]
    simp [h1]
  · rw [reconcile_reaches_plan hreach]
    cases hupd : (r.Update (markedSource src) (r.planReconcile (proceedsWith a) tw sw w).2).1 with
    | some err =>
      rw [finishRollout_handOver_fails r _ targetApp (some src) tw sw w _ hsucc err _ _
        (handOver_source_fails r targetApp src _ _ err hupd)]
      refine ⟨[], ?_, ?_, ?_⟩
      · simp
      · intro h; cases h
      · intro _; exact ⟨rfl, rfl⟩
    | none =>
      have hho := handOver_source_ok r targetApp src
        (r.planReconcile (proceedsWith a) tw sw w).2
        (lookupTrace req a targetApp (some src) ++ [Call.planReconcile (proceedsWith a) tw sw])
        hupd
      cases htgt : (r.Update (releasedTarget targetApp)
          (r.Update (markedSource src) (r.planReconcile (proceedsWith a) tw sw w).2).2).1 with
      | some err =>
        rw [htgt] at hho
        rw [finishRollout_handOver_fails r _ targetApp (some src) tw sw w _ hsucc err _ _ hho]
        refine ⟨[Call.update (releasedTarget targetApp)], ?_, ?_, ?_⟩
        · simp
        · intro _; exact ⟨[], rfl, by simp⟩
        · intro h; exact absurd rfl h
      | none =>
        rw [htgt] at hho
        rw [finishRollout_handOver_ok r _ targetApp (some src) tw sw w _ hsucc _ _ hho]
        obtain ⟨e, he, hpers⟩ := persistAndReturn_trace r
          (r.planReconcile (proceedsWith a) tw sw w).1.1
          (copyBack (proceedsWith a) (r.planReconcile (proceedsWith a) tw sw w).1.2
            (proceedsWith a).Spec.TargetAppRevisionName
            (proceedsWith a).Spec.SourceAppRevisionName)
          (r.Update (releasedTarget targetApp)
            (r.Update (markedSource src) (r.planReconcile (proceedsWith a) tw sw w).2).2).2
          (lookupTrace req a targetApp (some src) ++
            [Call.planReconcile (proceedsWith a) tw sw] ++
            [Call.update (markedSource src), Call.update (releasedTarget targetApp)])
        refine ⟨Call.update (releasedTarget targetApp) :: e, ?_, ?_, ?_⟩
        · rw [he]; simp
        · intro _
          exact ⟨e, rfl, fun c hc => isUpdate_false_of_isPersist (hpers c hc)⟩
        · intro h; exact absurd rfl h

/-- The lookups of the rollout in progress succeed on the in-memory cluster. -/
theorem rollingStore_mem_reaches_plan (plan : AppRollout → Result × RolloutStatus) :
    ReachesPlan (memReconciler plan) demoRequest rollingStore rollingRollout appV2
      (some appV1) (workloadOf appV2) (some (workloadOf appV1)) where
  read := by rfl
  proceeds := by decide
  target := by rfl
  targetTemplated := by rfl
  source := Or.inr ⟨by decide, appV1, rfl, by rfl, by rfl⟩
  workloads := by rfl

/-- C4 amended, on the in-memory cluster: the rollout in progress from `app-v1` to `app-v2`
whose plan controller reports success. -/
theorem handover_on_success_witness :
    (annotationOf (markedSource appV1).Annotations AnnotationAppRollout = none ∧
     annotationOf (markedSource appV1).Annotations AnnotationAppRevision = some "true" ∧
     (∀ k, k ≠ AnnotationAppRollout → k ≠ AnnotationAppRevision →
       annotationOf (markedSource appV1).Annotations k = annotationOf appV1.Annotations k) ∧
     { markedSource appV1 with Annotations := appV1.Annotations } = appV1) ∧
    (annotationOf (releasedTarget appV2).Annotations AnnotationAppRollout = none ∧
     (∀ k, k ≠ AnnotationAppRollout →
       annotationOf (releasedTarget appV2).Annotations k =
         annotationOf appV2.Annotations k) ∧
     { releasedTarget appV2 with Annotations := appV2.Annotations } = appV2) ∧
    ∃ ext, (Reconcile (memReconciler planSucceed) demoRequest rollingStore).trace =
        lookupTrace demoRequest rollingRollout appV2 (some appV1) ++
          Call.planReconcile (proceedsWith rollingRollout) (workloadOf appV2)
            (some (workloadOf appV1)) :: Call.update (markedSource appV1) :: ext ∧
      (((memReconciler planSucceed).Update (markedSource appV1)
          ((memReconciler planSucceed).planReconcile (proceedsWith rollingRollout)
            (workloadOf appV2) (some (workloadOf appV1)) rollingStore).2).1 = none →
        ∃ rest, ext = Call.update (releasedTarget appV2) :: rest ∧
          ∀ c ∈ rest, c.isUpdate = false) ∧
      (((memReconciler planSucceed).Update (markedSource appV1)
          ((memReconciler planSucceed).planReconcile (proceedsWith rollingRollout)
            (workloadOf appV2) (some (workloadOf appV1)) rollingStore).2).1 ≠ none →
        ext = [] ∧ (Reconcile (memReconciler planSucceed) demoRequest rollingStore).retErr =
          ((memReconciler planSucceed).Update (markedSource appV1)
            ((memReconciler planSucceed).planReconcile (proceedsWith rollingRollout)
              (workloadOf appV2) (some (workloadOf appV1)) rollingStore).2).1) :=
  handover_on_success (memReconciler planSucceed) demoRequest rollingStore rollingRollout
    appV2 appV1 (workloadOf appV2) (some (workloadOf appV1))
    (rollingStore_mem_reaches_plan planSucceed) (by rfl)

/-- C5 as stated fails: on the in-memory cluster the plan controller returns
`RolloutFailed`, Reconcile persists that state without a single update of an application
revision, and the target keeps its rollout annotation. -/
theorem failed_rollout_keeps_rollout_annotation :
    ((memReconciler planFail).planReconcile (proceedsWith rollingRollout)
      (workloadOf appV2) (some (workloadOf appV1)) rollingStore).1.2.RollingState =
      .RolloutFailedState ∧
    (Reconcile (memReconciler planFail) demoRequest rollingStore).trace =
      [Call.getAppRollout demoRequest.NamespacedName,
       Call.getAppConfig (targetKey demoRequest rollingRollout),
       Call.getAppConfig (sourceKey demoRequest rollingRollout),
       Call.extractWorkloads [] appV2 (some appV1),
       Call.planReconcile rollingRollout (workloadOf appV2) (some (workloadOf appV1)),
       Call.getAppRollout demoRequest.NamespacedName,
       Call.statusUpdate (copyBack rollingRollout (planFail rollingRollout).2
         "app-v2" "app-v1")] ∧
    (Reconcile (memReconciler planFail) demoRequest rollingStore).retErr = none ∧
    (Store.getAppRollout demoRequest.NamespacedName
      (Reconcile (memReconciler planFail) demoRequest rollingStore).world).toOption.map
        (fun a => a.Status.RollingState) = some .RolloutFailedState ∧
    (Store.getAppConfig (targetKey demoRequest rollingRollout)
      (Reconcile (memReconciler planFail) demoRequest rollingStore).world).toOption.map
        (fun tgt => annotationOf tgt.Annotations AnnotationAppRollout) = some (some "true") :=
  ⟨by rfl, by rfl, by rfl, by rfl, by rfl⟩

/-- C5, amended: the rollout annotation is removed only on success.  For every invocation
in which the rollout plan controller returns `RolloutFailed`, Reconcile makes no update of
an application revision, neither of the target nor of the source, and goes straight from
the plan controller to the persistence of the status. -/
theorem no_handover_on_failure {W : Type} (r : Reconciler W) (req : Request) (w : W)
    (a : AppRollout) (targetApp : ApplicationConfiguration)
    (sourceApp : Option ApplicationConfiguration) (tw : Workload) (sw : Option Workload)
    (hreach : ReachesPlan r req w a targetApp sourceApp tw sw)
    (hfail : (r.planReconcile (proceedsWith a) tw sw w).1.2.RollingState =
      .RolloutFailedState) :
    (∀ c ∈ (Reconcile r req w).trace, c.isUpdate = false) ∧
    Reconcile r req w =
      persistAndReturn r (r.planReconcile (proceedsWith a) tw sw w).1.1
        (copyBack (proceedsWith a) (r.planReconcile (proceedsWith a) tw sw w).1.2
          a.Spec.TargetAppRevisionName a.Spec.SourceAppRevisionName)
        (r.planReconcile (proceedsWith a) tw sw w).2
        (lookupTrace req a targetApp sourceApp ++
          [Call.planReconcile (proceedsWith a) tw sw]) := by
  have hne : (r.planReconcile (proceedsWith a) tw sw w).1.2.RollingState ≠
      .RolloutSucceedState := by
    rw [hfail]; decide
  have hrun := reconcile_reaches_plan hreach
  rw [finishRollout_not_succeeded r _ targetApp sourceApp tw sw w _ hne,
    proceedsWith_Spec] at hrun
  refine ⟨?_, hrun⟩
  rw [hrun]
  obtain ⟨e, he, hpers⟩ := persistAndReturn_trace r
    (r.planReconcile (proceedsWith a) tw sw w).1.1
    (copyBack (proceedsWith a) (r.planReconcile (proceedsWith a) tw sw w).1.2
      a.Spec.TargetAppRevisionName a.Spec.SourceAppRevisionName)
    (r.planReconcile (proceedsWith a) tw sw w).2
    (lookupTrace req a targetApp sourceApp ++ [Call.planReconcile (proceedsWith a) tw sw])
  rw [he]
  intro c hc
  rcases List.mem_append.mp hc with h | h
  · rcases List.mem_append.mp h with h1 | h1
    · exact lookupTrace_no_update req a targetApp sourceApp c h1
    · rw [List.mem_singleton.mp h1]; rfl
  · exact isUpdate_false_of_isPersist (hpers c h)

/-- C5 amended, on the in-memory cluster with a plan controller that reports failure. -/
theorem no_handover_on_failure_witness :
    (∀ c ∈ (Reconcile (memReconciler planFail) demoRequest rollingStore).trace,
      c.isUpdate = false) ∧
    Reconcile (memReconciler planFail) demoRequest rollingStore =
      persistAndReturn (memReconciler planFail)
        ((memReconciler planFail).planReconcile (proceedsWith rollingRollout)
          (workloadOf appV2) (some (workloadOf appV1)) rollingStore).1.1
        (copyBack (proceedsWith rollingRollout)
          ((memReconciler planFail).planReconcile (proceedsWith rollingRollout)
            (workloadOf appV2) (some (workloadOf appV1)) rollingStore).1.2
          rollingRollout.Spec.TargetAppRevisionName rollingRollout.Spec.SourceAppRevisionName)
        ((memReconciler planFail).planReconcile (proceedsWith rollingRollout)
          (workloadOf appV2) (some (workloadOf appV1)) rollingStore).2
        (lookupTrace demoRequest rollingRollout appV2 (some appV1) ++
          [Call.planReconcile (proceedsWith rollingRollout) (workloadOf appV2)
            (some (workloadOf appV1))]) :=
  no_handover_on_failure (memReconciler planFail) demoRequest rollingStore rollingRollout
    appV2 (some appV1) (workloadOf appV2) (some (workloadOf appV1))
    (rollingStore_mem_reaches_plan planFail) (by rfl)

/-- C6 as stated fails: another writer has persisted `pausedStatus` after the invocation
read the object; `updateStatus` re-reads, puts the status of the invocation on the re-read
object and writes it, so the stored status becomes the snapshot of the invocation and the
concurrent write is lost without any trace in what is written. -/
theorem updateStatus_overwrites_concurrent_status :
    computedRollout.Status ≠ pausedStatus ∧
    (Store.getAppRollout demoRequest.NamespacedName concurrentStore).toOption.map
      (fun a => a.Status) = some pausedStatus ∧
    (updateStatus (memReconciler planSucceed) computedRollout concurrentStore []).1 = none ∧
    (updateStatus (memReconciler planSucceed) computedRollout concurrentStore []).2.trace =
      [Call.getAppRollout demoRequest.NamespacedName,
       Call.statusUpdate { rollingRollout with
         ResourceVersion := 1, Status := computedRollout.Status }] ∧
    (Store.getAppRollout demoRequest.NamespacedName
      (updateStatus (memReconciler planSucceed) computedRollout concurrentStore []).2.world
      ).toOption.map (fun a => a.Status) = some computedRollout.Status :=
  ⟨by decide, by rfl, by rfl, by rfl, by rfl⟩

/-- C6, amended: `updateStatus` re-reads the object before it writes and puts on the
re-read object the status the invocation computed (the snapshot taken on entry): every
status it writes is that snapshot, whatever status the re-read returned; only the rest of
the object (metadata with the resource version, spec) is taken from the re-read. -/
theorem updateStatus_writes_entry_snapshot {W : Type} (r : Reconciler W) (a : AppRollout)
    (w : W) (t : List Call) :
    ∃ ext, (updateStatus r a w t).2.trace = t ++ ext ∧
      (∀ obj, Call.statusUpdate obj ∈ ext → obj.Status = a.Status) ∧
      (∀ fresh, r.GetAppRollout ⟨a.Namespace, a.Name⟩ w = .ok fresh →
        ∃ rest, ext = Call.getAppRollout ⟨a.Namespace, a.Name⟩ ::
          Call.statusUpdate { fresh with Status := a.Status } :: rest) := by
  obtain ⟨ext, hext, hwrites⟩ := updateStatus_writes r a w t
  refine ⟨ext, hext, ?_, ?_⟩
  · intro obj hobj
    have := hwrites _ hobj
    simpa [persistOf] using this
  · intro fresh hfresh
    obtain ⟨rest, hrest⟩ := updateStatus_first_attempt r a w t
    obtain ⟨e1, h1, _, hfirst⟩ := updateStatusAttempt_trace r a.Status
      { appRollout := a, world := w, trace := t }
    have he1 := hfirst fresh hfresh
    rw [h1, he1, hext] at hrest
    simp only [List.append_assoc] at hrest
    have := List.append_cancel_left hrest
    exact ⟨rest, by simpa using this⟩

/-- C6 amended, on the in-memory cluster with the concurrent write: the first write is the
re-read object (resource version 1) carrying the status of the invocation. -/
theorem updateStatus_writes_entry_snapshot_witness :
    ∃ ext, (updateStatus (memReconciler planSucceed) computedRollout concurrentStore []).2.trace
        = [] ++ ext ∧
      (∀ obj, Call.statusUpdate obj ∈ ext → obj.Status = computedRollout.Status) ∧
      ∃ rest, ext = Call.getAppRollout ⟨computedRollout.Namespace, computedRollout.Name⟩ ::
        Call.statusUpdate { ({ rollingRollout with
          ResourceVersion := 1, Status := pausedStatus } : AppRollout) with
            Status := computedRollout.Status } :: rest :=
  let ⟨ext, h1, h2, h3⟩ := updateStatus_writes_entry_snapshot (memReconciler planSucceed)
    computedRollout concurrentStore []
  ⟨ext, h1, h2, h3 _ (by rfl)⟩

/-- C7: status persistence retries only on conflict and at most `retry.DefaultBackoff.Steps`
(four) times.  Every attempt begins with a re-read of the object, and its error is the error
of the re-read or else of the status update.  If every attempt returns a conflict,
`updateStatus` makes exactly four attempts and returns the conflict of the last one.  The
first attempt that returns an error other than a conflict, from the re-read or from the
update, ends the loop at once with that error.  Reconcile returns the error of
`updateStatus` together with the result of the plan controller. -/
theorem status_persistence_bounded_retry {W : Type} (r : Reconciler W) (a : AppRollout)
    (w : W) (t : List Call) :
    DefaultBackoff.Steps = 4 ∧
    (∀ p : Persist W,
      (updateStatusAttempt r a.Status p).1 =
        (match r.GetAppRollout ⟨p.appRollout.Namespace, p.appRollout.Name⟩ p.world with
         | .error err => some err
         | .ok fresh => (r.StatusUpdate { fresh with Status := a.Status } p.world).1) ∧
      ∃ rest, (updateStatusAttempt r a.Status p).2.trace =
          p.trace ++ Call.getAppRollout ⟨p.appRollout.Namespace, p.appRollout.Name⟩ :: rest ∧
        ∀ c ∈ rest, c.isStatusUpdate = true) ∧
    ((∀ k, k < DefaultBackoff.Steps → ∃ msg,
        (updateStatusAttempt r a.Status (iterState (updateStatusAttempt r a.Status) k
          { appRollout := a, world := w, trace := t })).1 = some (.conflict msg)) →
      (∃ msg, (updateStatus r a w t).1 = some (.conflict msg)) ∧
      (updateStatus r a w t).1 =
        (updateStatusAttempt r a.Status (iterState (updateStatusAttempt r a.Status)
          (DefaultBackoff.Steps - 1) { appRollout := a, world := w, trace := t })).1 ∧
      (updateStatus r a w t).2 =
        iterState (updateStatusAttempt r a.Status) DefaultBackoff.Steps
          { appRollout := a, world := w, trace := t }) ∧
    (∀ k err, k < DefaultBackoff.Steps →
      (∀ j, j < k → ∃ msg,
        (updateStatusAttempt r a.Status (iterState (updateStatusAttempt r a.Status) j
          { appRollout := a, world := w, trace := t })).1 = some (.conflict msg)) →
      (updateStatusAttempt r a.Status (iterState (updateStatusAttempt r a.Status) k
        { appRollout := a, world := w, trace := t })).1 = some err →
      IsConflict err = false →
      (updateStatus r a w t).1 = some err ∧
      (updateStatus r a w t).2 =
        iterState (updateStatusAttempt r a.Status) (k + 1)
          { appRollout := a, world := w, trace := t }) ∧
    (∀ (req : Request) (w0 : W) (a0 : AppRollout) (targetApp : ApplicationConfiguration)
      (sourceApp : Option ApplicationConfiguration) (tw : Workload) (sw : Option Workload),
      ReachesPlan r req w0 a0 targetApp sourceApp tw sw →
      ((r.planReconcile (proceedsWith a0) tw sw w0).1.2.RollingState ≠ .RolloutSucceedState ∧
        w = (r.planReconcile (proceedsWith a0) tw sw w0).2 ∧
        t = lookupTrace req a0 targetApp sourceApp ++
          [Call.planReconcile (proceedsWith a0) tw sw]) ∨
      ((r.planReconcile (proceedsWith a0) tw sw w0).1.2.RollingState = .RolloutSucceedState ∧
        handOver r targetApp sourceApp (r.planReconcile (proceedsWith a0) tw sw w0).2
          (lookupTrace req a0 targetApp sourceApp ++
            [Call.planReconcile (proceedsWith a0) tw sw]) = (none, w, t)) →
      a = copyBack (proceedsWith a0) (r.planReconcile (proceedsWith a0) tw sw w0).1.2
        a0.Spec.TargetAppRevisionName a0.Spec.SourceAppRevisionName →
      (Reconcile r req w0).res = (r.planReconcile (proceedsWith a0) tw sw w0).1.1 ∧
      (Reconcile r req w0).retErr = (updateStatus r a w t).1) := by
  refine ⟨rfl, ?_, ?_, ?_, ?_⟩
  · intro p
    unfold updateStatusAttempt
    simp only
    split
    · exact ⟨rfl, [], rfl, by simp⟩
    · rename_i fresh _
      refine ⟨rfl, [Call.statusUpdate { fresh with Status := a.Status }], by simp, ?_⟩
      intro c hc
      simp only [List.mem_singleton] at hc
      rw [hc]; rfl
  · intro hall
    have hall2 : ∀ k, k < 3 + 1 → ∃ err,
        (updateStatusAttempt r a.Status (iterState (updateStatusAttempt r a.Status) k
          { appRollout := a, world := w, trace := t })).1 = some err ∧
        IsConflict err = true := by
      intro k hk
      obtain ⟨msg, hmsg⟩ := hall k hk
      exact ⟨.conflict msg, hmsg, rfl⟩
    have hrun : updateStatus r a w t = _ :=
      RetryOnConflict_all_conflict (updateStatusAttempt r a.Status) 3 none
        { appRollout := a, world := w, trace := t } hall2
    obtain ⟨msg, hmsg⟩ := hall 3 (by decide)
    rw [hrun]
    exact ⟨⟨msg, hmsg⟩, rfl, rfl⟩
  · intro k err hk hconf herr hnc
    have hconf2 : ∀ j, j < k → ∃ err,
        (updateStatusAttempt r a.Status (iterState (updateStatusAttempt r a.Status) j
          { appRollout := a, world := w, trace := t })).1 = some err ∧
        IsConflict err = true := by
      intro j hj
      obtain ⟨msg, hmsg⟩ := hconf j hj
      exact ⟨.conflict msg, hmsg, rfl⟩
    have hstop : ∀ e2,
        (updateStatusAttempt r a.Status (iterState (updateStatusAttempt r a.Status) k
          { appRollout := a, world := w, trace := t })).1 = some e2 →
        IsConflict e2 = false := by
      intro e2 h2
      rw [herr] at h2
      cases h2
      exact hnc
    have hrun : updateStatus r a w t = _ :=
      RetryOnConflict_stops (updateStatusAttempt r a.Status) k DefaultBackoff.Steps none
        { appRollout := a, world := w, trace := t } hk hconf2 hstop
    rw [hrun]
    exact ⟨herr, rfl⟩
  · intro req w0 a0 targetApp sourceApp tw sw hreach hpath ha
    rw [reconcile_persists hreach w t hpath, ← ha]
    exact ⟨rfl, rfl⟩

/-- C7, on the in-memory cluster: with a server that answers every status update with a
conflict `updateStatus` gives up after four attempts with the conflict; with a server that
forbids the update it stops after the first attempt with that error; and Reconcile returns
the error of `updateStatus`. -/
theorem status_persistence_bounded_retry_witness :
    ((∃ msg, (updateStatus (conflictingWrites planFail) computedRollout rollingStore []).1 =
        some (.conflict msg)) ∧
      (updateStatus (conflictingWrites planFail) computedRollout rollingStore []).2 =
        iterState (updateStatusAttempt (conflictingWrites planFail) computedRollout.Status)
          DefaultBackoff.Steps
          { appRollout := computedRollout, world := rollingStore, trace := [] }) ∧
    ((updateStatus (forbiddenWrites planFail) computedRollout rollingStore []).1 =
        some (.other "forbidden") ∧
      (updateStatus (forbiddenWrites planFail) computedRollout rollingStore []).2 =
        iterState (updateStatusAttempt (forbiddenWrites planFail) computedRollout.Status) 1
          { appRollout := computedRollout, world := rollingStore, trace := [] }) ∧
    ((Reconcile (memReconciler planFail) demoRequest rollingStore).res =
        ((memReconciler planFail).planReconcile (proceedsWith rollingRollout)
          (workloadOf appV2) (some (workloadOf appV1)) rollingStore).1.1 ∧
      (Reconcile (memReconciler planFail) demoRequest rollingStore).retErr =
        (updateStatus (memReconciler planFail)
          (copyBack rollingRollout (planFail rollingRollout).2 "app-v2" "app-v1")
          rollingStore
          (lookupTrace demoRequest rollingRollout appV2 (some appV1) ++
            [Call.planReconcile (proceedsWith rollingRollout) (workloadOf appV2)
              (some (workloadOf appV1))])).1) := by
  refine ⟨?_, ?_, ?_⟩
  · have h := (status_persistence_bounded_retry (conflictingWrites planFail) computedRollout
      rollingStore []).2.2.1
      (by
        intro k hk
        have hk4 : k < 4 := hk
        interval_cases k <;> exact ⟨_, rfl⟩)
    exact ⟨h.1, h.2.2⟩
  · exact (status_persistence_bounded_retry (forbiddenWrites planFail) computedRollout
      rollingStore []).2.2.2.1 0 (.other "forbidden") (by decide)
      (by intro j hj; omega) (by rfl) (by rfl)
  · exact (status_persistence_bounded_retry (memReconciler planFail)
      (copyBack rollingRollout (planFail rollingRollout).2 "app-v2" "app-v1") rollingStore
      (lookupTrace demoRequest rollingRollout appV2 (some appV1) ++
        [Call.planReconcile (proceedsWith rollingRollout) (workloadOf appV2)
          (some (workloadOf appV1))])).2.2.2.2
      demoRequest rollingStore rollingRollout appV2 (some appV1) (workloadOf appV2)
      (some (workloadOf appV1)) (rollingStore_mem_reaches_plan planFail)
      (Or.inl ⟨by decide, by rfl, by rfl⟩) (by rfl)

/-- C8 as stated fails: there is no number `n` of consecutive invocations with a missing
target or source revision after which the persisted rolling state is `RolloutFailed`.  On
the in-memory cluster that holds the rollout and neither revision, every invocation leaves
the cluster as it was, so the state stays `Initial` however many times Reconcile runs. -/
theorem no_grace_window_for_missing_revision :
    ¬ ∃ n : Nat, ∀ (r : Reconciler Store) (req : Request) (w : Store),
      (∀ i, i < n → RevisionMissing r req (reconcileN r req i w)) →
      ∃ a, r.GetAppRollout req.NamespacedName (reconcileN r req n w) = .ok a ∧
        a.Status.RollingState = .RolloutFailedState := by
  rintro ⟨n, h⟩
  have hstep : (Reconcile (memReconciler planKeep) demoRequest missingStore).world =
      missingStore := by rfl
  have hworld : ∀ i, reconcileN (memReconciler planKeep) demoRequest i missingStore =
      missingStore := by
    intro i
    induction i with
    | zero => rfl
    | succ i ih => rw [reconcileN, hstep, ih]
  have hmiss : RevisionMissing (memReconciler planKeep) demoRequest missingStore :=
    ⟨pendingRollout, by rfl, by decide, Or.inl ⟨.notFound "app-v2", by rfl, rfl⟩⟩
  obtain ⟨a, ha, hfail⟩ := h (memReconciler planKeep) demoRequest missingStore
    (fun i _ => by rw [hworld i]; exact hmiss)
  rw [hworld n] at ha
  have hread : (memReconciler planKeep).GetAppRollout demoRequest.NamespacedName
      missingStore = .ok pendingRollout := by rfl
  rw [hread] at ha
  cases ha
  revert hfail
  decide

/-- C8, amended: a missing target or source revision is retried without bound.  For every
`n`, if the target (or source) revision is not found in `n` consecutive invocations, every
one of them returns `RequeueAfter` = 5 seconds with a nil error and the world after the
`n`-th is the world before the first, so the persisted status is unchanged and never
becomes `RolloutFailed` on this path. -/
theorem missing_revision_retried_without_bound {W : Type} (r : Reconciler W) (req : Request)
    (w : W) (n : Nat)
    (hmiss : ∀ i, i < n → RevisionMissing r req (reconcileN r req i w)) :
    reconcileN r req n w = w ∧
    r.GetAppRollout req.NamespacedName (reconcileN r req n w) =
      r.GetAppRollout req.NamespacedName w ∧
    ∀ i, i < n →
      (Reconcile r req (reconcileN r req i w)).res = { RequeueAfter := 5 * Second } ∧
      (Reconcile r req (reconcileN r req i w)).retErr = none := by
  have hworld : ∀ i, i ≤ n → reconcileN r req i w = w := by
    intro i
    induction i with
    | zero => intro _; rfl
    | succ i ih =>
      intro hi
      have h0 : RevisionMissing r req w := by
        have := hmiss 0 (by omega)
        simpa [reconcileN] using this
      have hstep := (reconcile_revision_missing r req w h0).2.2
      have hshift : ∀ m : Nat, reconcileN r req (m + 1) w =
          reconcileN r req m (Reconcile r req w).world := fun m => rfl
      rw [hshift, hstep]
      exact ih (by omega)
  refine ⟨hworld n (le_refl n), by rw [hworld n (le_refl n)], ?_⟩
  intro i hi
  have := reconcile_revision_missing r req _ (hmiss i hi)
  exact ⟨this.1, this.2.1⟩

/-- C8 amended, on the in-memory cluster without the revisions: after three invocations
the cluster and the persisted status are what they were, and each invocation asked to be
run again in five seconds. -/
theorem missing_revision_retried_without_bound_witness :
    reconcileN (memReconciler planKeep) demoRequest 3 missingStore = missingStore ∧
    (memReconciler planKeep).GetAppRollout demoRequest.NamespacedName
      (reconcileN (memReconciler planKeep) demoRequest 3 missingStore) =
      (memReconciler planKeep).GetAppRollout demoRequest.NamespacedName missingStore ∧
    ∀ i, i < 3 →
      (Reconcile (memReconciler planKeep) demoRequest
        (reconcileN (memReconciler planKeep) demoRequest i missingStore)).res =
        { RequeueAfter := 5 * Second } ∧
      (Reconcile (memReconciler planKeep) demoRequest
        (reconcileN (memReconciler planKeep) demoRequest i missingStore)).retErr = none :=
  missing_revision_retried_without_bound (memReconciler planKeep) demoRequest missingStore 3
    (by
      intro i hi
      have hmiss : RevisionMissing (memReconciler planKeep) demoRequest missingStore :=
        ⟨pendingRollout, by rfl, by decide, Or.inl ⟨.notFound "app-v2", by rfl, rfl⟩⟩
      interval_cases i <;> exact hmiss)

/-- C9: a not-found error from the target revision lookup, from the source revision lookup
or from the workload extraction makes Reconcile return `RequeueAfter` = 5 seconds with a nil
error; the calls made are the reads up to the failing one (no plan controller, no update of
an application revision, no status update) and the world is unchanged. -/
theorem notfound_requeues_after_five_seconds {W : Type} (r : Reconciler W) (req : Request)
    (w : W) (a : AppRollout) (hget : r.GetAppRollout req.NamespacedName w = .ok a)
    (hgo : ¬ (Terminated a ∧ SamePair a)) :
    (∀ err, r.GetAppConfig (targetKey req a) w = .error err → IsNotFound err = true →
      (Reconcile r req w).res = { Requeue := false, RequeueAfter := 5 * Second } ∧
      (Reconcile r req w).retErr = none ∧
      (Reconcile r req w).trace =
        [Call.getAppRollout req.NamespacedName, Call.getAppConfig (targetKey req a)] ∧
      (Reconcile r req w).world = w) ∧
    (∀ tgt err, r.GetAppConfig (targetKey req a) w = .ok tgt →
      tgt.RollingStatus = .RollingTemplated → a.Spec.SourceAppRevisionName ≠ "" →
      r.GetAppConfig (sourceKey req a) w = .error err → IsNotFound err = true →
      (Reconcile r req w).res = { Requeue := false, RequeueAfter := 5 * Second } ∧
      (Reconcile r req w).retErr = none ∧
      (Reconcile r req w).trace =
        [Call.getAppRollout req.NamespacedName, Call.getAppConfig (targetKey req a),
          Call.getAppConfig (sourceKey req a)] ∧
      (Reconcile r req w).world = w) ∧
    (∀ tgt src err, r.GetAppConfig (targetKey req a) w = .ok tgt →
      tgt.RollingStatus = .RollingTemplated →
      ((a.Spec.SourceAppRevisionName = "" ∧ src = none) ∨
        (a.Spec.SourceAppRevisionName ≠ "" ∧ ∃ s, src = some s ∧
          r.GetAppConfig (sourceKey req a) w = .ok s ∧
          s.RollingStatus = .RollingTemplated)) →
      r.extractWorkloads a.Spec.ComponentList tgt src w = .error err →
      IsNotFound err = true →
      (Reconcile r req w).res = { Requeue := false, RequeueAfter := 5 * Second } ∧
      (Reconcile r req w).retErr = none ∧
      (Reconcile r req w).trace = lookupTrace req a tgt src ∧
      (∀ c ∈ (Reconcile r req w).trace,
        c.isPlanReconcile = false ∧ c.isUpdate = false ∧ c.isStatusUpdate = false) ∧
      (Reconcile r req w).world = w) := by
  refine ⟨?_, ?_, ?_⟩
  · intro err herr hnf
    rw [reconcile_target_error r req w a hget hgo err herr, if_pos hnf]
    exact ⟨rfl, rfl, rfl, rfl⟩
  · intro tgt err htgt htempl hsrc herr hnf
    rw [reconcile_source_error r req w a hget hgo tgt htgt htempl hsrc err herr, if_pos hnf]
    exact ⟨rfl, rfl, rfl, rfl⟩
  · intro tgt src err htgt htempl hsrc herr hnf
    rw [reconcile_extract_error r req w a hget hgo tgt src htgt htempl hsrc err herr]
    refine ⟨rfl, ?_, rfl, lookupTrace_reads_only req a tgt src, rfl⟩
    simp [IgnoreNotFound, hnf]

/-- C9, on the in-memory cluster: the target revision missing, the source revision
missing, and the workloads missing. -/
theorem notfound_requeues_after_five_seconds_witness :
    ((Reconcile (memReconciler planKeep) demoRequest missingStore).res =
        { Requeue := false, RequeueAfter := 5000000000 } ∧
      (Reconcile (memReconciler planKeep) demoRequest missingStore).retErr = none ∧
      (Reconcile (memReconciler planKeep) demoRequest missingStore).trace =
        [Call.getAppRollout demoRequest.NamespacedName,
          Call.getAppConfig (targetKey demoRequest pendingRollout)] ∧
      (Reconcile (memReconciler planKeep) demoRequest missingStore).world = missingStore) ∧
    ((Reconcile (memReconciler planKeep) demoRequest sourceMissingStore).res =
        { Requeue := false, RequeueAfter := 5000000000 } ∧
      (Reconcile (memReconciler planKeep) demoRequest sourceMissingStore).retErr = none ∧
      (Reconcile (memReconciler planKeep) demoRequest sourceMissingStore).trace =
        [Call.getAppRollout demoRequest.NamespacedName,
          Call.getAppConfig (targetKey demoRequest pendingRollout),
          Call.getAppConfig (sourceKey demoRequest pendingRollout)] ∧
      (Reconcile (memReconciler planKeep) demoRequest sourceMissingStore).world =
        sourceMissingStore) ∧
    ((Reconcile (brokenExtraction planKeep (.notFound "cloneset")) demoRequest
        rollingStore).res = { Requeue := false, RequeueAfter := 5000000000 } ∧
      (Reconcile (brokenExtraction planKeep (.notFound "cloneset")) demoRequest
        rollingStore).retErr = none ∧
      (Reconcile (brokenExtraction planKeep (.notFound "cloneset")) demoRequest
        rollingStore).trace = lookupTrace demoRequest rollingRollout appV2 (some appV1) ∧
      (∀ c ∈ (Reconcile (brokenExtraction planKeep (.notFound "cloneset")) demoRequest
          rollingStore).trace,
        c.isPlanReconcile = false ∧ c.isUpdate = false ∧ c.isStatusUpdate = false) ∧
      (Reconcile (brokenExtraction planKeep (.notFound "cloneset")) demoRequest
        rollingStore).world = rollingStore) :=
  ⟨(notfound_requeues_after_five_seconds (memReconciler planKeep) demoRequest missingStore
      pendingRollout (by rfl) (by decide)).1 (.notFound "app-v2") (by rfl) (by rfl),
   (notfound_requeues_after_five_seconds (memReconciler planKeep) demoRequest
      sourceMissingStore pendingRollout (by rfl) (by decide)).2.1 appV2 (.notFound "app-v1")
      (by rfl) (by rfl) (by decide) (by rfl) (by rfl),
   (notfound_requeues_after_five_seconds (brokenExtraction planKeep (.notFound "cloneset"))
      demoRequest rollingStore rollingRollout (by rfl) (by decide)).2.2 appV2 (some appV1)
      (.notFound "cloneset") (by rfl) (by rfl)
      (Or.inr ⟨by decide, appV1, rfl, by rfl, by rfl⟩) (by rfl) (by rfl)⟩

/-- C10: an error that is not a not-found error, returned by the target revision lookup, by
the source revision lookup or by the workload extraction, is returned by Reconcile as its
error; the calls made are the reads up to the failing one (no plan controller, no status
update) and the world is unchanged, so no state transition is persisted. -/
theorem lookup_error_is_surfaced {W : Type} (r : Reconciler W) (req : Request)
    (w : W) (a : AppRollout) (hget : r.GetAppRollout req.NamespacedName w = .ok a)
    (hgo : ¬ (Terminated a ∧ SamePair a)) :
    (∀ err, r.GetAppConfig (targetKey req a) w = .error err → IsNotFound err = false →
      (Reconcile r req w).retErr = some err ∧
      (Reconcile r req w).trace =
        [Call.getAppRollout req.NamespacedName, Call.getAppConfig (targetKey req a)] ∧
      (Reconcile r req w).world = w) ∧
    (∀ tgt err, r.GetAppConfig (targetKey req a) w = .ok tgt →
      tgt.RollingStatus = .RollingTemplated → a.Spec.SourceAppRevisionName ≠ "" →
      r.GetAppConfig (sourceKey req a) w = .error err → IsNotFound err = false →
      (Reconcile r req w).retErr = some err ∧
      (Reconcile r req w).trace =
        [Call.getAppRollout req.NamespacedName, Call.getAppConfig (targetKey req a),
          Call.getAppConfig (sourceKey req a)] ∧
      (Reconcile r req w).world = w) ∧
    (∀ tgt src err, r.GetAppConfig (targetKey req a) w = .ok tgt →
      tgt.RollingStatus = .RollingTemplated →
      ((a.Spec.SourceAppRevisionName = "" ∧ src = none) ∨
        (a.Spec.SourceAppRevisionName ≠ "" ∧ ∃ s, src = some s ∧
          r.GetAppConfig (sourceKey req a) w = .ok s ∧
          s.RollingStatus = .RollingTemplated)) →
      r.extractWorkloads a.Spec.ComponentList tgt src w = .error err →
      IsNotFound err = false →
      (Reconcile r req w).retErr = some err ∧
      (Reconcile r req w).trace = lookupTrace req a tgt src ∧
      (∀ c ∈ (Reconcile r req w).trace,
        c.isPlanReconcile = false ∧ c.isUpdate = false ∧ c.isStatusUpdate = false) ∧
      (Reconcile r req w).world = w) := by
  refine ⟨?_, ?_, ?_⟩
  · intro err herr hnf
    rw [reconcile_target_error r req w a hget hgo err herr, hnf]
    exact ⟨rfl, rfl, rfl⟩
  · intro tgt err htgt htempl hsrc herr hnf
    rw [reconcile_source_error r req w a hget hgo tgt htgt htempl hsrc err herr, hnf]
    exact ⟨rfl, rfl, rfl⟩
  · intro tgt src err htgt htempl hsrc herr hnf
    rw [reconcile_extract_error r req w a hget hgo tgt src htgt htempl hsrc err herr]
    refine ⟨?_, rfl, lookupTrace_reads_only req a tgt src, rfl⟩
    simp [IgnoreNotFound, hnf]

/-- C10, on the in-memory cluster: the server unreachable for the target revision, then
for the source revision, and a workload extraction that fails with a server error. -/
theorem lookup_error_is_surfaced_witness :
    ((Reconcile (unreachableRevision planKeep "app-v2") demoRequest rollingStore).retErr =
        some (.other "connection refused") ∧
      (Reconcile (unreachableRevision planKeep "app-v2") demoRequest rollingStore).trace =
        [Call.getAppRollout demoRequest.NamespacedName,
          Call.getAppConfig (targetKey demoRequest rollingRollout)] ∧
      (Reconcile (unreachableRevision planKeep "app-v2") demoRequest rollingStore).world =
        rollingStore) ∧
    ((Reconcile (unreachableRevision planKeep "app-v1") demoRequest rollingStore).retErr =
        some (.other "connection refused") ∧
      (Reconcile (unreachableRevision planKeep "app-v1") demoRequest rollingStore).trace =
        [Call.getAppRollout demoRequest.NamespacedName,
          Call.getAppConfig (targetKey demoRequest rollingRollout),
          Call.getAppConfig (sourceKey demoRequest rollingRollout)] ∧
      (Reconcile (unreachableRevision planKeep "app-v1") demoRequest rollingStore).world =
        rollingStore) ∧
    ((Reconcile (brokenExtraction planKeep (.other "internal error")) demoRequest
        rollingStore).retErr = some (.other "internal error") ∧
      (Reconcile (brokenExtraction planKeep (.other "internal error")) demoRequest
        rollingStore).trace = lookupTrace demoRequest rollingRollout appV2 (some appV1) ∧
      (∀ c ∈ (Reconcile (brokenExtraction planKeep (.other "internal error")) demoRequest
          rollingStore).trace,
        c.isPlanReconcile = false ∧ c.isUpdate = false ∧ c.isStatusUpdate = false) ∧
      (Reconcile (brokenExtraction planKeep (.other "internal error")) demoRequest
        rollingStore).world = rollingStore) :=
  ⟨(lookup_error_is_surfaced (unreachableRevision planKeep "app-v2") demoRequest rollingStore
      rollingRollout (by rfl) (by decide)).1 (.other "connection refused") (by rfl) (by rfl),
   (lookup_error_is_surfaced (unreachableRevision planKeep "app-v1") demoRequest rollingStore
      rollingRollout (by rfl) (by decide)).2.1 appV2 (.other "connection refused")
      (by rfl) (by rfl) (by decide) (by rfl) (by rfl),
   (lookup_error_is_surfaced (brokenExtraction planKeep (.other "internal error"))
      demoRequest rollingStore rollingRollout (by rfl) (by decide)).2.2 appV2 (some appV1)
      (.other "internal error") (by rfl) (by rfl)
      (Or.inr ⟨by decide, appV1, rfl, by rfl, by rfl⟩) (by rfl) (by rfl)⟩

/-- Lines 109-115: a target revision that is not templated ends the invocation with a
"Rollout Paused" event. -/
theorem reconcile_target_not_templated {W : Type} (r : Reconciler W) (req : Request) (w : W)
    (a : AppRollout) (hget : r.GetAppRollout req.NamespacedName w = .ok a)
    (hgo : ¬ (Terminated a ∧ SamePair a)) (tgt : ApplicationConfiguration)
    (htgt : r.GetAppConfig (targetKey req a) w = .ok tgt)
    (htempl : tgt.RollingStatus ≠ .RollingTemplated) :
    Reconcile r req w =
      { res := { RequeueAfter := 5 * Second }, retErr := none, world := w,
        trace := [Call.getAppRollout req.NamespacedName, Call.getAppConfig (targetKey req a),
          Call.event "Rollout Paused" "target app revision is not ready for rolling yet"] } := by
  rw [reconcile_proceeds r req w a hget hgo]
  unfold reconcileRevisions
  simp only [targetKey_proceedsWith, htgt, ne_eq, htempl, not_false_eq_true, if_true]
  rfl

/-- Lines 131-137: a source revision that is not templated ends the invocation with a
"Rollout Paused" event. -/
theorem reconcile_source_not_templated {W : Type} (r : Reconciler W) (req : Request) (w : W)
    (a : AppRollout) (hget : r.GetAppRollout req.NamespacedName w = .ok a)
    (hgo : ¬ (Terminated a ∧ SamePair a)) (tgt src : ApplicationConfiguration)
    (htgt : r.GetAppConfig (targetKey req a) w = .ok tgt)
    (htempl : tgt.RollingStatus = .RollingTemplated)
    (hname : a.Spec.SourceAppRevisionName ≠ "")
    (hsrc : r.GetAppConfig (sourceKey req a) w = .ok src)
    (hstempl : src.RollingStatus ≠ .RollingTemplated) :
    Reconcile r req w =
      { res := { RequeueAfter := 5 * Second }, retErr := none, world := w,
        trace := [Call.getAppRollout req.NamespacedName, Call.getAppConfig (targetKey req a),
          Call.getAppConfig (sourceKey req a),
          Call.event "Rollout Paused" "source app revision is not ready for rolling yet"] } := by
  rw [reconcile_proceeds r req w a hget hgo]
  unfold reconcileRevisions
  simp only [targetKey_proceedsWith, sourceKey_proceedsWith, htgt, htempl, ne_eq,
    not_true_eq_false, if_false, proceedsWith_Spec, hname, hsrc, hstempl, not_false_eq_true,
    if_true]
  rfl

/-- When the plan controller reports success and the hand-over fails, Reconcile returns the
error of the failed update; its calls are the lookups, the plan controller and updates of
application revisions. -/
theorem reconcile_handOver_fails {W : Type} {r : Reconciler W} {req : Request} {w : W}
    {a : AppRollout} {targetApp : ApplicationConfiguration}
    {sourceApp : Option ApplicationConfiguration} {tw : Workload} {sw : Option Workload}
    (hreach : ReachesPlan r req w a targetApp sourceApp tw sw)
    (hsucc : (r.planReconcile (proceedsWith a) tw sw w).1.2.RollingState =
      .RolloutSucceedState)
    (err : ApiError)
    (hfail : (handOver r targetApp sourceApp (r.planReconcile (proceedsWith a) tw sw w).2
      (lookupTrace req a targetApp sourceApp ++
        [Call.planReconcile (proceedsWith a) tw sw])).1 = some err) :
    (Reconcile r req w).res = {} ∧ (Reconcile r req w).retErr = some err ∧
    ∃ ext, (Reconcile r req w).trace =
        lookupTrace req a targetApp sourceApp ++
          Call.planReconcile (proceedsWith a) tw sw :: ext ∧
      ∀ c ∈ ext, c.isUpdate = true := by
  rw [reconcile_reaches_plan hreach]
  obtain ⟨ext, hext, hupd⟩ := handOver_trace r targetApp sourceApp
    (r.planReconcile (proceedsWith a) tw sw w).2
    (lookupTrace req a targetApp sourceApp ++ [Call.planReconcile (proceedsWith a) tw sw])
  cases hho : handOver r targetApp sourceApp (r.planReconcile (proceedsWith a) tw sw w).2
    (lookupTrace req a targetApp sourceApp ++ [Call.planReconcile (proceedsWith a) tw sw]) with
  | mk e rest =>
    cases rest with
    | mk w2 t2 =>
      rw [hho] at hfail hext
      simp only at hfail hext
      subst hfail
      rw [finishRollout_handOver_fails r _ targetApp sourceApp tw sw w _ hsucc err w2 t2 hho]
      refine ⟨rfl, rfl, ext, ?_, hupd⟩
      simp only [hext, List.append_assoc, List.singleton_append]

theorem isStatusUpdate_false_of_isUpdate {c : Call} (h : c.isUpdate = true) :
    c.isStatusUpdate = false := by
  cases c <;> simp_all [Call.isUpdate, Call.isStatusUpdate]

/-- C11 as stated fails: on the in-memory cluster without the revisions the invocation ends
early because the target revision is missing, and with a server that refuses updates it ends
early because the update of the source fails; in both the persisted status afterwards has
no condition at all. -/
theorem early_exit_leaves_no_condition :
    ((Reconcile (memReconciler planKeep) demoRequest missingStore).res =
        { Requeue := false, RequeueAfter := 5000000000 } ∧
      (Reconcile (memReconciler planKeep) demoRequest missingStore).retErr = none ∧
      (Store.getAppRollout demoRequest.NamespacedName
        (Reconcile (memReconciler planKeep) demoRequest missingStore).world).toOption.map
          (fun a => a.Status.Conditions) = some []) ∧
    ((Reconcile (refusedUpdates planSucceed) demoRequest rollingStore).retErr =
        some (.other "update refused") ∧
      (Store.getAppRollout demoRequest.NamespacedName
        (Reconcile (refusedUpdates planSucceed) demoRequest rollingStore).world).toOption.map
          (fun a => a.Status.Conditions) = some []) :=
  ⟨⟨by rfl, by rfl, by rfl⟩, by rfl, by rfl⟩

/-- Every invocation either ends before the plan controller or reaches it. -/
theorem reconcile_ends_early_or_reaches_plan {W : Type} (r : Reconciler W) (req : Request)
    (w : W) :
    EndsEarly r req w ∨
      ∃ a targetApp sourceApp tw sw, ReachesPlan r req w a targetApp sourceApp tw sw := by
  cases hget : r.GetAppRollout req.NamespacedName w with
  | error err => exact Or.inl (.readFails err hget)
  | ok a =>
    by_cases hgo : Terminated a ∧ SamePair a
    · exact Or.inl (.terminated a hget hgo)
    · cases htgt : r.GetAppConfig (targetKey req a) w with
      | error err => exact Or.inl (.targetFails a hget hgo err htgt)
      | ok tgt =>
        by_cases htempl : tgt.RollingStatus = .RollingTemplated
        · by_cases hname : a.Spec.SourceAppRevisionName = ""
          · cases hext : r.extractWorkloads a.Spec.ComponentList tgt none w with
            | error err =>
              exact Or.inl (.extractFails a hget hgo tgt none htgt htempl
                (Or.inl ⟨hname, rfl⟩) err hext)
            | ok ws =>
              exact Or.inr ⟨a, tgt, none, ws.1, ws.2,
                ⟨hget, hgo, htgt, htempl, Or.inl ⟨hname, rfl⟩, hext⟩⟩
          · cases hsrc : r.GetAppConfig (sourceKey req a) w with
            | error err => exact Or.inl (.sourceFails a hget hgo tgt htgt htempl hname err hsrc)
            | ok src =>
              by_cases hstempl : src.RollingStatus = .RollingTemplated
              · cases hext : r.extractWorkloads a.Spec.ComponentList tgt (some src) w with
                | error err =>
                  exact Or.inl (.extractFails a hget hgo tgt (some src) htgt htempl
                    (Or.inr ⟨hname, src, rfl, hsrc, hstempl⟩) err hext)
                | ok ws =>
                  exact Or.inr ⟨a, tgt, some src, ws.1, ws.2,
                    ⟨hget, hgo, htgt, htempl, Or.inr ⟨hname, src, rfl, hsrc, hstempl⟩, hext⟩⟩
              · exact Or.inl (.sourceNotTemplated a hget hgo tgt src htgt htempl hname hsrc
                  hstempl)
        · exact Or.inl (.targetNotTemplated a hget hgo tgt htgt htempl)

/-- Lines 67-72: when the AppRollout cannot be read, the read is the only call. -/
theorem reconcile_read_fails {W : Type} (r : Reconciler W) (req : Request) (w : W)
    (err : ApiError) (hget : r.GetAppRollout req.NamespacedName w = .error err) :
    Reconcile r req w =
      { res := {}, retErr := IgnoreNotFound (some err), world := w,
        trace := [Call.getAppRollout req.NamespacedName] } := by
  unfold Reconcile ReconcileWith
  simp only [hget]

/-- Lines 82-89: a terminated rollout on the recorded pair ends the invocation at once. -/
theorem reconcile_terminated {W : Type} (r : Reconciler W) (req : Request) (w : W)
    (a : AppRollout) (hget : r.GetAppRollout req.NamespacedName w = .ok a)
    (hdone : Terminated a ∧ SamePair a) :
    Reconcile r req w =
      { res := {}, retErr := none, world := w,
        trace := [Call.getAppRollout req.NamespacedName] } := by
  unfold Reconcile ReconcileWith
  simp only [hget, handleFinalizer_eq]
  have h1 := hdone.1
  have h2 := hdone.2
  unfold Terminated at h1
  unfold SamePair at h2
  rw [if_pos h1, if_pos h2]

/-- An invocation that ends before the plan controller makes reads and events only and
leaves the world as it was. -/
theorem endsEarly_quiet {W : Type} (r : Reconciler W) (req : Request) (w : W)
    (h : EndsEarly r req w) :
    (Reconcile r req w).world = w ∧
    ∀ c ∈ (Reconcile r req w).trace,
      c.isPlanReconcile = false ∧ c.isUpdate = false ∧ c.isStatusUpdate = false := by
  cases h with
  | readFails err hget =>
    rw [reconcile_read_fails r req w err hget]
    exact ⟨rfl, by simp [Call.isPlanReconcile, Call.isUpdate, Call.isStatusUpdate]⟩
  | terminated a hget hdone =>
    rw [reconcile_terminated r req w a hget hdone]
    exact ⟨rfl, by simp [Call.isPlanReconcile, Call.isUpdate, Call.isStatusUpdate]⟩
  | targetFails a hget hgo err htgt =>
    rw [reconcile_target_error r req w a hget hgo err htgt]
    split <;>
      exact ⟨rfl, by simp [Call.isPlanReconcile, Call.isUpdate, Call.isStatusUpdate]⟩
  | targetNotTemplated a hget hgo tgt htgt htempl =>
    rw [reconcile_target_not_templated r req w a hget hgo tgt htgt htempl]
    exact ⟨rfl, by simp [Call.isPlanReconcile, Call.isUpdate, Call.isStatusUpdate]⟩
  | sourceFails a hget hgo tgt htgt htempl hname err hsrc =>
    rw [reconcile_source_error r req w a hget hgo tgt htgt htempl hname err hsrc]
    split <;>
      exact ⟨rfl, by simp [Call.isPlanReconcile, Call.isUpdate, Call.isStatusUpdate]⟩
  | sourceNotTemplated a hget hgo tgt src htgt htempl hname hsrc hstempl =>
    rw [reconcile_source_not_templated r req w a hget hgo tgt src htgt htempl hname hsrc
      hstempl]
    exact ⟨rfl, by simp [Call.isPlanReconcile, Call.isUpdate, Call.isStatusUpdate]⟩
  | extractFails a hget hgo tgt src htgt htempl hsrc err hext =>
    rw [reconcile_extract_error r req w a hget hgo tgt src htgt htempl hsrc err hext]
    exact ⟨rfl, lookupTrace_reads_only req a tgt src⟩

/-- The calls of lines 161-181 are updates of application revisions only. -/
theorem afterHandOver_trace {W : Type} (r : Reconciler W) (rs : RolloutStatus)
    (targetApp : ApplicationConfiguration) (sourceApp : Option ApplicationConfiguration)
    (w : W) (t : List Call) :
    ∃ ext, (afterHandOver r rs targetApp sourceApp w t).2 = t ++ ext ∧
      ∀ c ∈ ext, c.isUpdate = true := by
  unfold afterHandOver
  split
  · exact handOver_trace r targetApp sourceApp w t
  · exact ⟨[], by simp, by simp⟩

/-- Line 183 is reached when no annotation update fails: Reconcile is then the persistence
of the copied-back status after the hand-over, returned with the result of the plan
controller. -/
theorem reconcile_persists_after_handOver {W : Type} {r : Reconciler W} {req : Request}
    {w : W} {a : AppRollout} {targetApp : ApplicationConfiguration}
    {sourceApp : Option ApplicationConfiguration} {tw : Workload} {sw : Option Workload}
    (hreach : ReachesPlan r req w a targetApp sourceApp tw sw)
    (hok : (r.planReconcile (proceedsWith a) tw sw w).1.2.RollingState =
        .RolloutSucceedState →
      (handOver r targetApp sourceApp (r.planReconcile (proceedsWith a) tw sw w).2
        (lookupTrace req a targetApp sourceApp ++
          [Call.planReconcile (proceedsWith a) tw sw])).1 = none) :
    Reconcile r req w =
      persistAndReturn r (r.planReconcile (proceedsWith a) tw sw w).1.1
        (copyBack (proceedsWith a) (r.planReconcile (proceedsWith a) tw sw w).1.2
          a.Spec.TargetAppRevisionName a.Spec.SourceAppRevisionName)
        (afterHandOver r (r.planReconcile (proceedsWith a) tw sw w).1.2 targetApp sourceApp
          (r.planReconcile (proceedsWith a) tw sw w).2
          (lookupTrace req a targetApp sourceApp ++
            [Call.planReconcile (proceedsWith a) tw sw])).1
        (afterHandOver r (r.planReconcile (proceedsWith a) tw sw w).1.2 targetApp sourceApp
          (r.planReconcile (proceedsWith a) tw sw w).2
          (lookupTrace req a targetApp sourceApp ++
            [Call.planReconcile (proceedsWith a) tw sw])).2 := by
  by_cases hs : (r.planReconcile (proceedsWith a) tw sw w).1.2.RollingState =
      .RolloutSucceedState
  · have hnone := hok hs
    apply reconcile_persists hreach
    refine Or.inr ⟨hs, ?_⟩
    unfold afterHandOver
    rw [if_pos hs]
    cases hho : handOver r targetApp sourceApp (r.planReconcile (proceedsWith a) tw sw w).2
      (lookupTrace req a targetApp sourceApp ++
        [Call.planReconcile (proceedsWith a) tw sw]) with
    | mk e rest =>
      rw [hho] at hnone
      simp only at hnone
      subst hnone
      rfl
  · apply reconcile_persists hreach
    refine Or.inl ⟨hs, ?_, ?_⟩
    · unfold afterHandOver; rw [if_neg hs]
    · unfold afterHandOver; rw [if_neg hs]

theorem isPlanReconcile_false_of_isUpdate {c : Call} (h : c.isUpdate = true) :
    c.isPlanReconcile = false := by
  cases c <;> simp_all [Call.isUpdate, Call.isPlanReconcile]

theorem isPlanReconcile_false_of_isPersist {c : Call} (h : c.isPersist = true) :
    c.isPlanReconcile = false := by
  cases c <;> simp_all [Call.isPersist, Call.isPlanReconcile]

/-- C18: a revision that is not yet templated pauses the rollout.  When the target
revision is found but is not `RollingTemplated`, Reconcile records a "Rollout Paused" event
and returns `RequeueAfter` = 5 seconds with a nil error, before any lookup of the source;
when the source revision is named and found but is not `RollingTemplated`, it does the same
after the lookup of the source.  In both cases the plan controller is not invoked, nothing
is persisted and the world is unchanged. -/
theorem not_templated_pauses {W : Type} (r : Reconciler W) (req : Request) (w : W)
    (a : AppRollout) (hget : r.GetAppRollout req.NamespacedName w = .ok a)
    (hgo : ¬ (Terminated a ∧ SamePair a)) :
    (∀ tgt, r.GetAppConfig (targetKey req a) w = .ok tgt →
      tgt.RollingStatus ≠ .RollingTemplated →
      (Reconcile r req w).res = { Requeue := false, RequeueAfter := 5 * Second } ∧
      (Reconcile r req w).retErr = none ∧
      (Reconcile r req w).trace =
        [Call.getAppRollout req.NamespacedName, Call.getAppConfig (targetKey req a),
          Call.event "Rollout Paused" "target app revision is not ready for rolling yet"] ∧
      (Reconcile r req w).world = w) ∧
    (∀ tgt src, r.GetAppConfig (targetKey req a) w = .ok tgt →
      tgt.RollingStatus = .RollingTemplated → a.Spec.SourceAppRevisionName ≠ "" →
      r.GetAppConfig (sourceKey req a) w = .ok src →
      src.RollingStatus ≠ .RollingTemplated →
      (Reconcile r req w).res = { Requeue := false, RequeueAfter := 5 * Second } ∧
      (Reconcile r req w).retErr = none ∧
      (Reconcile r req w).trace =
        [Call.getAppRollout req.NamespacedName, Call.getAppConfig (targetKey req a),
          Call.getAppConfig (sourceKey req a),
          Call.event "Rollout Paused" "source app revision is not ready for rolling yet"] ∧
      (Reconcile r req w).world = w) := by
  refine ⟨?_, ?_⟩
  · intro tgt htgt htempl
    rw [reconcile_target_not_templated r req w a hget hgo tgt htgt htempl]
    exact ⟨rfl, rfl, rfl, rfl⟩
  · intro tgt src htgt htempl hname hsrc hstempl
    rw [reconcile_source_not_templated r req w a hget hgo tgt src htgt htempl hname hsrc
      hstempl]
    exact ⟨rfl, rfl, rfl, rfl⟩

/-- C18, on the in-memory cluster: the target still being templated, and the source still
being templated. -/
theorem not_templated_pauses_witness :
    ((Reconcile (memReconciler planKeep) demoRequest targetTemplatingStore).res =
        { Requeue := false, RequeueAfter := 5000000000 } ∧
      (Reconcile (memReconciler planKeep) demoRequest targetTemplatingStore).retErr = none ∧
      (Reconcile (memReconciler planKeep) demoRequest targetTemplatingStore).trace =
        [Call.getAppRollout demoRequest.NamespacedName,
          Call.getAppConfig (targetKey demoRequest pendingRollout),
          Call.event "Rollout Paused" "target app revision is not ready for rolling yet"] ∧
      (Reconcile (memReconciler planKeep) demoRequest targetTemplatingStore).world =
        targetTemplatingStore) ∧
    ((Reconcile (memReconciler planKeep) demoRequest sourceTemplatingStore).res =
        { Requeue := false, RequeueAfter := 5000000000 } ∧
      (Reconcile (memReconciler planKeep) demoRequest sourceTemplatingStore).retErr = none ∧
      (Reconcile (memReconciler planKeep) demoRequest sourceTemplatingStore).trace =
        [Call.getAppRollout demoRequest.NamespacedName,
          Call.getAppConfig (targetKey demoRequest pendingRollout),
          Call.getAppConfig (sourceKey demoRequest pendingRollout),
          Call.event "Rollout Paused" "source app revision is not ready for rolling yet"] ∧
      (Reconcile (memReconciler planKeep) demoRequest sourceTemplatingStore).world =
        sourceTemplatingStore) :=
  ⟨(not_templated_pauses (memReconciler planKeep) demoRequest targetTemplatingStore
      pendingRollout (by rfl) (by decide)).1 { appV2 with RollingStatus := .RollingTemplating }
      (by rfl) (by decide),
   (not_templated_pauses (memReconciler planKeep) demoRequest sourceTemplatingStore
      pendingRollout (by rfl) (by decide)).2 appV2
      { appV1 with RollingStatus := .RollingTemplating }
      (by rfl) (by rfl) (by decide) (by rfl) (by decide)⟩

/-- The calls from the plan controller on: the plan controller on the object handed in,
the updates of the hand-over, then the calls of the status persistence, each of which
writes the copied-back status; a failed hand-over is followed by no call. -/
theorem finishRollout_calls {W : Type} (r : Reconciler W) (a : AppRollout)
    (targetApp : ApplicationConfiguration) (sourceApp : Option ApplicationConfiguration)
    (tw : Workload) (sw : Option Workload) (w : W) (t : List Call) :
    ∃ e1 e2, (finishRollout r a targetApp sourceApp tw sw w t).trace =
        t ++ Call.planReconcile a tw sw :: (e1 ++ e2) ∧
      (afterHandOver r (r.planReconcile a tw sw w).1.2 targetApp sourceApp
        (r.planReconcile a tw sw w).2 (t ++ [Call.planReconcile a tw sw])).2 =
        t ++ [Call.planReconcile a tw sw] ++ e1 ∧
      (∀ c ∈ e1, c.isUpdate = true) ∧
      (∀ c ∈ e2, persistOf (copyBack a (r.planReconcile a tw sw w).1.2
        a.Spec.TargetAppRevisionName a.Spec.SourceAppRevisionName).Status c = true) ∧
      ((r.planReconcile a tw sw w).1.2.RollingState = .RolloutSucceedState →
        (handOver r targetApp sourceApp (r.planReconcile a tw sw w).2
          (t ++ [Call.planReconcile a tw sw])).1 ≠ none → e2 = []) := by
  obtain ⟨e1, he1, hupd⟩ := afterHandOver_trace r (r.planReconcile a tw sw w).1.2 targetApp
    sourceApp (r.planReconcile a tw sw w).2 (t ++ [Call.planReconcile a tw sw])
  by_cases hs : (r.planReconcile a tw sw w).1.2.RollingState = .RolloutSucceedState
  · have hah : afterHandOver r (r.planReconcile a tw sw w).1.2 targetApp sourceApp
        (r.planReconcile a tw sw w).2 (t ++ [Call.planReconcile a tw sw]) =
        (handOver r targetApp sourceApp (r.planReconcile a tw sw w).2
          (t ++ [Call.planReconcile a tw sw])).2 := by
      unfold afterHandOver; rw [if_pos hs]
    cases hho : handOver r targetApp sourceApp (r.planReconcile a tw sw w).2
      (t ++ [Call.planReconcile a tw sw]) with
    | mk e rest =>
      cases rest with
      | mk w2 t2 =>
        rw [hah, hho] at he1
        simp only at he1
        cases e with
        | some err =>
          rw [finishRollout_handOver_fails r a targetApp sourceApp tw sw w t hs err w2 t2 hho]
          refine ⟨e1, [], ?_, ?_, hupd, by simp, fun _ _ => rfl⟩
          · simp [he1]
          · rw [hah, hho]; exact he1
        | none =>
          rw [finishRollout_handOver_ok r a targetApp sourceApp tw sw w t hs w2 t2 hho]
          obtain ⟨e2, he2, hwrites⟩ := updateStatus_writes r
            (copyBack a (r.planReconcile a tw sw w).1.2 a.Spec.TargetAppRevisionName
              a.Spec.SourceAppRevisionName) w2 t2
          refine ⟨e1, e2, ?_, ?_, hupd, hwrites, ?_⟩
          · simp only [persistAndReturn]
            rw [he2, he1]
            simp only [List.append_assoc, List.singleton_append, List.cons_append, List.nil_append]
          · rw [hah, hho]; exact he1
          · intro _ h; exact absurd rfl h
  · have hah : afterHandOver r (r.planReconcile a tw sw w).1.2 targetApp sourceApp
        (r.planReconcile a tw sw w).2 (t ++ [Call.planReconcile a tw sw]) =
        ((r.planReconcile a tw sw w).2, t ++ [Call.planReconcile a tw sw]) := by
      unfold afterHandOver; rw [if_neg hs]
    rw [finishRollout_not_succeeded r a targetApp sourceApp tw sw w t hs]
    obtain ⟨e2, he2, hwrites⟩ := updateStatus_writes r
      (copyBack a (r.planReconcile a tw sw w).1.2 a.Spec.TargetAppRevisionName
        a.Spec.SourceAppRevisionName) (r.planReconcile a tw sw w).2
      (t ++ [Call.planReconcile a tw sw])
    refine ⟨[], e2, ?_, ?_, by simp, hwrites, fun h => absurd h hs⟩
    · simp only [persistAndReturn]
      rw [he2]
      simp only [List.append_assoc, List.singleton_append, List.nil_append]
    · rw [hah]; simp

theorem isPersist_quiet {c : Call} (h : c.isPersist = true) :
    c.isGetAppConfig = false ∧ c.isEvent = false ∧ c.isExtractWorkloads = false ∧
      c.isUpdate = false := by
  cases c <;> simp_all [Call.isPersist, Call.isGetAppConfig, Call.isEvent,
    Call.isExtractWorkloads, Call.isUpdate]

theorem isUpdate_quiet {c : Call} (h : c.isUpdate = true) :
    c.isGetAppConfig = false ∧ c.isEvent = false ∧ c.isExtractWorkloads = false ∧
      c.isStatusUpdate = false := by
  cases c <;> simp_all [Call.isUpdate, Call.isGetAppConfig, Call.isEvent,
    Call.isExtractWorkloads, Call.isStatusUpdate]

/-- Whatever path the invocation takes, the plan controller is only ever invoked on the
in-memory object made from the AppRollout read at its start. -/
theorem reconcile_plan_calls {W : Type} (r : Reconciler W) (req : Request) (w : W)
    (a : AppRollout) (hget : r.GetAppRollout req.NamespacedName w = .ok a) :
    ∀ ar tw sw, Call.planReconcile ar tw sw ∈ (Reconcile r req w).trace →
      ar = proceedsWith a := by
  intro ar tw sw hmem
  by_cases hgo : Terminated a ∧ SamePair a
  · rw [reconcile_terminated r req w a hget hgo] at hmem
    simp at hmem
  · rw [reconcile_proceeds r req w a hget hgo] at hmem
    obtain ⟨ext, hext, hplan⟩ := reconcileRevisions_trace r req (proceedsWith a) w
      [Call.getAppRollout req.NamespacedName]
    rw [hext] at hmem
    simp only [List.singleton_append, List.mem_cons] at hmem
    rcases hmem with h | h | h
    · cases h
    · cases h
    · have := hplan _ h
      simpa [planOn] using this

theorem proceedsWith_of_not_terminated (a : AppRollout) (h : ¬ Terminated a) :
    proceedsWith a = a := by
  unfold proceedsWith
  rw [if_neg h]

/-- C17: the plan is read fresh on each invocation.  Every invocation of the plan
controller is on the in-memory object made from the AppRollout read at the start of the
same invocation: its spec, and so its rollout plan (batches, batchPartition, paused), is
the one read, and its status is the one read (with the restart event applied when the
rollout had terminated on another pair).  Hence two invocations, of any two reconcilers in
any two worlds, whose reads return equal objects hand the plan controller equal objects:
nothing an earlier invocation saw enters. -/
theorem plan_inputs_read_fresh {W W2 : Type} (r : Reconciler W) (r2 : Reconciler W2)
    (req req2 : Request) (w : W) (w2 : W2) (a : AppRollout)
    (hget : r.GetAppRollout req.NamespacedName w = .ok a) :
    (∀ ar tw sw, Call.planReconcile ar tw sw ∈ (Reconcile r req w).trace →
      ar.Spec.RolloutPlan = a.Spec.RolloutPlan ∧ ar.Spec = a.Spec ∧
      ar = proceedsWith a ∧ (¬ Terminated a → ar.Status = a.Status)) ∧
    (r2.GetAppRollout req2.NamespacedName w2 = .ok a →
      ∀ ar tw sw ar2 tw2 sw2,
        Call.planReconcile ar tw sw ∈ (Reconcile r req w).trace →
        Call.planReconcile ar2 tw2 sw2 ∈ (Reconcile r2 req2 w2).trace →
        ar2 = ar ∧ ar2.Spec.RolloutPlan = ar.Spec.RolloutPlan ∧
          ar2.Status.toRolloutStatus = ar.Status.toRolloutStatus) := by
  refine ⟨?_, ?_⟩
  · intro ar tw sw hmem
    have h := reconcile_plan_calls r req w a hget ar tw sw hmem
    subst h
    refine ⟨by rw [proceedsWith_Spec], proceedsWith_Spec a, rfl, ?_⟩
    intro hnt
    rw [proceedsWith_of_not_terminated a hnt]
  · intro hget2 ar tw sw ar2 tw2 sw2 hmem hmem2
    have h := reconcile_plan_calls r req w a hget ar tw sw hmem
    have h2 := reconcile_plan_calls r2 req2 w2 a hget2 ar2 tw2 sw2 hmem2
    subst h
    subst h2
    exact ⟨rfl, rfl, rfl⟩

/-- C17, on the in-memory cluster: an invocation against a server that accepts the status
update and one against a server that answers it with conflicts read the same object and
hand the plan controller the same object, with the plan as stored (partition 1). -/
theorem plan_inputs_read_fresh_witness :
    Call.planReconcile rollingRollout (workloadOf appV2) (some (workloadOf appV1)) ∈
      (Reconcile (memReconciler planKeep) demoRequest rollingStore).trace ∧
    Call.planReconcile rollingRollout (workloadOf appV2) (some (workloadOf appV1)) ∈
      (Reconcile (conflictingWrites planKeep) demoRequest rollingStore).trace ∧
    (∀ ar tw sw, Call.planReconcile ar tw sw ∈
        (Reconcile (memReconciler planKeep) demoRequest rollingStore).trace →
      ar.Spec.RolloutPlan = rollingRollout.Spec.RolloutPlan ∧
      ar.Spec = rollingRollout.Spec ∧ ar = proceedsWith rollingRollout ∧
      (¬ Terminated rollingRollout → ar.Status = rollingRollout.Status)) ∧
    (∀ ar tw sw ar2 tw2 sw2,
      Call.planReconcile ar tw sw ∈
        (Reconcile (memReconciler planKeep) demoRequest rollingStore).trace →
      Call.planReconcile ar2 tw2 sw2 ∈
        (Reconcile (conflictingWrites planKeep) demoRequest rollingStore).trace →
      ar2 = ar ∧ ar2.Spec.RolloutPlan = ar.Spec.RolloutPlan ∧
        ar2.Status.toRolloutStatus = ar.Status.toRolloutStatus) :=
  have h := plan_inputs_read_fresh (memReconciler planKeep) (conflictingWrites planKeep)
    demoRequest demoRequest rollingStore rollingStore rollingRollout (by rfl)
  ⟨by decide, by decide, h.1, h.2 (by rfl)⟩

/-- The hand-over returns nil exactly when every update it made returned nil. -/
theorem handOver_ok_iff {W : Type} (r : Reconciler W) (targetApp : ApplicationConfiguration)
    (sourceApp : Option ApplicationConfiguration) (w : W) (t : List Call) :
    (handOver r targetApp sourceApp w t).1 = none ↔
      match sourceApp with
      | some src => (r.Update (markedSource src) w).1 = none ∧
          (r.Update (releasedTarget targetApp) (r.Update (markedSource src) w).2).1 = none
      | none => (r.Update (releasedTarget targetApp) w).1 = none := by
  cases sourceApp with
  | none => rw [handOver_none]
  | some src =>
    cases hupd : (r.Update (markedSource src) w).1 with
    | some err =>
      rw [handOver_source_fails r targetApp src w t err hupd]
      constructor
      · intro h; cases h
      · rintro ⟨h, _⟩
        rw [hupd] at h
        cases h
    | none =>
      rw [handOver_source_ok r targetApp src w t hupd]
      exact ⟨fun h => ⟨hupd, h⟩, fun h => h.2⟩

/-- C20: a terminal success is persisted only after both hand-over writes succeeded.  When
the plan controller returns `RolloutSucceeded`: if the update of the source fails, Reconcile
returns that error with the empty result, and its calls end with that update (no update of
the target, no status update); if the update of the target fails, it returns that error
with the empty result and makes no status update.  Hence, in every invocation, a status
update that writes `rollingState = RolloutSucceeded` is made only when the invocation
reached the plan controller, the plan controller returned that state, and every annotation
update of the hand-over returned nil. -/
theorem success_persisted_only_after_handover {W : Type} (r : Reconciler W) (req : Request)
    (w : W) :
    (∀ a tgt src tw sw err, ReachesPlan r req w a tgt (some src) tw sw →
      (r.planReconcile (proceedsWith a) tw sw w).1.2.RollingState = .RolloutSucceedState →
      (r.Update (markedSource src) (r.planReconcile (proceedsWith a) tw sw w).2).1 =
        some err →
      (Reconcile r req w).res = {} ∧ (Reconcile r req w).retErr = some err ∧
      (Reconcile r req w).trace = lookupTrace req a tgt (some src) ++
        [Call.planReconcile (proceedsWith a) tw sw, Call.update (markedSource src)]) ∧
    (∀ a tgt src tw sw err, ReachesPlan r req w a tgt (some src) tw sw →
      (r.planReconcile (proceedsWith a) tw sw w).1.2.RollingState = .RolloutSucceedState →
      (r.Update (markedSource src) (r.planReconcile (proceedsWith a) tw sw w).2).1 = none →
      (r.Update (releasedTarget tgt)
        (r.Update (markedSource src) (r.planReconcile (proceedsWith a) tw sw w).2).2).1 =
          some err →
      (Reconcile r req w).res = {} ∧ (Reconcile r req w).retErr = some err ∧
      (Reconcile r req w).trace = lookupTrace req a tgt (some src) ++
        [Call.planReconcile (proceedsWith a) tw sw, Call.update (markedSource src),
          Call.update (releasedTarget tgt)]) ∧
    (∀ a tgt tw sw err, ReachesPlan r req w a tgt none tw sw →
      (r.planReconcile (proceedsWith a) tw sw w).1.2.RollingState = .RolloutSucceedState →
      (r.Update (releasedTarget tgt) (r.planReconcile (proceedsWith a) tw sw w).2).1 =
        some err →
      (Reconcile r req w).res = {} ∧ (Reconcile r req w).retErr = some err ∧
      (Reconcile r req w).trace = lookupTrace req a tgt none ++
        [Call.planReconcile (proceedsWith a) tw sw, Call.update (releasedTarget tgt)]) ∧
    (∀ obj, Call.statusUpdate obj ∈ (Reconcile r req w).trace →
      obj.Status.RollingState = .RolloutSucceedState →
      ∃ a tgt src tw sw, ReachesPlan r req w a tgt src tw sw ∧
        (r.planReconcile (proceedsWith a) tw sw w).1.2.RollingState =
          .RolloutSucceedState ∧
        match src with
        | some s =>
          (r.Update (markedSource s) (r.planReconcile (proceedsWith a) tw sw w).2).1 = none ∧
          (r.Update (releasedTarget tgt)
            (r.Update (markedSource s) (r.planReconcile (proceedsWith a) tw sw w).2).2).1 =
              none
        | none =>
          (r.Update (releasedTarget tgt) (r.planReconcile (proceedsWith a) tw sw w).2).1 =
            none) := by
  refine ⟨?_, ?_, ?_, ?_⟩
  · intro a tgt src tw sw err hreach hs hfail
    rw [reconcile_reaches_plan hreach,
      finishRollout_handOver_fails r _ tgt (some src) tw sw w _ hs err _ _
        (handOver_source_fails r tgt src _ _ err hfail)]
    refine ⟨rfl, rfl, ?_⟩
    simp only [List.append_assoc, List.singleton_append]
  · intro a tgt src tw sw err hreach hs hok hfail
    have hho := handOver_source_ok r tgt src (r.planReconcile (proceedsWith a) tw sw w).2
      (lookupTrace req a tgt (some src) ++ [Call.planReconcile (proceedsWith a) tw sw]) hok
    rw [hfail] at hho
    rw [reconcile_reaches_plan hreach,
      finishRollout_handOver_fails r _ tgt (some src) tw sw w _ hs err _ _ hho]
    refine ⟨rfl, rfl, ?_⟩
    simp only [List.append_assoc, List.singleton_append, List.cons_append, List.nil_append]
  · intro a tgt tw sw err hreach hs hfail
    have hho := handOver_none r tgt (r.planReconcile (proceedsWith a) tw sw w).2
      (lookupTrace req a tgt none ++ [Call.planReconcile (proceedsWith a) tw sw])
    rw [hfail] at hho
    rw [reconcile_reaches_plan hreach,
      finishRollout_handOver_fails r _ tgt none tw sw w _ hs err _ _ hho]
    refine ⟨rfl, rfl, ?_⟩
    simp only [List.append_assoc, List.singleton_append, List.cons_append, List.nil_append]
  · intro obj hobj hstate
    rcases reconcile_ends_early_or_reaches_plan r req w with hearly | ⟨a, tgt, src, tw, sw, hreach⟩
    · have := ((endsEarly_quiet r req w hearly).2 _ hobj).2.2
      simp [Call.isStatusUpdate] at this
    · refine ⟨a, tgt, src, tw, sw, hreach, ?_⟩
      rw [reconcile_reaches_plan hreach] at hobj
      obtain ⟨e1, e2, htr, _, hupd, hwrites, hnone⟩ := finishRollout_calls r (proceedsWith a)
        tgt src tw sw w (lookupTrace req a tgt src)
      rw [htr] at hobj
      have hin : Call.statusUpdate obj ∈ e2 := by
        simp only [List.mem_append, List.mem_cons] at hobj
        rcases hobj with h | h | h | h
        · have := (lookupTrace_reads_only req a tgt src _ h).2.2
          simp [Call.isStatusUpdate] at this
        · cases h
        · have := hupd _ h
          simp [Call.isUpdate] at this
        · exact h
      have hst := hwrites _ hin
      simp only [persistOf, decide_eq_true_eq] at hst
      have hs : (r.planReconcile (proceedsWith a) tw sw w).1.2.RollingState =
          .RolloutSucceedState := by
        rw [hst] at hstate
        exact hstate
      refine ⟨hs, ?_⟩
      have hok : (handOver r tgt src (r.planReconcile (proceedsWith a) tw sw w).2
          (lookupTrace req a tgt src ++ [Call.planReconcile (proceedsWith a) tw sw])).1 =
          none := by
        by_contra hne
        have := hnone hs hne
        rw [this] at hin
        simp at hin
      exact (handOver_ok_iff r tgt src _ _).mp hok

/-- The lookups of the rollout in progress succeed on the in-memory cluster when the
server refuses the update of one revision. -/
theorem rollingStore_refusedUpdateOf_reaches_plan (plan : AppRollout → Result × RolloutStatus)
    (name : String) :
    ReachesPlan (refusedUpdateOf plan name) demoRequest rollingStore rollingRollout appV2
      (some appV1) (workloadOf appV2) (some (workloadOf appV1)) where
  read := by rfl
  proceeds := by decide
  target := by rfl
  targetTemplated := by rfl
  source := Or.inr ⟨by decide, appV1, rfl, by rfl, by rfl⟩
  workloads := by rfl

/-- C20, on the in-memory cluster with a plan controller that reports success: the update
of the source refused, the update of the target refused, and both accepted. -/
theorem success_persisted_only_after_handover_witness :
    ((Reconcile (refusedUpdates planSucceed) demoRequest rollingStore).res = {} ∧
      (Reconcile (refusedUpdates planSucceed) demoRequest rollingStore).retErr =
        some (.other "update refused") ∧
      (Reconcile (refusedUpdates planSucceed) demoRequest rollingStore).trace =
        lookupTrace demoRequest rollingRollout appV2 (some appV1) ++
          [Call.planReconcile (proceedsWith rollingRollout) (workloadOf appV2)
            (some (workloadOf appV1)), Call.update (markedSource appV1)]) ∧
    ((Reconcile (refusedUpdateOf planSucceed "app-v2") demoRequest rollingStore).res = {} ∧
      (Reconcile (refusedUpdateOf planSucceed "app-v2") demoRequest rollingStore).retErr =
        some (.other "update refused") ∧
      (Reconcile (refusedUpdateOf planSucceed "app-v2") demoRequest rollingStore).trace =
        lookupTrace demoRequest rollingRollout appV2 (some appV1) ++
          [Call.planReconcile (proceedsWith rollingRollout) (workloadOf appV2)
            (some (workloadOf appV1)), Call.update (markedSource appV1),
            Call.update (releasedTarget appV2)]) ∧
    (∃ a tgt src tw sw,
      ReachesPlan (memReconciler planSucceed) demoRequest rollingStore a tgt src tw sw ∧
      ((memReconciler planSucceed).planReconcile (proceedsWith a) tw sw
        rollingStore).1.2.RollingState = .RolloutSucceedState ∧
      match src with
      | some s =>
        ((memReconciler planSucceed).Update (markedSource s)
          ((memReconciler planSucceed).planReconcile (proceedsWith a) tw sw
            rollingStore).2).1 = none ∧
        ((memReconciler planSucceed).Update (releasedTarget tgt)
          ((memReconciler planSucceed).Update (markedSource s)
            ((memReconciler planSucceed).planReconcile (proceedsWith a) tw sw
              rollingStore).2).2).1 = none
      | none =>
        ((memReconciler planSucceed).Update (releasedTarget tgt)
          ((memReconciler planSucceed).planReconcile (proceedsWith a) tw sw
            rollingStore).2).1 = none) :=
  ⟨(success_persisted_only_after_handover (refusedUpdates planSucceed) demoRequest
      rollingStore).1 rollingRollout appV2 appV1 (workloadOf appV2) (some (workloadOf appV1))
      (.other "update refused") (rollingStore_reaches_plan planSucceed) (by rfl) (by rfl),
   (success_persisted_only_after_handover (refusedUpdateOf planSucceed "app-v2") demoRequest
      rollingStore).2.1 rollingRollout appV2 appV1 (workloadOf appV2)
      (some (workloadOf appV1)) (.other "update refused")
      (rollingStore_refusedUpdateOf_reaches_plan planSucceed "app-v2") (by rfl) (by rfl)
      (by rfl),
   (success_persisted_only_after_handover (memReconciler planSucceed) demoRequest
      rollingStore).2.2.2
      (copyBack rollingRollout (planSucceed rollingRollout).2 "app-v2" "app-v1")
      (by decide) (by rfl)⟩

/-- Releasing a target twice is releasing it once. -/
theorem releasedTarget_idem (tgt : ApplicationConfiguration) :
    releasedTarget (releasedTarget tgt) = releasedTarget tgt := by
  unfold releasedTarget RemoveAnnotations
  simp only [List.filter_filter, Bool.and_self]

/-- Marking a source twice is marking it once. -/
theorem markedSource_idem (src : ApplicationConfiguration) :
    markedSource (markedSource src) = markedSource src := by
  unfold markedSource AddAnnotations RemoveAnnotations
  simp only [List.map_cons, List.map_nil, List.filter_append, List.filter_filter]
  have hx1 : (!List.contains [AnnotationAppRollout] AnnotationAppRevision) = true := by decide
  have hx2 : (!List.contains [AnnotationAppRevision] AnnotationAppRevision) = false := by
    decide
  simp only [List.filter_cons, List.filter_nil, hx1, hx2, if_true, Bool.false_and,
    Bool.and_false, Bool.false_eq_true, if_false, List.append_nil]
  congr 2
  apply List.filter_congr
  intro kv _
  cases h1 : (!List.contains [AnnotationAppRollout] kv.1) <;>
    cases h2 : (!List.contains [AnnotationAppRevision] kv.1) <;> simp [h1, h2]

/-- When the plan controller reports success, a source revision is given and the update of
the source returns nil, the updates Reconcile makes are the one of the marked source and
then the one of the released target. -/
theorem reconcile_handOver_updates {W : Type} {r : Reconciler W} {req : Request} {w : W}
    {a : AppRollout} {tgt src : ApplicationConfiguration} {tw : Workload}
    {sw : Option Workload}
    (hreach : ReachesPlan r req w a tgt (some src) tw sw)
    (hs : (r.planReconcile (proceedsWith a) tw sw w).1.2.RollingState =
      .RolloutSucceedState)
    (hsrc : (r.Update (markedSource src) (r.planReconcile (proceedsWith a) tw sw w).2).1 =
      none) :
    (Reconcile r req w).trace.filter Call.isUpdate =
      [Call.update (markedSource src), Call.update (releasedTarget tgt)] := by
  rw [reconcile_reaches_plan hreach]
  obtain ⟨e1, e2, htr, hah, _, hwrites, _⟩ := finishRollout_calls r (proceedsWith a)
    tgt (some src) tw sw w (lookupTrace req a tgt (some src))
  have hah2 : (afterHandOver r (r.planReconcile (proceedsWith a) tw sw w).1.2 tgt (some src)
      (r.planReconcile (proceedsWith a) tw sw w).2
      (lookupTrace req a tgt (some src) ++
        [Call.planReconcile (proceedsWith a) tw sw])).2 =
      lookupTrace req a tgt (some src) ++ [Call.planReconcile (proceedsWith a) tw sw] ++
        [Call.update (markedSource src), Call.update (releasedTarget tgt)] := by
    unfold afterHandOver
    rw [if_pos hs, handOver_source_ok r tgt src _ _ hsrc]
  rw [hah2] at hah
  have he1 : e1 = [Call.update (markedSource src), Call.update (releasedTarget tgt)] :=
    (List.append_cancel_left hah).symm
  have h0 : (lookupTrace req a tgt (some src)).filter Call.isUpdate = [] := by
    rw [List.filter_eq_nil_iff]
    intro c hc
    simp [(lookupTrace_reads_only req a tgt (some src) c hc).2.1]
  have h2 : e2.filter Call.isUpdate = [] := by
    rw [List.filter_eq_nil_iff]
    intro c hc
    simp [(isPersist_quiet (isPersist_of_persistOf (hwrites c hc))).2.2.2]
  rw [htr, he1]
  simp only [List.filter_append, List.filter_cons, h0, h2]
  simp [Call.isUpdate]

/-- The hand-over depends on the two revisions only through the objects it writes. -/
theorem handOver_congr {W : Type} (r : Reconciler W)
    (tgt1 tgt2 src1 src2 : ApplicationConfiguration) (w : W) (t : List Call)
    (htgt : releasedTarget tgt1 = releasedTarget tgt2)
    (hsrc : markedSource src1 = markedSource src2) :
    handOver r tgt1 (some src1) w t = handOver r tgt2 (some src2) w t := by
  cases hupd : (r.Update (markedSource src2) w).1 with
  | some err =>
    rw [handOver_source_fails r tgt2 src2 w t err hupd,
      handOver_source_fails r tgt1 src1 w t err (by rw [hsrc]; exact hupd), hsrc]
  | none =>
    rw [handOver_source_ok r tgt2 src2 w t hupd,
      handOver_source_ok r tgt1 src1 w t (by rw [hsrc]; exact hupd), hsrc, htgt]

/-- C19 (`RemoveAnnotations` and `AddAnnotations` are modelled from the specification):
the two mutations Reconcile makes on success are idempotent.  Marking the source (remove
the rollout annotation, set the app-revision annotation to "true") twice gives the object
marking it once gives, and likewise releasing the target (remove the rollout annotation).
So a hand-over that finds the source already marked, or the target already released, is
the hand-over that finds them untouched, and an invocation that reads the source already
marked, the target already released, or both, makes the updates an invocation reading them
untouched makes: the marked source, then the released target. -/
theorem handover_changes_idempotent {W : Type} (r : Reconciler W)
    (tgt src : ApplicationConfiguration) :
    markedSource (markedSource src) = markedSource src ∧
    releasedTarget (releasedTarget tgt) = releasedTarget tgt ∧
    (∀ (w : W) (t : List Call),
      handOver r tgt (some (markedSource src)) w t = handOver r tgt (some src) w t ∧
      handOver r (releasedTarget tgt) (some src) w t = handOver r tgt (some src) w t) ∧
    (∀ (req : Request) (w : W) (a : AppRollout) (tgt2 src2 : ApplicationConfiguration)
      (tw : Workload) (sw : Option Workload),
      (src2 = src ∨ src2 = markedSource src) →
      (tgt2 = tgt ∨ tgt2 = releasedTarget tgt) →
      ReachesPlan r req w a tgt2 (some src2) tw sw →
      (r.planReconcile (proceedsWith a) tw sw w).1.2.RollingState = .RolloutSucceedState →
      (r.Update (markedSource src) (r.planReconcile (proceedsWith a) tw sw w).2).1 = none →
      (Reconcile r req w).trace.filter Call.isUpdate =
        [Call.update (markedSource src), Call.update (releasedTarget tgt)]) := by
  refine ⟨markedSource_idem src, releasedTarget_idem tgt, ?_, ?_⟩
  · intro w t
    exact ⟨handOver_congr r tgt tgt (markedSource src) src w t rfl (markedSource_idem src),
      handOver_congr r (releasedTarget tgt) tgt src src w t (releasedTarget_idem tgt) rfl⟩
  · intro req w a tgt2 src2 tw sw hsrc2 htgt2 hreach hs hupd
    have hms : markedSource src2 = markedSource src := by
      rcases hsrc2 with h | h
      · rw [h]
      · rw [h, markedSource_idem]
    have hrt : releasedTarget tgt2 = releasedTarget tgt := by
      rcases htgt2 with h | h
      · rw [h]
      · rw [h, releasedTarget_idem]
    have := reconcile_handOver_updates hreach hs (by rw [hms]; exact hupd)
    rw [hms, hrt] at this
    exact this

/-- The cluster after an invocation that updated the source and was then refused the
update of the target. -/
theorem interrupted_world :
    (Reconcile (refusedUpdateOf planSucceed "app-v2") demoRequest rollingStore).world =
      { appRollouts := [rollingRollout], appConfigs := [markedSource appV1, appV2] } := by
  rfl

/-- C19, on the in-memory cluster: an invocation is refused the update of the target after
it has updated the source; the retried invocation reads the marked source, makes the same
two updates, and leaves the revisions as one invocation that completed the first time
leaves them. -/
theorem handover_changes_idempotent_witness :
    markedSource (markedSource appV1) = markedSource appV1 ∧
    (Reconcile (memReconciler planSucceed) demoRequest
      (Reconcile (refusedUpdateOf planSucceed "app-v2") demoRequest rollingStore).world
      ).trace.filter Call.isUpdate =
      [Call.update (markedSource appV1), Call.update (releasedTarget appV2)] ∧
    (Reconcile (memReconciler planSucceed) demoRequest
      (Reconcile (refusedUpdateOf planSucceed "app-v2") demoRequest rollingStore).world
      ).world.appConfigs =
      (Reconcile (memReconciler planSucceed) demoRequest rollingStore).world.appConfigs :=
  have h := handover_changes_idempotent (memReconciler planSucceed) appV2 appV1
  ⟨h.1,
   h.2.2.2 demoRequest
     (Reconcile (refusedUpdateOf planSucceed "app-v2") demoRequest rollingStore).world
     rollingRollout appV2 (markedSource appV1) (workloadOf appV2) (some (workloadOf appV1))
     (Or.inr rfl) (Or.inl rfl)
     ⟨by rfl, by decide, by rfl, by rfl, Or.inr ⟨by decide, markedSource appV1, rfl, by rfl,
       by rfl⟩, by rfl⟩
     (by rfl) (by rfl),
   by rfl⟩

/-- The count a batch declares is within the total when no declared count exceeds it. -/
theorem declaredCount_le (batches : List RolloutBatch) (i total : Nat)
    (h : ∀ b ∈ batches, resolveBatch total b ≤ total) : declaredCount batches i total ≤ total := by
  unfold declaredCount
  cases hb : batches[i]? with
  | none => exact Nat.zero_le _
  | some b => exact h b (List.getElem?_mem hb)

/-- For a valid plan the batch planner gives every batch a target: the total for the final
batch, the count the batch declares otherwise. -/
theorem computeBatchTarget_valid (batches : List RolloutBatch) (i total : Nat)
    (hvalid : ValidBatches batches total) (hi : i < batches.length) :
    computeBatchTarget batches i total =
      .ok (if i + 1 = batches.length then total else declaredCount batches i total) := by
  unfold computeBatchTarget
  have h1 : ¬ batches.length ≤ i := by omega
  have h2 : ¬ (batches.any (fun b => total < resolveBatch total b) = true) := by
    rw [List.any_eq_true]
    rintro ⟨b, hb, hlt⟩
    have := hvalid.2 b hb
    simp only [decide_eq_true_eq] at hlt
    omega
  rw [if_neg h1, if_neg h2]
  split <;> rfl

/-- A target the batch planner returns never exceeds the total. -/
theorem computeBatchTarget_le_total (batches : List RolloutBatch) (i total n : Nat)
    (h : computeBatchTarget batches i total = .ok n) : n ≤ total := by
  unfold computeBatchTarget at h
  split at h
  · cases h
  · split at h
    · cases h
    · rename_i hany
      have hall : ∀ b ∈ batches, resolveBatch total b ≤ total := by
        intro b hb
        by_contra hlt
        apply hany
        rw [List.any_eq_true]
        exact ⟨b, hb, by simp only [decide_eq_true_eq]; omega⟩
      split at h
      · cases h
        exact Nat.le_refl _
      · cases h
        exact declaredCount_le batches i total hall

/-- C15 as stated fails: the plan `[50%, 25%, 100%]` over four replicas is valid (no declared
count exceeds the total), and the planner gives its batches the targets 2, 1 and 4, so the
target of batch 0 is above the target of batch 1. -/
theorem declared_order_breaks_monotonicity :
    ValidBatches [.percent 50, .percent 25, .percent 100] 4 ∧
    computeBatchTarget [.percent 50, .percent 25, .percent 100] 0 4 = .ok 2 ∧
    computeBatchTarget [.percent 50, .percent 25, .percent 100] 1 4 = .ok 1 ∧
    computeBatchTarget [.percent 50, .percent 25, .percent 100] 2 4 = .ok 4 ∧
    ¬ (∀ i, i + 1 < [RolloutBatch.percent 50, .percent 25, .percent 100].length → ∃ a b,
      computeBatchTarget [.percent 50, .percent 25, .percent 100] i 4 = .ok a ∧
      computeBatchTarget [.percent 50, .percent 25, .percent 100] (i + 1) 4 = .ok b ∧
      a ≤ b) := by
  refine ⟨by decide, by rfl, by rfl, by rfl, ?_⟩
  intro h
  obtain ⟨a, b, ha, hb, hab⟩ := h 0 (by decide)
  have ha2 : computeBatchTarget [.percent 50, .percent 25, .percent 100] 0 4 = .ok 2 := by rfl
  have hb1 : computeBatchTarget [.percent 50, .percent 25, .percent 100] 1 4 = .ok 1 := by rfl
  rw [ha2] at ha
  rw [hb1] at hb
  cases ha
  cases hb
  omega

/-- C15, amended (the batch planner is modelled from the specification): for every valid
batch plan and every total of desired replicas, the target of the last batch is exactly the
total, every batch has a target and none exceeds the total (so no target is above the last
one), and the target of batch `i` is at most the target of batch `i + 1` exactly when batch
`i + 1` is the last one or batch `i` declares no more than batch `i + 1`.  So the targets
are non-decreasing when the declared counts before the last batch are. -/
theorem batch_targets_exact_and_ordered (batches : List RolloutBatch) (total : Nat)
    (hvalid : ValidBatches batches total) :
    computeBatchTarget batches (batches.length - 1) total = .ok total ∧
    (∀ i, i < batches.length → ∃ t, computeBatchTarget batches i total = .ok t ∧ t ≤ total) ∧
    (∀ i, i + 1 < batches.length → ∃ a b,
      computeBatchTarget batches i total = .ok a ∧
      computeBatchTarget batches (i + 1) total = .ok b ∧
      (a ≤ b ↔ (i + 2 = batches.length ∨
        declaredCount batches i total ≤ declaredCount batches (i + 1) total))) ∧
    ((∀ i, i + 2 < batches.length →
        declaredCount batches i total ≤ declaredCount batches (i + 1) total) →
      ∀ i, i + 1 < batches.length → ∃ a b,
        computeBatchTarget batches i total = .ok a ∧
        computeBatchTarget batches (i + 1) total = .ok b ∧ a ≤ b) := by
  have hpos : 0 < batches.length := List.length_pos.mpr hvalid.1
  have hstep : ∀ i, i + 1 < batches.length → ∃ a b,
      computeBatchTarget batches i total = .ok a ∧
      computeBatchTarget batches (i + 1) total = .ok b ∧
      (a ≤ b ↔ (i + 2 = batches.length ∨
        declaredCount batches i total ≤ declaredCount batches (i + 1) total)) := by
    intro i hi
    have ha := computeBatchTarget_valid batches i total hvalid (by omega)
    have hb := computeBatchTarget_valid batches (i + 1) total hvalid hi
    rw [if_neg (by omega)] at ha
    refine ⟨_, _, ha, hb, ?_⟩
    by_cases hlast : i + 1 + 1 = batches.length
    · rw [if_pos hlast]
      have := declaredCount_le batches i total hvalid.2
      constructor
      · intro _; left; omega
      · intro _; exact this
    · rw [if_neg hlast]
      constructor
      · intro h; right; exact h
      · rintro (h | h)
        · omega
        · exact h
  refine ⟨?_, ?_, hstep, ?_⟩
  · rw [computeBatchTarget_valid batches (batches.length - 1) total hvalid (by omega),
      if_pos (by omega)]
  · intro i hi
    exact ⟨_, computeBatchTarget_valid batches i total hvalid hi,
      computeBatchTarget_le_total _ _ _ _ (computeBatchTarget_valid batches i total hvalid hi)⟩
  · intro hord i hi
    obtain ⟨a, b, ha, hb, hiff⟩ := hstep i hi
    refine ⟨a, b, ha, hb, hiff.mpr ?_⟩
    by_cases hlast : i + 2 = batches.length
    · exact Or.inl hlast
    · exact Or.inr (hord i (by omega))

/-- C15 amended, on the plan of Scenarios A and B, `[25%, 50%, 100%]` over four replicas: the
targets are 1, 2 and 4, in order, and the last one is the total. -/
theorem batch_targets_exact_and_ordered_witness :
    ValidBatches [.percent 25, .percent 50, .percent 100] 4 ∧
    computeBatchTarget [.percent 25, .percent 50, .percent 100] 0 4 = .ok 1 ∧
    computeBatchTarget [.percent 25, .percent 50, .percent 100] 1 4 = .ok 2 ∧
    computeBatchTarget [.percent 25, .percent 50, .percent 100]
      ([RolloutBatch.percent 25, .percent 50, .percent 100].length - 1) 4 = .ok 4 ∧
    (∀ i, i + 1 < [RolloutBatch.percent 25, .percent 50, .percent 100].length → ∃ a b,
      computeBatchTarget [.percent 25, .percent 50, .percent 100] i 4 = .ok a ∧
      computeBatchTarget [.percent 25, .percent 50, .percent 100] (i + 1) 4 = .ok b ∧
      a ≤ b) :=
  have h := batch_targets_exact_and_ordered [.percent 25, .percent 50, .percent 100] 4
    (by decide)
  ⟨by decide, by rfl, by rfl, h.1,
   h.2.2.2 (by
     intro i hi
     have hi1 : i < 1 := by
       simp only [List.length_cons, List.length_nil] at hi
       omega
     interval_cases i
     decide)⟩

/-- In `BatchReady` the state machine takes the step of a ready batch, whatever the
snapshot. -/
theorem reduce_ready (plan : RolloutPlan) (snapshot : WorkloadSnapshot) (s : RolloutStatus)
    (hroll : s.RollingState = .RollingInBatchesState)
    (hready : s.BatchRollingState = .BatchReadyState) :
    reduce plan snapshot s = batchReadyStep plan s := by
  unfold reduce
  rw [hroll]
  simp only
  rw [hready]

/-- A terminal state is kept by the state machine. -/
theorem reduce_terminal (plan : RolloutPlan) (snapshot : WorkloadSnapshot) (s : RolloutStatus)
    (h : s.RollingState = .RolloutSucceedState ∨ s.RollingState = .RolloutFailedState) :
    (reduce plan snapshot s).1 = s := by
  unfold reduce
  rcases h with h | h <;> rw [h]

/-- A terminal state is kept over any number of invocations. -/
theorem runPlan_terminal (plan : RolloutPlan) (snapshots : List WorkloadSnapshot) :
    ∀ s : RolloutStatus,
      (s.RollingState = .RolloutSucceedState ∨ s.RollingState = .RolloutFailedState) →
      runPlan plan snapshots s = s := by
  induction snapshots with
  | nil => intro s _; rfl
  | cons snapshot rest ih =>
    intro s h
    rw [runPlan, reduce_terminal plan snapshot s h]
    exact ih s h

/-- At the partition, below the final batch, a ready batch holds: the status is returned as
it came. -/
theorem batchReadyStep_hold (plan : RolloutPlan) (s : RolloutStatus)
    (hpart : plan.BatchPartition = some s.CurrentBatch)
    (hlast : s.CurrentBatch + 1 < plan.RolloutBatches.length) :
    batchReadyStep plan s = (s, []) := by
  unfold batchReadyStep
  have hne : ¬ s.CurrentBatch + 1 = plan.RolloutBatches.length := by omega
  simp [hpart, hne]

/-- Below the partition, with the plan not paused, a ready batch makes way for the next
batch. -/
theorem batchReadyStep_advance (plan : RolloutPlan) (s : RolloutStatus) (p : Nat)
    (hpart : plan.BatchPartition = some p) (hlt : s.CurrentBatch < p)
    (hlast : s.CurrentBatch + 1 < plan.RolloutBatches.length)
    (hpaused : plan.Paused = false) :
    batchReadyStep plan s =
      ({ s with CurrentBatch := s.CurrentBatch + 1, BatchRollingState := .BatchInitial },
        []) := by
  unfold batchReadyStep
  have hne : ¬ s.CurrentBatch + 1 = plan.RolloutBatches.length := by omega
  have hnlt : ¬ p < s.CurrentBatch := by omega
  simp [hpart, hne, hnlt, hlt, hpaused]

/-- On the final batch, with the partition not below it, a ready batch ends the rollout in
success. -/
theorem batchReadyStep_final (plan : RolloutPlan) (s : RolloutStatus) (p : Nat)
    (hpart : plan.BatchPartition = some p) (hle : s.CurrentBatch ≤ p)
    (hlast : s.CurrentBatch + 1 = plan.RolloutBatches.length) :
    (batchReadyStep plan s).1 = { s with RollingState := .RolloutSucceedState } := by
  unfold batchReadyStep
  have hnlt : ¬ p < s.CurrentBatch := by omega
  simp [hpart, hnlt, hlast]

/-- A partition below the current batch fails a ready batch. -/
theorem batchReadyStep_backward (plan : RolloutPlan) (s : RolloutStatus) (p : Nat)
    (hpart : plan.BatchPartition = some p) (hlt : p < s.CurrentBatch) :
    (batchReadyStep plan s).1 = { s with RollingState := .RolloutFailedState } := by
  unfold batchReadyStep
  simp [hpart, hlt]

/-- `BatchInitial → BatchInRolling` when the planner gives the batch a target. -/
theorem reduce_batchInitial (plan : RolloutPlan) (snapshot : WorkloadSnapshot)
    (s : RolloutStatus) (hroll : s.RollingState = .RollingInBatchesState)
    (hb : s.BatchRollingState = .BatchInitial) (hcaught : CaughtUp plan snapshot)
    (hidx : s.CurrentBatch < plan.RolloutBatches.length) :
    (reduce plan snapshot s).1 = { s with BatchRollingState := .BatchInRolling } := by
  have hn := computeBatchTarget_valid plan.RolloutBatches s.CurrentBatch
    snapshot.desiredReplicas hcaught.1 hidx
  unfold reduce
  rw [hroll]
  simp only
  rw [hb]
  simp only [hn]

/-- `BatchInRolling → BatchVerifying` when the workload has caught up. -/
theorem reduce_batchInRolling (plan : RolloutPlan) (snapshot : WorkloadSnapshot)
    (s : RolloutStatus) (hroll : s.RollingState = .RollingInBatchesState)
    (hb : s.BatchRollingState = .BatchInRolling) (hcaught : CaughtUp plan snapshot)
    (hidx : s.CurrentBatch < plan.RolloutBatches.length) :
    (reduce plan snapshot s).1 = { s with BatchRollingState := .BatchVerifying } := by
  have hn := computeBatchTarget_valid plan.RolloutBatches s.CurrentBatch
    snapshot.desiredReplicas hcaught.1 hidx
  have hgate := le_trans (computeBatchTarget_le_total _ _ _ _ hn) hcaught.2.1
  unfold reduce
  rw [hroll]
  simp only
  rw [hb]
  simp only [hn, hgate, if_true]

/-- `BatchVerifying → BatchReady` when the replicas of the workload are ready. -/
theorem reduce_batchVerifying (plan : RolloutPlan) (snapshot : WorkloadSnapshot)
    (s : RolloutStatus) (hroll : s.RollingState = .RollingInBatchesState)
    (hb : s.BatchRollingState = .BatchVerifying) (hcaught : CaughtUp plan snapshot)
    (hidx : s.CurrentBatch < plan.RolloutBatches.length) :
    (reduce plan snapshot s).1 = { s with BatchRollingState := .BatchReadyState } := by
  have hn := computeBatchTarget_valid plan.RolloutBatches s.CurrentBatch
    snapshot.desiredReplicas hcaught.1 hidx
  have hgate := le_trans (computeBatchTarget_le_total _ _ _ _ hn) hcaught.2.2
  unfold reduce
  rw [hroll]
  simp only
  rw [hb]
  simp only [hn, hgate, if_true]

/-- Four invocations against a workload that has caught up take a ready batch below the
partition to the next batch, ready. -/
theorem runPlan_next_batch (plan : RolloutPlan) (s : RolloutStatus) (p : Nat)
    (a b c d : WorkloadSnapshot)
    (hroll : s.RollingState = .RollingInBatchesState)
    (hready : s.BatchRollingState = .BatchReadyState)
    (hpart : plan.BatchPartition = some p) (hlt : s.CurrentBatch < p)
    (hlast : s.CurrentBatch + 1 < plan.RolloutBatches.length)
    (hpaused : plan.Paused = false)
    (hb : CaughtUp plan b) (hc : CaughtUp plan c) (hd : CaughtUp plan d) :
    runPlan plan [a, b, c, d] s = { s with CurrentBatch := s.CurrentBatch + 1 } := by
  have h1 : (reduce plan a s).1 =
      { s with CurrentBatch := s.CurrentBatch + 1, BatchRollingState := .BatchInitial } := by
    rw [reduce_ready plan a s hroll hready,
      batchReadyStep_advance plan s p hpart hlt hlast hpaused]
  have h2 := reduce_batchInitial plan b
    { s with CurrentBatch := s.CurrentBatch + 1, BatchRollingState := .BatchInitial }
    hroll rfl hb hlast
  have h3 := reduce_batchInRolling plan c
    { s with CurrentBatch := s.CurrentBatch + 1, BatchRollingState := .BatchInRolling }
    hroll rfl hc hlast
  have h4 := reduce_batchVerifying plan d
    { s with CurrentBatch := s.CurrentBatch + 1, BatchRollingState := .BatchVerifying }
    hroll rfl hd hlast
  simp only [runPlan]
  rw [h1, h2, h3, h4]
  cases s
  simp only at hready
  simp [hready]

theorem runPlan_append (plan : RolloutPlan) (l1 l2 : List WorkloadSnapshot) :
    ∀ s, runPlan plan (l1 ++ l2) s = runPlan plan l2 (runPlan plan l1 s) := by
  induction l1 with
  | nil => intro s; rfl
  | cons x rest ih => intro s; simp only [List.cons_append, runPlan]; exact ih _

/-- With the partition at the final batch and the plan not paused, a rollout whose batch is
ready, `d` batches before the final one, succeeds after `4 * d + 1` invocations against a
workload that has caught up. -/
theorem runPlan_reaches_success (plan : RolloutPlan)
    (hpart : plan.BatchPartition = some (plan.RolloutBatches.length - 1))
    (hpaused : plan.Paused = false) :
    ∀ (d : Nat) (s : RolloutStatus) (snapshots : List WorkloadSnapshot),
      s.RollingState = .RollingInBatchesState →
      s.BatchRollingState = .BatchReadyState →
      s.CurrentBatch + d + 1 = plan.RolloutBatches.length →
      snapshots.length = 4 * d + 1 →
      (∀ snapshot ∈ snapshots, CaughtUp plan snapshot) →
      (runPlan plan snapshots s).RollingState = .RolloutSucceedState := by
  intro d
  induction d with
  | zero =>
    intro s snapshots hroll hready hidx hlen _
    rcases snapshots with _ | ⟨x, _ | ⟨y, rest⟩⟩
    · simp only [List.length_cons, List.length_nil] at hlen; omega
    · simp only [runPlan]
      rw [reduce_ready plan x s hroll hready,
        batchReadyStep_final plan s _ hpart (by omega) (by omega)]
    · simp only [List.length_cons, List.length_nil] at hlen; omega
  | succ d ih =>
    intro s snapshots hroll hready hidx hlen hcaught
    rcases snapshots with _ | ⟨a, _ | ⟨b, _ | ⟨c, _ | ⟨e, rest⟩⟩⟩⟩
    · simp only [List.length_cons, List.length_nil] at hlen; omega
    · simp only [List.length_cons, List.length_nil] at hlen; omega
    · simp only [List.length_cons, List.length_nil] at hlen; omega
    · simp only [List.length_cons, List.length_nil] at hlen; omega
    · have hsplit : a :: b :: c :: e :: rest = [a, b, c, e] ++ rest := rfl
      rw [hsplit, runPlan_append,
        runPlan_next_batch plan s _ a b c e hroll hready hpart (by omega) (by omega) hpaused
          (hcaught b (by simp)) (hcaught c (by simp)) (hcaught e (by simp))]
      apply ih
      · exact hroll
      · exact hready
      · show s.CurrentBatch + 1 + d + 1 = plan.RolloutBatches.length
        omega
      · simp only [List.length_cons, List.length_nil] at hlen; omega
      · intro snapshot hmem
        exact hcaught snapshot (by simp [hmem])

/-- While the plan is paused, a rollout below the partition and the final batch whose batch
is ready, pausing or paused stays in its batch and in one of these three sub-states. -/
theorem reduce_paused_holds (plan : RolloutPlan) (snapshot : WorkloadSnapshot)
    (s : RolloutStatus) (p : Nat) (hpaused : plan.Paused = true)
    (hpart : plan.BatchPartition = some p) (hlt : s.CurrentBatch < p)
    (hlast : s.CurrentBatch + 1 < plan.RolloutBatches.length)
    (hroll : s.RollingState = .RollingInBatchesState)
    (hb : s.BatchRollingState = .BatchReadyState ∨ s.BatchRollingState = .BatchPausing ∨
      s.BatchRollingState = .BatchPaused) :
    (reduce plan snapshot s).1.RollingState = .RollingInBatchesState ∧
    (reduce plan snapshot s).1.CurrentBatch = s.CurrentBatch ∧
    ((reduce plan snapshot s).1.BatchRollingState = .BatchReadyState ∨
      (reduce plan snapshot s).1.BatchRollingState = .BatchPausing ∨
      (reduce plan snapshot s).1.BatchRollingState = .BatchPaused) := by
  have hnb : ¬ p < s.CurrentBatch := by omega
  have hne : ¬ s.CurrentBatch + 1 = plan.RolloutBatches.length := by omega
  rcases hb with hb | hb | hb
  · rw [reduce_ready plan snapshot s hroll hb]
    unfold batchReadyStep
    simp [hpart, hnb, hne, hlt, hpaused, hroll]
  · unfold reduce
    rw [hroll]
    simp only
    rw [hb]
    simp [hroll]
  · unfold reduce
    rw [hroll]
    simp only
    rw [hb]
    simp [hpart, hnb, hpaused, hroll, hb]

/-- While the plan is paused, no number of invocations takes a rollout below the partition
out of its batch. -/
theorem runPlan_paused_holds (plan : RolloutPlan) (p : Nat) (hpaused : plan.Paused = true)
    (hpart : plan.BatchPartition = some p) (snapshots : List WorkloadSnapshot) :
    ∀ s : RolloutStatus, s.CurrentBatch < p →
      s.CurrentBatch + 1 < plan.RolloutBatches.length →
      s.RollingState = .RollingInBatchesState →
      (s.BatchRollingState = .BatchReadyState ∨ s.BatchRollingState = .BatchPausing ∨
        s.BatchRollingState = .BatchPaused) →
      (runPlan plan snapshots s).RollingState = .RollingInBatchesState ∧
      (runPlan plan snapshots s).CurrentBatch = s.CurrentBatch := by
  induction snapshots with
  | nil => intro s _ _ hroll _; exact ⟨hroll, rfl⟩
  | cons x rest ih =>
    intro s hlt hlast hroll hb
    obtain ⟨h1, h2, h3⟩ := reduce_paused_holds plan x s p hpaused hpart hlt hlast hroll hb
    have := ih (reduce plan x s).1 (by rw [h2]; exact hlt) (by rw [h2]; exact hlast) h1 h3
    rw [runPlan]
    exact ⟨this.1, by rw [this.2, h2]⟩

/-- C13 as stated fails: raising the partition to the last index does not let every rollout
reach `RolloutSucceeded`.  The plan of Scenario A, paused, holds its first batch ready at
partition 0; with the partition raised to 2 there is no number of invocations, even against
a workload of four ready replicas, after which the rolling state is `RolloutSucceeded`. -/
theorem raised_partition_of_paused_plan_never_succeeds :
    (∀ held : List WorkloadSnapshot,
      runPlan { threeBatchPlan with Paused := true } held heldRollout.Status.toRolloutStatus =
        heldRollout.Status.toRolloutStatus) ∧
    ¬ ∃ n : Nat,
      (runPlan { threeBatchPlan with BatchPartition := some 2, Paused := true }
        (List.replicate n readySnapshot)
        heldRollout.Status.toRolloutStatus).RollingState = .RolloutSucceedState := by
  constructor
  · intro held
    induction held with
    | nil => rfl
    | cons x rest ih =>
      rw [runPlan, reduce_ready _ x _ (by rfl) (by rfl), batchReadyStep_hold _ _ (by rfl)
        (by decide)]
      exact ih
  · rintro ⟨n, hn⟩
    have h := (runPlan_paused_holds
      { threeBatchPlan with BatchPartition := some 2, Paused := true } 2 rfl rfl
      (List.replicate n readySnapshot) heldRollout.Status.toRolloutStatus (by decide)
      (by decide) (by rfl) (Or.inl (by rfl))).1
    rw [h] at hn
    cases hn

/-- C13, amended (the rollout state machine is modelled from the specification): the rollout
stops at the partition of the user.  For every plan with `batchPartition = k` below the last
batch index, once `currentBatch = k` and the batch is `BatchReady`, every further invocation
with the plan unchanged returns the status as it came, so the rollout stays in
`RollingInBatches`, `BatchReady`, `currentBatch = k`, whatever the workload shows.  With
`batchPartition` raised to the last index: when the plan is not paused, the rollout reaches
`RolloutSucceeded` after four invocations for each remaining batch and one more against a
workload that has caught up (no declared count above the desired total, updated and ready
replicas at the desired total); when the plan is paused, it stays in `RollingInBatches` at
`currentBatch = k` whatever the workload shows. -/
theorem rollout_stops_at_partition (plan : RolloutPlan) (s : RolloutStatus) (k : Nat)
    (hroll : s.RollingState = .RollingInBatchesState)
    (hready : s.BatchRollingState = .BatchReadyState)
    (hk : s.CurrentBatch = k) (hpart : plan.BatchPartition = some k)
    (hlast : k + 1 < plan.RolloutBatches.length) :
    (∀ held : List WorkloadSnapshot,
      runPlan plan held s = s ∧
      (runPlan plan held s).RollingState = .RollingInBatchesState ∧
      (runPlan plan held s).BatchRollingState = .BatchReadyState ∧
      (runPlan plan held s).CurrentBatch = k) ∧
    (∀ held snapshots : List WorkloadSnapshot, plan.Paused = false →
      snapshots.length = 4 * (plan.RolloutBatches.length - 1 - k) + 1 →
      (∀ snapshot ∈ snapshots, CaughtUp plan snapshot) →
      (runPlan { plan with BatchPartition := some (plan.RolloutBatches.length - 1) }
        snapshots (runPlan plan held s)).RollingState = .RolloutSucceedState) ∧
    (∀ held snapshots : List WorkloadSnapshot, plan.Paused = true →
      (runPlan { plan with BatchPartition := some (plan.RolloutBatches.length - 1) }
        snapshots (runPlan plan held s)).RollingState = .RollingInBatchesState ∧
      (runPlan { plan with BatchPartition := some (plan.RolloutBatches.length - 1) }
        snapshots (runPlan plan held s)).CurrentBatch = k) := by
  have hhold : ∀ held : List WorkloadSnapshot, runPlan plan held s = s := by
    intro held
    induction held with
    | nil => rfl
    | cons x rest ih =>
      rw [runPlan, reduce_ready plan x s hroll hready,
        batchReadyStep_hold plan s (by rw [hk]; exact hpart) (by omega)]
      exact ih
  refine ⟨fun held => ⟨hhold held, ?_, ?_, ?_⟩, ?_, ?_⟩
  · rw [hhold held]; exact hroll
  · rw [hhold held]; exact hready
  · rw [hhold held]; exact hk
  · intro held snapshots hpaused hlen hcaught
    rw [hhold held]
    exact runPlan_reaches_success
      { plan with BatchPartition := some (plan.RolloutBatches.length - 1) } rfl hpaused
      (plan.RolloutBatches.length - 1 - k) s snapshots hroll hready
      (by show s.CurrentBatch + (plan.RolloutBatches.length - 1 - k) + 1 =
            plan.RolloutBatches.length
          omega)
      hlen hcaught
  · intro held snapshots hpaused
    rw [hhold held]
    have h := runPlan_paused_holds
      { plan with BatchPartition := some (plan.RolloutBatches.length - 1) }
      (plan.RolloutBatches.length - 1) hpaused rfl snapshots s (by omega)
      (by show s.CurrentBatch + 1 < plan.RolloutBatches.length; omega) hroll (Or.inl hready)
    exact ⟨h.1, by rw [h.2, hk]⟩

/-- The workload of four ready replicas has caught up with the plan of Scenario A. -/
theorem readySnapshot_caughtUp : CaughtUp threeBatchPlan readySnapshot :=
  ⟨by decide, by decide, by decide⟩

/-- C13 amended, on Scenarios A and B: the plan `[25%, 50%, 100%]` over four replicas with
partition 0.  From `Initial` the state machine claims the workload, asks for the target 1
and comes to hold with the first batch ready; there it holds; with the partition raised to 2
it succeeds after nine invocations against four ready replicas, asking for the targets 2 and
4, then for the source to be marked inactive and the ownership released.  Through
Reconcile on the in-memory cluster: three invocations leave the persisted rollout in its
batch, and nine invocations after the raise persist `RolloutSucceeded`. -/
theorem rollout_stops_at_partition_witness :
    (∀ held : List WorkloadSnapshot,
      runPlan threeBatchPlan held heldRollout.Status.toRolloutStatus =
        heldRollout.Status.toRolloutStatus ∧
      (runPlan threeBatchPlan held heldRollout.Status.toRolloutStatus).RollingState =
        .RollingInBatchesState ∧
      (runPlan threeBatchPlan held heldRollout.Status.toRolloutStatus).BatchRollingState =
        .BatchReadyState ∧
      (runPlan threeBatchPlan held heldRollout.Status.toRolloutStatus).CurrentBatch = 0) ∧
    (runPlan { threeBatchPlan with BatchPartition := some 2 } (List.replicate 9 readySnapshot)
      (runPlan threeBatchPlan [readySnapshot, readySnapshot]
        heldRollout.Status.toRolloutStatus)).RollingState = .RolloutSucceedState ∧
    runPlan threeBatchPlan
        ({ readySnapshot with ownedByRollout := false } :: List.replicate 5 readySnapshot) {} =
      heldRollout.Status.toRolloutStatus ∧
    planActions threeBatchPlan
        ({ readySnapshot with ownedByRollout := false } :: List.replicate 5 readySnapshot) {} =
      [.claimOwnership, .setTargetReplicaCount 1] ∧
    planActions { threeBatchPlan with BatchPartition := some 2 }
        (List.replicate 9 readySnapshot) heldRollout.Status.toRolloutStatus =
      [.setTargetReplicaCount 2, .setTargetReplicaCount 4, .markSourceInactive,
        .releaseOwnership] ∧
    (Store.getAppRollout demoRequest.NamespacedName
      (reconcileN (memReconciler (enginePlan readySnapshot)) demoRequest 3 heldStore)
      ).toOption.map (fun a =>
        (a.Status.RollingState, a.Status.BatchRollingState, a.Status.CurrentBatch)) =
      some (.RollingInBatchesState, .BatchReadyState, 0) ∧
    (Store.getAppRollout demoRequest.NamespacedName
      (reconcileN (memReconciler (enginePlan readySnapshot)) demoRequest 9 raisedStore)
      ).toOption.map (fun a => a.Status.RollingState) = some .RolloutSucceedState :=
  have h := rollout_stops_at_partition threeBatchPlan heldRollout.Status.toRolloutStatus 0
    (by rfl) (by rfl) (by rfl) (by rfl) (by decide)
  ⟨h.1,
   h.2.1 [readySnapshot, readySnapshot] (List.replicate 9 readySnapshot) (by rfl) (by rfl)
     (by
       intro snapshot hmem
       rw [List.eq_of_mem_replicate hmem]
       exact readySnapshot_caughtUp),
   by rfl, by rfl, by rfl, by rfl, by rfl⟩

/-- C14 (the rollout state machine is modelled from the specification): a backward move
fails fast.  For every rollout in `RollingInBatches` whose current batch `k` is
`BatchReady`, with `batchPartition` lowered to some `p < k` (so `k ≥ 1`), the next invocation
ends with `rollingState = RolloutFailed`, and so does every invocation after it, whatever
the workload shows; nothing else of the status changes. -/
theorem backward_move_fails_fast (plan : RolloutPlan) (s : RolloutStatus) (k p : Nat)
    (hroll : s.RollingState = .RollingInBatchesState)
    (hready : s.BatchRollingState = .BatchReadyState)
    (hk : s.CurrentBatch = k) (hpart : plan.BatchPartition = some p) (hlt : p < k) :
    ∀ snapshots : List WorkloadSnapshot, snapshots ≠ [] →
      (runPlan plan snapshots s).RollingState = .RolloutFailedState ∧
      runPlan plan snapshots s = { s with RollingState := .RolloutFailedState } := by
  intro snapshots hne
  rcases snapshots with _ | ⟨x, rest⟩
  · exact absurd rfl hne
  · have hstep : (reduce plan x s).1 = { s with RollingState := .RolloutFailedState } := by
      rw [reduce_ready plan x s hroll hready,
        batchReadyStep_backward plan s p hpart (by omega)]
    have hrun : runPlan plan (x :: rest) s = { s with RollingState := .RolloutFailedState } := by
      rw [runPlan, hstep]
      exact runPlan_terminal plan rest _ (Or.inr rfl)
    rw [hrun]
    exact ⟨rfl, rfl⟩

/-- C14, on the rollout whose second batch is ready and whose partition was lowered from 1
to 0: the state machine fails at once and stays failed; through Reconcile on the in-memory
cluster the next invocation persists `RolloutFailed`, and so it is after a second one. -/
theorem backward_move_fails_fast_witness :
    ((runPlan loweredRollout.Spec.RolloutPlan [readySnapshot]
        loweredRollout.Status.toRolloutStatus).RollingState = .RolloutFailedState ∧
      runPlan loweredRollout.Spec.RolloutPlan [readySnapshot]
        loweredRollout.Status.toRolloutStatus =
        { loweredRollout.Status.toRolloutStatus with RollingState := .RolloutFailedState }) ∧
    (Store.getAppRollout demoRequest.NamespacedName
      (reconcileN (memReconciler (enginePlan readySnapshot)) demoRequest 1 loweredStore)
      ).toOption.map (fun a => a.Status.RollingState) = some .RolloutFailedState ∧
    (Store.getAppRollout demoRequest.NamespacedName
      (reconcileN (memReconciler (enginePlan readySnapshot)) demoRequest 2 loweredStore)
      ).toOption.map (fun a => a.Status.RollingState) = some .RolloutFailedState :=
  ⟨backward_move_fails_fast loweredRollout.Spec.RolloutPlan
      loweredRollout.Status.toRolloutStatus 1 0 (by rfl) (by rfl) (by rfl)
      (by rfl) (by decide) [readySnapshot] (by simp),
   by rfl, by rfl⟩

/-- C23: if the AppRollout object itself cannot be read, Reconcile does nothing else.  The
result is empty; a not-found error is returned as nil, any other error is returned as it
is; the read of the AppRollout is the only call (no other object is read, no event is
recorded, nothing is written) and the world is unchanged. -/
theorem unreadable_rollout_ends_invocation {W : Type} (r : Reconciler W) (req : Request)
    (w : W) (err : ApiError) (hget : r.GetAppRollout req.NamespacedName w = .error err) :
    (Reconcile r req w).res = {} ∧
    (Reconcile r req w).res.Requeue = false ∧ (Reconcile r req w).res.RequeueAfter = 0 ∧
    (IsNotFound err = true → (Reconcile r req w).retErr = none) ∧
    (IsNotFound err = false → (Reconcile r req w).retErr = some err) ∧
    (Reconcile r req w).trace = [Call.getAppRollout req.NamespacedName] ∧
    (Reconcile r req w).world = w := by
  rw [reconcile_read_fails r req w err hget]
  refine ⟨rfl, rfl, rfl, ?_, ?_, rfl, rfl⟩
  · intro h
    simp only [IgnoreNotFound, h, if_true]
  · intro h
    simp only [IgnoreNotFound, h]
    rfl

/-- C23, on the in-memory cluster: a request for an AppRollout the cluster does not hold,
and a server that cannot be reached for the AppRollout. -/
theorem unreadable_rollout_ends_invocation_witness :
    ((Reconcile (memReconciler planSucceed) demoRequest orphanStore).res = {} ∧
      (Reconcile (memReconciler planSucceed) demoRequest orphanStore).retErr = none ∧
      (Reconcile (memReconciler planSucceed) demoRequest orphanStore).trace =
        [Call.getAppRollout demoRequest.NamespacedName] ∧
      (Reconcile (memReconciler planSucceed) demoRequest orphanStore).world = orphanStore) ∧
    ((Reconcile (unreadableRollouts planSucceed (.other "connection refused")) demoRequest
        rollingStore).res = {} ∧
      (Reconcile (unreadableRollouts planSucceed (.other "connection refused")) demoRequest
        rollingStore).retErr = some (.other "connection refused") ∧
      (Reconcile (unreadableRollouts planSucceed (.other "connection refused")) demoRequest
        rollingStore).trace = [Call.getAppRollout demoRequest.NamespacedName] ∧
      (Reconcile (unreadableRollouts planSucceed (.other "connection refused")) demoRequest
        rollingStore).world = rollingStore) :=
  have h1 := unreadable_rollout_ends_invocation (memReconciler planSucceed) demoRequest
    orphanStore (.notFound "rolling-test") (by rfl)
  have h2 := unreadable_rollout_ends_invocation
    (unreadableRollouts planSucceed (.other "connection refused")) demoRequest rollingStore
    (.other "connection refused") (by rfl)
  ⟨⟨h1.1, h1.2.2.2.1 (by rfl), h1.2.2.2.2.2.1, h1.2.2.2.2.2.2⟩,
   ⟨h2.1, h2.2.2.2.2.1 (by rfl), h2.2.2.2.2.2.1, h2.2.2.2.2.2.2⟩⟩

/-- C24: `handleFinalizer` changes nothing.  For every AppRollout, with or without a
deletion timestamp, with or without `finalizers.approllout.oam.dev` among its finalizers,
the object after the call is the object before it: the finalizer list is the same (the
finalizer is neither added nor removed) and so is every other field; the branches differ
in the line they log only.  So the object Reconcile hands to the plan controller carries
the finalizers, the deletion timestamp and the spec that were read. -/
theorem handleFinalizer_changes_nothing (a : AppRollout) :
    handleFinalizer a = a ∧
    (handleFinalizer a).Finalizers = a.Finalizers ∧
    ((handleFinalizer a).Finalizers.contains appRolloutFinalizer =
      a.Finalizers.contains appRolloutFinalizer) ∧
    (handleFinalizer a).DeletionTimestamp = a.DeletionTimestamp ∧
    (a.DeletionTimestamp = none → a.Finalizers.contains appRolloutFinalizer = false →
      handleFinalizerLog a = ["add finalizer"] ∧ handleFinalizer a = a) ∧
    (a.DeletionTimestamp ≠ none → a.Finalizers.contains appRolloutFinalizer = true →
      handleFinalizerLog a = ["perform clean up"] ∧ handleFinalizer a = a) ∧
    (∀ {W : Type} (r : Reconciler W) (req : Request) (w : W),
      r.GetAppRollout req.NamespacedName w = .ok a →
      ∀ ar tw sw, Call.planReconcile ar tw sw ∈ (Reconcile r req w).trace →
        ar.Finalizers = a.Finalizers ∧ ar.DeletionTimestamp = a.DeletionTimestamp ∧
        ar.Spec = a.Spec ∧ ar.Namespace = a.Namespace ∧ ar.Name = a.Name ∧
        ar.ResourceVersion = a.ResourceVersion) := by
  have heq := handleFinalizer_eq a
  refine ⟨heq, by rw [heq], by rw [heq], by rw [heq], ?_, ?_, ?_⟩
  · intro hts hfin
    refine ⟨?_, heq⟩
    unfold handleFinalizerLog
    rw [hts, hfin]
    rfl
  · intro hts hfin
    refine ⟨?_, heq⟩
    have hsome : a.DeletionTimestamp.isNone = false := by
      cases h : a.DeletionTimestamp with
      | none => exact absurd h hts
      | some _ => rfl
    unfold handleFinalizerLog
    rw [hsome, hfin]
    rfl
  · intro W r req w hget ar tw sw hmem
    have h := reconcile_plan_calls r req w a hget ar tw sw hmem
    subst h
    unfold proceedsWith restart
    split <;> exact ⟨rfl, rfl, rfl, rfl, rfl, rfl⟩

/-- C24, on four objects: a live rollout without and with the finalizer, and a rollout
under deletion with and without it; and on the in-memory cluster holding the rollout under
deletion with the finalizer, where the plan controller is handed the finalizers read. -/
theorem handleFinalizer_changes_nothing_witness :
    handleFinalizer rollingRollout = rollingRollout ∧
    handleFinalizerLog rollingRollout = ["add finalizer"] ∧
    handleFinalizer { rollingRollout with Finalizers := [appRolloutFinalizer] } =
      { rollingRollout with Finalizers := [appRolloutFinalizer] } ∧
    handleFinalizer (deletedRollout [appRolloutFinalizer, "other"]) =
      deletedRollout [appRolloutFinalizer, "other"] ∧
    handleFinalizerLog (deletedRollout [appRolloutFinalizer, "other"]) =
      ["perform clean up"] ∧
    handleFinalizer (deletedRollout []) = deletedRollout [] ∧
    (∀ ar tw sw, Call.planReconcile ar tw sw ∈
        (Reconcile (memReconciler planKeep) demoRequest
          { appRollouts := [deletedRollout [appRolloutFinalizer, "other"]],
            appConfigs := [appV1, appV2] }).trace →
      ar.Finalizers = [appRolloutFinalizer, "other"]) :=
  ⟨(handleFinalizer_changes_nothing rollingRollout).1,
   ((handleFinalizer_changes_nothing rollingRollout).2.2.2.2.1 (by rfl) (by decide)).1,
   (handleFinalizer_changes_nothing { rollingRollout with
      Finalizers := [appRolloutFinalizer] }).1,
   (handleFinalizer_changes_nothing (deletedRollout [appRolloutFinalizer, "other"])).1,
   ((handleFinalizer_changes_nothing
      (deletedRollout [appRolloutFinalizer, "other"])).2.2.2.2.2.1 (by decide)
      (by decide)).1,
   (handleFinalizer_changes_nothing (deletedRollout [])).1,
   fun ar tw sw hmem =>
     ((handleFinalizer_changes_nothing
        (deletedRollout [appRolloutFinalizer, "other"])).2.2.2.2.2.2
        (memReconciler planKeep) demoRequest
        { appRollouts := [deletedRollout [appRolloutFinalizer, "other"]],
          appConfigs := [appV1, appV2] } (by rfl) ar tw sw hmem).1⟩

/-- The calls of an invocation that reaches the plan controller: the lookups, the plan
controller on the in-memory object, the updates of the hand-over, then re-reads and status
updates that each write the copied-back status. -/
theorem reconcile_plan_trace {W : Type} {r : Reconciler W} {req : Request} {w : W}
    {a : AppRollout} {targetApp : ApplicationConfiguration}
    {sourceApp : Option ApplicationConfiguration} {tw : Workload} {sw : Option Workload}
    (hreach : ReachesPlan r req w a targetApp sourceApp tw sw) :
    ∃ e1 e2, (Reconcile r req w).trace =
        lookupTrace req a targetApp sourceApp ++
          Call.planReconcile (proceedsWith a) tw sw :: (e1 ++ e2) ∧
      (∀ c ∈ e1, c.isUpdate = true) ∧
      (∀ c ∈ e2, persistOf
        { toRolloutStatus := (r.planReconcile (proceedsWith a) tw sw w).1.2,
          LastUpgradedTargetAppRevision := a.Spec.TargetAppRevisionName,
          LastSourceAppRevision := a.Spec.SourceAppRevisionName } c = true) := by
  obtain ⟨e1, e2, htr, _, hupd, hwrites, _⟩ := finishRollout_calls r (proceedsWith a)
    targetApp sourceApp tw sw w (lookupTrace req a targetApp sourceApp)
  refine ⟨e1, e2, ?_, hupd, ?_⟩
  · rw [reconcile_reaches_plan hreach, htr]
  · intro c hc
    have h := hwrites c hc
    rw [proceedsWith_Spec] at h
    exact h

/-- An invocation that reaches the plan controller invokes it once, and every status
update it makes writes the status the plan controller returned with the pair of the spec
recorded. -/
theorem reconcile_plan_once {W : Type} {r : Reconciler W} {req : Request} {w : W}
    {a : AppRollout} {targetApp : ApplicationConfiguration}
    {sourceApp : Option ApplicationConfiguration} {tw : Workload} {sw : Option Workload}
    (hreach : ReachesPlan r req w a targetApp sourceApp tw sw) :
    (Reconcile r req w).trace.filter Call.isPlanReconcile =
      [Call.planReconcile (proceedsWith a) tw sw] ∧
    ∀ obj, Call.statusUpdate obj ∈ (Reconcile r req w).trace →
      obj.Status =
        { toRolloutStatus := (r.planReconcile (proceedsWith a) tw sw w).1.2,
          LastUpgradedTargetAppRevision := a.Spec.TargetAppRevisionName,
          LastSourceAppRevision := a.Spec.SourceAppRevisionName } := by
  obtain ⟨e1, e2, htr, hupd, hwrites⟩ := reconcile_plan_trace hreach
  rw [htr]
  constructor
  · have h0 : (lookupTrace req a targetApp sourceApp).filter Call.isPlanReconcile = [] := by
      rw [List.filter_eq_nil_iff]
      intro c hc
      simp [(lookupTrace_reads_only req a targetApp sourceApp c hc).1]
    have h1 : e1.filter Call.isPlanReconcile = [] := by
      rw [List.filter_eq_nil_iff]
      intro c hc
      simp [isPlanReconcile_false_of_isUpdate (hupd c hc)]
    have h2 : e2.filter Call.isPlanReconcile = [] := by
      rw [List.filter_eq_nil_iff]
      intro c hc
      simp [isPlanReconcile_false_of_isPersist (isPersist_of_persistOf (hwrites c hc))]
    rw [List.filter_append, h0, List.nil_append, List.filter_cons]
    simp only [Call.isPlanReconcile, if_true]
    rw [List.filter_append, h1, h2]
    rfl
  · intro obj hmem
    rcases List.mem_append.mp hmem with h | h
    · have := (lookupTrace_reads_only req a targetApp sourceApp _ h).2.2
      simp [Call.isStatusUpdate] at this
    · rcases List.mem_cons.mp h with h1 | h1
      · cases h1
      · rcases List.mem_append.mp h1 with h2 | h2
        · have := isStatusUpdate_false_of_isUpdate (hupd _ h2)
          simp [Call.isStatusUpdate] at this
        · have := hwrites _ h2
          simpa [persistOf] using this

/-- The lookups of the re-pointed rollout in progress succeed on the in-memory cluster. -/
theorem retargetedStore_reaches_plan (plan : AppRollout → Result × RolloutStatus) :
    ReachesPlan (memReconciler plan) demoRequest retargetedStore retargetedRollout appV3
      (some appV2) (workloadOf appV3) (some (workloadOf appV2)) where
  read := by rfl
  proceeds := by decide
  target := by rfl
  targetTemplated := by rfl
  source := Or.inr ⟨by decide, appV2, rfl, by rfl, by rfl⟩
  workloads := by rfl

/-- C21: a change of target or source is detected only in a terminal state.  For every
AppRollout read whose `rollingState` is neither `RolloutSucceeded` nor `RolloutFailed`,
whatever the recorded pair, Reconcile goes on to the revision lookups with the object as
read (the restart event of line 92 is not applied): every invocation of the plan controller
is on that object, status as read; and when the plan controller is reached it is invoked
once and every status update records the names of the spec as the pair, next to the status
the plan controller returned. -/
theorem change_detected_only_when_terminated {W : Type} (r : Reconciler W) (req : Request)
    (w : W) (a : AppRollout) (hget : r.GetAppRollout req.NamespacedName w = .ok a)
    (hnt : ¬ Terminated a) :
    Reconcile r req w =
      reconcileRevisions r req a w [Call.getAppRollout req.NamespacedName] ∧
    (∀ ar tw sw, Call.planReconcile ar tw sw ∈ (Reconcile r req w).trace →
      ar = a ∧ ar.Status = a.Status) ∧
    (∀ tgt src tw sw, ReachesPlan r req w a tgt src tw sw →
      (Reconcile r req w).trace.filter Call.isPlanReconcile =
        [Call.planReconcile a tw sw] ∧
      ∀ obj, Call.statusUpdate obj ∈ (Reconcile r req w).trace →
        obj.Status.toRolloutStatus = (r.planReconcile a tw sw w).1.2 ∧
        obj.Status.LastUpgradedTargetAppRevision = a.Spec.TargetAppRevisionName ∧
        obj.Status.LastSourceAppRevision = a.Spec.SourceAppRevisionName) := by
  have hgo : ¬ (Terminated a ∧ SamePair a) := fun h => hnt h.1
  have hp : proceedsWith a = a := proceedsWith_of_not_terminated a hnt
  refine ⟨?_, ?_, ?_⟩
  · have h := reconcile_proceeds r req w a hget hgo
    rw [hp] at h
    exact h
  · intro ar tw sw hmem
    have h := reconcile_plan_calls r req w a hget ar tw sw hmem
    rw [hp] at h
    exact ⟨h, by rw [h]⟩
  · intro tgt src tw sw hreach
    have h := reconcile_plan_once hreach
    rw [hp] at h
    refine ⟨h.1, ?_⟩
    intro obj hmem
    rw [h.2 obj hmem]
    exact ⟨rfl, rfl, rfl⟩

/-- C21, on the in-memory cluster: the rollout in progress is pointed from the pair
`app-v1`, `app-v2` to the pair `app-v2`, `app-v3`.  The plan controller is invoked once, on
the object as read (still `RollingInBatches`, batch 1), and the status persisted afterwards
records the new pair with the rollout still in its batch. -/
theorem change_detected_only_when_terminated_witness :
    ¬ SamePair retargetedRollout ∧
    (Reconcile (memReconciler planKeep) demoRequest retargetedStore).trace.filter
        Call.isPlanReconcile =
      [Call.planReconcile retargetedRollout (workloadOf appV3) (some (workloadOf appV2))] ∧
    (∀ obj, Call.statusUpdate obj ∈
        (Reconcile (memReconciler planKeep) demoRequest retargetedStore).trace →
      obj.Status.toRolloutStatus = retargetedRollout.Status.toRolloutStatus ∧
      obj.Status.LastUpgradedTargetAppRevision = "app-v3" ∧
      obj.Status.LastSourceAppRevision = "app-v2") ∧
    (Store.getAppRollout demoRequest.NamespacedName
      (Reconcile (memReconciler planKeep) demoRequest retargetedStore).world).toOption.map
        (fun a => (a.Status.RollingState, a.Status.CurrentBatch,
          a.Status.LastUpgradedTargetAppRevision, a.Status.LastSourceAppRevision)) =
      some (.RollingInBatchesState, 1, "app-v3", "app-v2") :=
  have h := (change_detected_only_when_terminated (memReconciler planKeep) demoRequest
    retargetedStore retargetedRollout (by rfl) (by decide)).2.2 appV3 (some appV2)
    (workloadOf appV3) (some (workloadOf appV2)) (retargetedStore_reaches_plan planKeep)
  ⟨by decide, h.1, h.2, by rfl⟩

/-- When the retry loop returns nil, its last run returned nil and left the final state. -/
theorem RetryOnConflict_nil {σ : Type} (fn : σ → Option ApiError × σ) :
    ∀ (n : Nat) (e : Option ApiError) (s : σ), (RetryOnConflict fn n e s).1 = none →
      (n = 0 ∧ e = none) ∨ ∃ s0, fn s0 = (none, (RetryOnConflict fn n e s).2) := by
  intro n
  induction n with
  | zero =>
    intro e s h
    exact Or.inl ⟨rfl, h⟩
  | succ n ih =>
    intro e s h
    right
    rw [RetryOnConflict_succ] at h ⊢
    rcases hfn : fn s with ⟨o, s1⟩
    rw [hfn] at h
    cases o with
    | none => exact ⟨s, hfn⟩
    | some err =>
      simp only at h ⊢
      by_cases hc : IsConflict err = true
      · rw [if_pos hc] at h ⊢
        rcases ih (some err) s1 h with ⟨_, h0⟩ | h0
        · cases h0
        · exact h0
      · rw [if_neg hc] at h
        cases h

/-- An attempt of `updateStatus` that returns nil ended with a status update, accepted by
the server, of the re-read object with the saved status on it. -/
theorem updateStatusAttempt_ok {W : Type} (r : Reconciler W) (status : AppRolloutStatus)
    (p q : Persist W) (h : updateStatusAttempt r status p = (none, q)) :
    ∃ obj pre, q.trace = pre ++ [Call.statusUpdate obj] ∧ obj.Status = status ∧
      r.StatusUpdate obj p.world = (none, q.world) := by
  unfold updateStatusAttempt at h
  simp only at h
  cases hget : r.GetAppRollout ⟨p.appRollout.Namespace, p.appRollout.Name⟩ p.world with
  | error err =>
    rw [hget] at h
    simp only at h
    cases h
  | ok fresh =>
    rw [hget] at h
    simp only at h
    have h1 := congrArg Prod.fst h
    have h2 := congrArg Prod.snd h
    simp only at h1 h2
    refine ⟨{ fresh with Status := status },
      p.trace ++ [Call.getAppRollout ⟨p.appRollout.Namespace, p.appRollout.Name⟩], ?_, rfl, ?_⟩
    · rw [← h2]
    · rw [← h2]
      exact Prod.ext h1 rfl

/-- When `updateStatus` returns nil, its last call is a status update accepted by the
server, and that update writes the status the object had on entry. -/
theorem updateStatus_ok {W : Type} (r : Reconciler W) (a : AppRollout) (w : W)
    (t : List Call) (h : (updateStatus r a w t).1 = none) :
    ∃ obj pre w0, (updateStatus r a w t).2.trace = pre ++ [Call.statusUpdate obj] ∧
      obj.Status = a.Status ∧
      r.StatusUpdate obj w0 = (none, (updateStatus r a w t).2.world) := by
  rcases RetryOnConflict_nil (updateStatusAttempt r a.Status) DefaultBackoff.Steps none
    { appRollout := a, world := w, trace := t } h with ⟨h0, _⟩ | ⟨s0, hs0⟩
  · cases h0
  · obtain ⟨obj, pre, htr, hst, hacc⟩ :=
      updateStatusAttempt_ok r a.Status s0 (updateStatus r a w t).2 hs0
    exact ⟨obj, pre, s0.world, htr, hst, hacc⟩

/-- C22: terminal states are absorbing under an unchanged revision pair.  If an invocation
runs the rollout plan controller, obtains `RolloutSucceeded` or `RolloutFailed` and returns a
nil error, then its last call is a status update, accepted by the server, that writes the
terminal status with the names of the spec as the recorded pair; and every invocation, by
any reconciler in any world, that reads an object with that status and the same
`spec.targetAppRevisionName` and `spec.sourceAppRevisionName` (whatever the rest of its
spec: batches, `batchPartition`, `paused`) is a no-op: empty result, nil error, the read of
the AppRollout the only call, the world unchanged. -/
theorem terminal_state_absorbing {W : Type} (r : Reconciler W) (req : Request) (w : W)
    (a : AppRollout) (targetApp : ApplicationConfiguration)
    (sourceApp : Option ApplicationConfiguration) (tw : Workload) (sw : Option Workload)
    (hreach : ReachesPlan r req w a targetApp sourceApp tw sw)
    (hterm : (r.planReconcile (proceedsWith a) tw sw w).1.2.RollingState =
        .RolloutSucceedState ∨
      (r.planReconcile (proceedsWith a) tw sw w).1.2.RollingState = .RolloutFailedState)
    (hpersist : (Reconcile r req w).retErr = none) :
    (∃ obj pre w0, (Reconcile r req w).trace = pre ++ [Call.statusUpdate obj] ∧
      obj.Status =
        { toRolloutStatus := (r.planReconcile (proceedsWith a) tw sw w).1.2,
          LastUpgradedTargetAppRevision := a.Spec.TargetAppRevisionName,
          LastSourceAppRevision := a.Spec.SourceAppRevisionName } ∧
      r.StatusUpdate obj w0 = (none, (Reconcile r req w).world)) ∧
    (∀ {W2 : Type} (r2 : Reconciler W2) (req2 : Request) (w2 : W2) (b : AppRollout),
      r2.GetAppRollout req2.NamespacedName w2 = .ok b →
      b.Status =
        { toRolloutStatus := (r.planReconcile (proceedsWith a) tw sw w).1.2,
          LastUpgradedTargetAppRevision := a.Spec.TargetAppRevisionName,
          LastSourceAppRevision := a.Spec.SourceAppRevisionName } →
      b.Spec.TargetAppRevisionName = a.Spec.TargetAppRevisionName →
      b.Spec.SourceAppRevisionName = a.Spec.SourceAppRevisionName →
      (Reconcile r2 req2 w2).res = {} ∧ (Reconcile r2 req2 w2).retErr = none ∧
      (Reconcile r2 req2 w2).trace = [Call.getAppRollout req2.NamespacedName] ∧
      (Reconcile r2 req2 w2).world = w2) := by
  constructor
  · have hok : (r.planReconcile (proceedsWith a) tw sw w).1.2.RollingState =
          .RolloutSucceedState →
        (handOver r targetApp sourceApp (r.planReconcile (proceedsWith a) tw sw w).2
          (lookupTrace req a targetApp sourceApp ++
            [Call.planReconcile (proceedsWith a) tw sw])).1 = none := by
      intro hs
      rcases hho : handOver r targetApp sourceApp (r.planReconcile (proceedsWith a) tw sw w).2
        (lookupTrace req a targetApp sourceApp ++
          [Call.planReconcile (proceedsWith a) tw sw]) with ⟨o, w2, t2⟩
      cases o with
      | none => rfl
      | some err =>
        rw [reconcile_reaches_plan hreach,
          finishRollout_handOver_fails r _ targetApp sourceApp tw sw w _ hs err w2 t2 hho]
          at hpersist
        cases hpersist
    have hrun := reconcile_persists_after_handOver hreach hok
    rw [hrun] at hpersist ⊢
    simp only [persistAndReturn] at hpersist ⊢
    obtain ⟨obj, pre, w0, htr, hst, hacc⟩ := updateStatus_ok r _ _ _ hpersist
    refine ⟨obj, pre, w0, htr, ?_, hacc⟩
    rw [hst]
    simp only [copyBack]
  · intro W2 r2 req2 w2 b hget hst htgt hsrc
    have hdone : Terminated b ∧ SamePair b := by
      unfold Terminated SamePair
      rw [hst, htgt, hsrc]
      exact ⟨hterm, rfl, rfl⟩
    rw [reconcile_terminated r2 req2 w2 b hget hdone]
    exact ⟨rfl, rfl, rfl, rfl⟩

/-- C22, on the in-memory cluster: the plan controller reports success for the rollout in
progress and the status is persisted; a user then replaces the plan (other batches, the
partition moved back, paused).  The next invocation on the edited cluster is a no-op, and
three invocations in a row leave the cluster as it is. -/
theorem terminal_state_absorbing_witness :
    (Reconcile (memReconciler planSucceed) demoRequest rollingStore).retErr = none ∧
    (Store.getAppRollout demoRequest.NamespacedName
      (Store.editPlan editedPlan
        (Reconcile (memReconciler planSucceed) demoRequest rollingStore).world)).toOption.map
        (fun b => (b.Spec.RolloutPlan, b.Status.RollingState)) =
      some (editedPlan, .RolloutSucceedState) ∧
    ((Reconcile (memReconciler planKeep) demoRequest
        (Store.editPlan editedPlan
          (Reconcile (memReconciler planSucceed) demoRequest rollingStore).world)).res = {} ∧
      (Reconcile (memReconciler planKeep) demoRequest
        (Store.editPlan editedPlan
          (Reconcile (memReconciler planSucceed) demoRequest rollingStore).world)).retErr =
        none ∧
      (Reconcile (memReconciler planKeep) demoRequest
        (Store.editPlan editedPlan
          (Reconcile (memReconciler planSucceed) demoRequest rollingStore).world)).trace =
        [Call.getAppRollout demoRequest.NamespacedName] ∧
      (Reconcile (memReconciler planKeep) demoRequest
        (Store.editPlan editedPlan
          (Reconcile (memReconciler planSucceed) demoRequest rollingStore).world)).world =
        Store.editPlan editedPlan
          (Reconcile (memReconciler planSucceed) demoRequest rollingStore).world) ∧
    reconcileN (memReconciler planKeep) demoRequest 3
        (Store.editPlan editedPlan
          (Reconcile (memReconciler planSucceed) demoRequest rollingStore).world) =
      Store.editPlan editedPlan
        (Reconcile (memReconciler planSucceed) demoRequest rollingStore).world :=
  ⟨by rfl, by rfl,
   (terminal_state_absorbing (memReconciler planSucceed) demoRequest rollingStore
      rollingRollout appV2 (some appV1) (workloadOf appV2) (some (workloadOf appV1))
      (rollingStore_mem_reaches_plan planSucceed) (Or.inl (by rfl)) (by rfl)).2
      (memReconciler planKeep) demoRequest
      (Store.editPlan editedPlan
        (Reconcile (memReconciler planSucceed) demoRequest rollingStore).world)
      { rollingRollout with
        ResourceVersion := 1,
        Spec := { rollingRollout.Spec with RolloutPlan := editedPlan },
        Status := { rollingRollout.Status with RollingState := .RolloutSucceedState } }
      (by rfl) (by rfl) (by rfl) (by rfl),
   by rfl⟩

/-- From the plan controller on, after calls that are neither plan controller invocations
nor status updates: the plan controller is invoked exactly once, on the object handed in,
and every status update writes the status it returned with the names of the spec recorded. -/
theorem finishRollout_plan_once {W : Type} (r : Reconciler W) (ar : AppRollout)
    (targetApp : ApplicationConfiguration) (sourceApp : Option ApplicationConfiguration)
    (tw : Workload) (sw : Option Workload) (w : W) (t : List Call)
    (ht : ∀ c ∈ t, c.isPlanReconcile = false ∧ c.isStatusUpdate = false) :
    (finishRollout r ar targetApp sourceApp tw sw w t).trace.filter Call.isPlanReconcile =
      [Call.planReconcile ar tw sw] ∧
    ∀ obj, Call.statusUpdate obj ∈ (finishRollout r ar targetApp sourceApp tw sw w t).trace →
      obj.Status =
        { toRolloutStatus := (r.planReconcile ar tw sw w).1.2,
          LastUpgradedTargetAppRevision := ar.Spec.TargetAppRevisionName,
          LastSourceAppRevision := ar.Spec.SourceAppRevisionName } := by
  obtain ⟨e1, e2, htr, _, hupd, hwrites, _⟩ := finishRollout_calls r ar targetApp sourceApp
    tw sw w t
  rw [htr]
  constructor
  · have h0 : t.filter Call.isPlanReconcile = [] := by
      rw [List.filter_eq_nil_iff]
      intro c hc
      simp [(ht c hc).1]
    have h1 : e1.filter Call.isPlanReconcile = [] := by
      rw [List.filter_eq_nil_iff]
      intro c hc
      simp [isPlanReconcile_false_of_isUpdate (hupd c hc)]
    have h2 : e2.filter Call.isPlanReconcile = [] := by
      rw [List.filter_eq_nil_iff]
      intro c hc
      simp [isPlanReconcile_false_of_isPersist (isPersist_of_persistOf (hwrites c hc))]
    rw [List.filter_append, h0, List.nil_append, List.filter_cons]
    simp only [Call.isPlanReconcile, if_true]
    rw [List.filter_append, h1, h2]
    rfl
  · intro obj hmem
    rcases List.mem_append.mp hmem with h | h
    · have := (ht _ h).2
      simp [Call.isStatusUpdate] at this
    · rcases List.mem_cons.mp h with h1 | h1
      · cases h1
      · rcases List.mem_append.mp h1 with h2 | h2
        · have := isStatusUpdate_false_of_isUpdate (hupd _ h2)
          simp [Call.isStatusUpdate] at this
        · have := hwrites _ h2
          simpa [persistOf, copyBack] using this

/-- Past line 151, for any in-memory object with the spec that was read: when every lookup
succeeds, the revision lookups end in the rest of the invocation from the plan controller
on. -/
theorem reconcileRevisions_reaches_plan {W : Type} {r : Reconciler W} {req : Request} {w : W}
    {a : AppRollout} {targetApp : ApplicationConfiguration}
    {sourceApp : Option ApplicationConfiguration} {tw : Workload} {sw : Option Workload}
    (h : ReachesPlan r req w a targetApp sourceApp tw sw) (ar : AppRollout)
    (hspec : ar.Spec = a.Spec) :
    reconcileRevisions r req ar w [Call.getAppRollout req.NamespacedName] =
      finishRollout r ar targetApp sourceApp tw sw w (lookupTrace req a targetApp sourceApp) := by
  have htk : targetKey req ar = targetKey req a := by unfold targetKey; rw [hspec]
  have hsk : sourceKey req ar = sourceKey req a := by unfold sourceKey; rw [hspec]
  unfold reconcileRevisions
  simp only [htk, hsk, h.target, h.targetTemplated, ne_eq, not_true_eq_false, if_false, hspec]
  rcases h.source with ⟨hno, hsrc⟩ | ⟨hyes, src, hsrc, hgetsrc, htempl⟩
  · subst hsrc
    rw [if_pos hno]
    unfold reconcileWorkloads
    simp only [hspec, h.workloads]
    rfl
  · subst hsrc
    rw [if_neg hyes]
    simp only [hgetsrc, htempl, not_true_eq_false, if_false]
    unfold reconcileWorkloads
    simp only [hspec, h.workloads]
    rfl

/-- Lines 82-93 for any state transition: a terminated rollout whose pair has changed goes
on to the revision lookups with the event raised once on its status. -/
theorem reconcileWith_restarts {W : Type}
    (transition : RolloutStatus → RolloutEvent → RolloutStatus) (r : Reconciler W)
    (req : Request) (w : W) (a : AppRollout)
    (hget : r.GetAppRollout req.NamespacedName w = .ok a)
    (hterm : Terminated a) (hpair : ¬ SamePair a) :
    ReconcileWith transition r req w =
      reconcileRevisions r req (restartWith transition a) w
        [Call.getAppRollout req.NamespacedName] := by
  unfold ReconcileWith
  simp only [hget, handleFinalizer_eq]
  unfold Terminated at hterm
  unfold SamePair at hpair
  rw [if_pos hterm, if_neg hpair]
  rfl

/-- The lookups of the re-pointed failed rollout succeed on the in-memory cluster. -/
theorem failedChangedStore_reaches_plan (plan : AppRollout → Result × RolloutStatus) :
    ReachesPlan (memReconciler plan) demoRequest failedChangedStore failedChangedRollout appV3
      (some appV2) (workloadOf appV3) (some (workloadOf appV2)) where
  read := by rfl
  proceeds := by decide
  target := by rfl
  targetTemplated := by rfl
  source := Or.inr ⟨by decide, appV2, rfl, by rfl, by rfl⟩
  workloads := by rfl

/-- C2: when the rollout has terminated (succeeded or failed) and the target name or the
source name of the spec differs from the recorded one (either alone suffices), Reconcile
does not return early.  Whatever the state transition of the status is, it is applied to the
status exactly once, with `WorkloadModifiedEvent`, and the invocation goes on with the
revision lookups of the new pair on that object: its first call after the read is the
lookup of the new target revision, and when the lookups of the new pair succeed the plan
controller is invoked exactly once, on the object with the event raised once and the
workloads of the new pair, and every status update records the new pair next to the status
the plan controller returned.  `Reconcile` is this at the modelled `StateTransition`. -/
theorem reconcile_terminated_changed_pair_restarts {W : Type}
    (transition : RolloutStatus → RolloutEvent → RolloutStatus) (r : Reconciler W)
    (req : Request) (w : W) (a : AppRollout)
    (hget : r.GetAppRollout req.NamespacedName w = .ok a)
    (hterm : a.Status.RollingState = .RolloutSucceedState ∨
      a.Status.RollingState = .RolloutFailedState)
    (hchg : a.Spec.TargetAppRevisionName ≠ a.Status.LastUpgradedTargetAppRevision ∨
      a.Spec.SourceAppRevisionName ≠ a.Status.LastSourceAppRevision) :
    ReconcileWith transition r req w =
      reconcileRevisions r req (restartWith transition a) w
        [Call.getAppRollout req.NamespacedName] ∧
    (restartWith transition a).Status.toRolloutStatus =
      transition a.Status.toRolloutStatus .WorkloadModifiedEvent ∧
    (restartWith transition a).Spec = a.Spec ∧
    (∃ ext, (ReconcileWith transition r req w).trace =
        Call.getAppRollout req.NamespacedName :: Call.getAppConfig (targetKey req a) :: ext ∧
      ∀ ar tw sw, Call.planReconcile ar tw sw ∈ ext → ar = restartWith transition a) ∧
    (∀ tgt src tw sw, ReachesPlan r req w a tgt src tw sw →
      (ReconcileWith transition r req w).trace.filter Call.isPlanReconcile =
        [Call.planReconcile (restartWith transition a) tw sw] ∧
      ∀ obj, Call.statusUpdate obj ∈ (ReconcileWith transition r req w).trace →
        obj.Status =
          { toRolloutStatus :=
              (r.planReconcile (restartWith transition a) tw sw w).1.2,
            LastUpgradedTargetAppRevision := a.Spec.TargetAppRevisionName,
            LastSourceAppRevision := a.Spec.SourceAppRevisionName }) ∧
    Reconcile r req w = ReconcileWith StateTransition r req w ∧
    restart a = restartWith StateTransition a := by
  have hpair : ¬ SamePair a := by
    rintro ⟨h1, h2⟩
    rcases hchg with h | h
    · exact h h1.symm
    · exact h h2.symm
  have hrun := reconcileWith_restarts transition r req w a hget hterm hpair
  refine ⟨hrun, rfl, rfl, ?_, ?_, rfl, rfl⟩
  · obtain ⟨ext, hext, hplan⟩ := reconcileRevisions_trace r req (restartWith transition a) w
      [Call.getAppRollout req.NamespacedName]
    refine ⟨ext, ?_, ?_⟩
    · rw [hrun, hext]
      rfl
    · intro ar tw sw hmem
      have := hplan _ hmem
      simpa [planOn] using this
  · intro tgt src tw sw hreach
    rw [hrun, reconcileRevisions_reaches_plan hreach (restartWith transition a) rfl]
    have h := finishRollout_plan_once r (restartWith transition a) tgt src tw sw w
      (lookupTrace req a tgt src)
      (fun c hc => ⟨(lookupTrace_reads_only req a tgt src c hc).1,
        (lookupTrace_reads_only req a tgt src c hc).2.2⟩)
    exact h

/-- C2, on the in-memory cluster.  The succeeded rollout `app-v1` to `app-v2` re-pointed at
`app-v2` to `app-v3`, under the counting transition: the plan controller is invoked once,
on the object whose `currentBatch` went from 1 to 2, not to 3.  The failed rollout re-pointed
the same way, under the modelled transition: the plan controller is invoked once, on the
object reset to `Initial`, and the status persisted afterwards records the new pair. -/
theorem reconcile_terminated_changed_pair_restarts_witness :
    changedRollout.Status.CurrentBatch = 1 ∧
    (∃ ar, (ReconcileWith countingTransition (memReconciler planKeep) demoRequest
        changedStore).trace.filter Call.isPlanReconcile =
        [Call.planReconcile ar (workloadOf appV3) (some (workloadOf appV2))] ∧
      ar.Status.CurrentBatch = 2 ∧ ar.Spec = changedRollout.Spec) ∧
    (∃ ar, (Reconcile (memReconciler planKeep) demoRequest failedChangedStore).trace.filter
        Call.isPlanReconcile =
        [Call.planReconcile ar (workloadOf appV3) (some (workloadOf appV2))] ∧
      ar.Status.RollingState = .Initial ∧ ar.Status.CurrentBatch = 0) ∧
    (Store.getAppRollout demoRequest.NamespacedName
      (Reconcile (memReconciler planKeep) demoRequest failedChangedStore).world).toOption.map
        (fun a => (a.Status.RollingState, a.Status.CurrentBatch,
          a.Status.LastUpgradedTargetAppRevision, a.Status.LastSourceAppRevision)) =
      some (.Initial, 0, "app-v3", "app-v2") :=
  ⟨by rfl,
   ⟨restartWith countingTransition changedRollout,
    ((reconcile_terminated_changed_pair_restarts countingTransition (memReconciler planKeep)
      demoRequest changedStore changedRollout (by rfl) (by decide) (by decide)).2.2.2.2.1
      appV3 (some appV2) (workloadOf appV3) (some (workloadOf appV2))
      changedStore_reaches_plan).1,
    by rfl, by rfl⟩,
   ⟨restartWith StateTransition failedChangedRollout,
    ((reconcile_terminated_changed_pair_restarts StateTransition (memReconciler planKeep)
      demoRequest failedChangedStore failedChangedRollout (by rfl) (by decide)
      (by decide)).2.2.2.2.1 appV3 (some appV2) (workloadOf appV3) (some (workloadOf appV2))
      (failedChangedStore_reaches_plan planKeep)).1,
    by rfl, by rfl⟩,
   by rfl⟩

/-- An attempt of `updateStatus` whose re-read succeeds: the re-read, then the status update
of the re-read object with the saved status on it, whose answer is the answer of the
attempt. -/
theorem updateStatusAttempt_read_ok {W : Type} (r : Reconciler W) (status : AppRolloutStatus)
    (p : Persist W) (fresh : AppRollout)
    (hget : r.GetAppRollout (rereadKey p.appRollout) p.world = .ok fresh) :
    updateStatusAttempt r status p =
      ((r.StatusUpdate (withStatus fresh status) p.world).1,
        { appRollout := (withStatus fresh status),
          world := (r.StatusUpdate (withStatus fresh status) p.world).2,
          trace := p.trace ++ [Call.getAppRollout (rereadKey p.appRollout),
            Call.statusUpdate (withStatus fresh status)] }) := by
  unfold rereadKey at hget
  unfold updateStatusAttempt
  simp only [hget, rereadKey, withStatus, List.append_assoc, List.singleton_append]

/-- An attempt of `updateStatus` whose re-read fails ends with the re-read. -/
theorem updateStatusAttempt_read_fails {W : Type} (r : Reconciler W)
    (status : AppRolloutStatus) (p : Persist W) (err : ApiError)
    (hget : r.GetAppRollout (rereadKey p.appRollout) p.world = .error err) :
    updateStatusAttempt r status p =
      (some err, { p with trace := p.trace ++ [Call.getAppRollout (rereadKey p.appRollout)] }) := by
  unfold rereadKey at hget
  unfold updateStatusAttempt
  simp only [hget, rereadKey]

/-- When the first attempt does not end in a conflict, `updateStatus` is that attempt. -/
theorem updateStatus_stops_first {W : Type} (r : Reconciler W) (a : AppRollout) (w : W)
    (t : List Call)
    (h : ∀ err, (updateStatusAttempt r a.Status
      { appRollout := a, world := w, trace := t }).1 = some err → IsConflict err = false) :
    updateStatus r a w t =
      updateStatusAttempt r a.Status { appRollout := a, world := w, trace := t } := by
  unfold updateStatus
  rw [RetryOnConflict_stops (updateStatusAttempt r a.Status) 0 DefaultBackoff.Steps none
    { appRollout := a, world := w, trace := t } (by decide)
    (fun j hj => absurd hj (Nat.not_lt_zero j)) h]
  rfl

/-- The calls of `updateStatus` begin with the re-read of the object. -/
theorem updateStatus_rereads {W : Type} (r : Reconciler W) (a : AppRollout) (w : W)
    (t : List Call) :
    ∃ rest, (updateStatus r a w t).2.trace = t ++ Call.getAppRollout (rereadKey a) :: rest := by
  obtain ⟨rest, hrest⟩ := updateStatus_first_attempt r a w t
  cases hget : r.GetAppRollout (rereadKey a) w with
  | error err =>
    rw [updateStatusAttempt_read_fails r a.Status _ err hget] at hrest
    exact ⟨rest, by rw [hrest]; simp⟩
  | ok fresh =>
    rw [updateStatusAttempt_read_ok r a.Status _ fresh hget] at hrest
    exact ⟨Call.statusUpdate (withStatus fresh a.Status) :: rest, by rw [hrest]; simp⟩

/-- What `updateStatus` does after a re-read that succeeds: its first two calls are the
re-read and the status update of the re-read object with the saved status on it; and when
the server does not answer that update with a conflict, these are all its calls, its answer
is the answer of the server and the world is the one the update left. -/
theorem updateStatus_after_reread {W : Type} (r : Reconciler W) (a : AppRollout) (w : W)
    (t : List Call) (fresh : AppRollout)
    (hget : r.GetAppRollout (rereadKey a) w = .ok fresh) :
    (∃ rest, (updateStatus r a w t).2.trace =
      t ++ [Call.getAppRollout (rereadKey a),
        Call.statusUpdate (withStatus fresh a.Status)] ++ rest) ∧
    ((∀ err, (r.StatusUpdate (withStatus fresh a.Status) w).1 = some err →
        IsConflict err = false) →
      (updateStatus r a w t).1 = (r.StatusUpdate (withStatus fresh a.Status) w).1 ∧
      (updateStatus r a w t).2.world =
        (r.StatusUpdate (withStatus fresh a.Status) w).2 ∧
      (updateStatus r a w t).2.trace =
        t ++ [Call.getAppRollout (rereadKey a),
          Call.statusUpdate (withStatus fresh a.Status)]) := by
  have hatt := updateStatusAttempt_read_ok r a.Status
    { appRollout := a, world := w, trace := t } fresh hget
  constructor
  · obtain ⟨rest, hrest⟩ := updateStatus_first_attempt r a w t
    rw [hatt] at hrest
    exact ⟨rest, hrest⟩
  · intro hstop
    have h := updateStatus_stops_first r a w t (by rw [hatt]; exact hstop)
    rw [h, hatt]
    exact ⟨rfl, rfl, rfl⟩

/-- What `updateStatus` does after a re-read that fails with an error other than a
conflict: it returns that error, having made the re-read only. -/
theorem updateStatus_reread_fails {W : Type} (r : Reconciler W) (a : AppRollout) (w : W)
    (t : List Call) (err : ApiError)
    (hget : r.GetAppRollout (rereadKey a) w = .error err) (hc : IsConflict err = false) :
    (updateStatus r a w t).1 = some err ∧ (updateStatus r a w t).2.world = w ∧
    (updateStatus r a w t).2.trace = t ++ [Call.getAppRollout (rereadKey a)] := by
  have hatt := updateStatusAttempt_read_fails r a.Status
    { appRollout := a, world := w, trace := t } err hget
  have h := updateStatus_stops_first r a w t (by
    rw [hatt]
    intro e he
    cases he
    exact hc)
  rw [h, hatt]
  exact ⟨rfl, rfl, rfl⟩

/-- The in-memory object is re-read under the key of the object that was read. -/
theorem rereadKey_copyBack (a : AppRollout) (rs : RolloutStatus) (t s : String) :
    rereadKey (copyBack (proceedsWith a) rs t s) = rereadKey a := by
  unfold rereadKey copyBack proceedsWith restart
  split <;> rfl

/-- The status of the in-memory object after lines 158-160. -/
theorem copyBack_Status (a : AppRollout) (rs : RolloutStatus) :
    (copyBack (proceedsWith a) rs a.Spec.TargetAppRevisionName
      a.Spec.SourceAppRevisionName).Status = recordedStatus rs a := rfl

/-- An invocation that reached the plan controller and returned a nil error was not stopped
by the hand-over. -/
theorem handOver_ok_of_nil {W : Type} {r : Reconciler W} {req : Request} {w : W}
    {a : AppRollout} {targetApp : ApplicationConfiguration}
    {sourceApp : Option ApplicationConfiguration} {tw : Workload} {sw : Option Workload}
    (hreach : ReachesPlan r req w a targetApp sourceApp tw sw)
    (hnil : (Reconcile r req w).retErr = none) :
    (r.planReconcile (proceedsWith a) tw sw w).1.2.RollingState = .RolloutSucceedState →
      (handOver r targetApp sourceApp (r.planReconcile (proceedsWith a) tw sw w).2
        (lookupTrace req a targetApp sourceApp ++
          [Call.planReconcile (proceedsWith a) tw sw])).1 = none := by
  intro hs
  rcases hho : handOver r targetApp sourceApp (r.planReconcile (proceedsWith a) tw sw w).2
    (lookupTrace req a targetApp sourceApp ++
      [Call.planReconcile (proceedsWith a) tw sw]) with ⟨o, w2, t2⟩
  cases o with
  | none => rfl
  | some err =>
    rw [reconcile_reaches_plan hreach,
      finishRollout_handOver_fails r _ targetApp sourceApp tw sw w _ hs err w2 t2 hho]
      at hnil
    cases hnil

/-- Line 183, when the invocation reaches it in world `w1` after the calls `t1`: the status
persistence begins with the re-read of the AppRollout; when the re-read succeeds the next
call is the status update of the re-read object carrying the status of the plan controller
with the pair of the spec recorded; when the server does not answer that update with a
conflict, the invocation ends there, returns the answer of the server and leaves the world
the update left; when the re-read fails with an error other than a conflict, that error is
returned; and whenever the invocation returns a nil error, its last call is a status update
carrying that status which the server accepted. -/
theorem reconcile_persisting_step {W : Type} {r : Reconciler W} {req : Request} {w : W}
    {a : AppRollout} {targetApp : ApplicationConfiguration}
    {sourceApp : Option ApplicationConfiguration} {tw : Workload} {sw : Option Workload}
    (hreach : ReachesPlan r req w a targetApp sourceApp tw sw)
    (hok : (r.planReconcile (proceedsWith a) tw sw w).1.2.RollingState =
        .RolloutSucceedState →
      (handOver r targetApp sourceApp (r.planReconcile (proceedsWith a) tw sw w).2
        (lookupTrace req a targetApp sourceApp ++
          [Call.planReconcile (proceedsWith a) tw sw])).1 = none)
    (w1 : W) (t1 : List Call)
    (hafter : afterHandOver r (r.planReconcile (proceedsWith a) tw sw w).1.2 targetApp
      sourceApp (r.planReconcile (proceedsWith a) tw sw w).2
      (lookupTrace req a targetApp sourceApp ++
        [Call.planReconcile (proceedsWith a) tw sw]) = (w1, t1)) :
    (∃ rest, (Reconcile r req w).trace = t1 ++ Call.getAppRollout (rereadKey a) :: rest) ∧
    (∀ fresh, r.GetAppRollout (rereadKey a) w1 = .ok fresh →
      (∃ rest, (Reconcile r req w).trace =
        t1 ++ [Call.getAppRollout (rereadKey a),
          Call.statusUpdate (withStatus fresh
            (recordedStatus (r.planReconcile (proceedsWith a) tw sw w).1.2 a))] ++ rest) ∧
      ((∀ err, (r.StatusUpdate (withStatus fresh
            (recordedStatus (r.planReconcile (proceedsWith a) tw sw w).1.2 a)) w1).1 =
          some err → IsConflict err = false) →
        (Reconcile r req w).retErr = (r.StatusUpdate (withStatus fresh
            (recordedStatus (r.planReconcile (proceedsWith a) tw sw w).1.2 a)) w1).1 ∧
        (Reconcile r req w).world = (r.StatusUpdate (withStatus fresh
            (recordedStatus (r.planReconcile (proceedsWith a) tw sw w).1.2 a)) w1).2 ∧
        (Reconcile r req w).trace =
          t1 ++ [Call.getAppRollout (rereadKey a),
            Call.statusUpdate (withStatus fresh
            (recordedStatus (r.planReconcile (proceedsWith a) tw sw w).1.2 a))])) ∧
    (∀ err, r.GetAppRollout (rereadKey a) w1 = .error err → IsConflict err = false →
      (Reconcile r req w).retErr = some err ∧ (Reconcile r req w).world = w1 ∧
      (Reconcile r req w).trace = t1 ++ [Call.getAppRollout (rereadKey a)]) ∧
    ((Reconcile r req w).retErr = none →
      ∃ obj pre w0, (Reconcile r req w).trace = pre ++ [Call.statusUpdate obj] ∧
        obj.Status = recordedStatus (r.planReconcile (proceedsWith a) tw sw w).1.2 a ∧
        r.StatusUpdate obj w0 = (none, (Reconcile r req w).world)) := by
  have hrun := reconcile_persists_after_handOver hreach hok
  rw [hafter] at hrun
  simp only at hrun
  rw [hrun]
  simp only [persistAndReturn]
  have hkey := rereadKey_copyBack a (r.planReconcile (proceedsWith a) tw sw w).1.2
    a.Spec.TargetAppRevisionName a.Spec.SourceAppRevisionName
  have hst := copyBack_Status a (r.planReconcile (proceedsWith a) tw sw w).1.2
  refine ⟨?_, ?_, ?_, ?_⟩
  · have h := updateStatus_rereads r (copyBack (proceedsWith a)
      (r.planReconcile (proceedsWith a) tw sw w).1.2 a.Spec.TargetAppRevisionName
      a.Spec.SourceAppRevisionName) w1 t1
    rw [hkey] at h
    exact h
  · intro fresh hget
    have h := updateStatus_after_reread r (copyBack (proceedsWith a)
      (r.planReconcile (proceedsWith a) tw sw w).1.2 a.Spec.TargetAppRevisionName
      a.Spec.SourceAppRevisionName) w1 t1 fresh (by rw [hkey]; exact hget)
    rw [hkey, hst] at h
    exact h
  · intro err hget hc
    have h := updateStatus_reread_fails r (copyBack (proceedsWith a)
      (r.planReconcile (proceedsWith a) tw sw w).1.2 a.Spec.TargetAppRevisionName
      a.Spec.SourceAppRevisionName) w1 t1 err (by rw [hkey]; exact hget) hc
    rw [hkey] at h
    exact h
  · intro hnil
    obtain ⟨obj, pre, w0, htr, hobj, hacc⟩ := updateStatus_ok r _ _ _ hnil
    exact ⟨obj, pre, w0, htr, by rw [hobj, hst], hacc⟩

/-- C12: when the target and source revisions are found and templated, the workload
extraction succeeds and no annotation update fails, Reconcile invokes the rollout plan
controller exactly once (on the in-memory object) and returns its result unchanged.  It
then persists the status the plan controller returned with the recorded pair set to the
names of the spec: after the calls `t1` of the lookups, the plan controller and the
hand-over, in the world `w1` they left, it re-reads the AppRollout and updates the status of
the re-read object to exactly that status; every status update of the invocation writes
that status.  The error returned is the error of the status update: the answer of the server
to that update when it is not a conflict (the world is then the one the update left and no
further call is made), the error of the re-read when that fails; and whenever the error is
nil, the last call is a status update with that status which the server accepted. -/
theorem plan_status_persisted_and_result_returned {W : Type} (r : Reconciler W)
    (req : Request) (w : W) (a : AppRollout) (targetApp : ApplicationConfiguration)
    (sourceApp : Option ApplicationConfiguration) (tw : Workload) (sw : Option Workload)
    (w1 : W) (t1 : List Call)
    (hreach : ReachesPlan r req w a targetApp sourceApp tw sw)
    (hok : (r.planReconcile (proceedsWith a) tw sw w).1.2.RollingState =
        .RolloutSucceedState →
      (handOver r targetApp sourceApp (r.planReconcile (proceedsWith a) tw sw w).2
        (lookupTrace req a targetApp sourceApp ++
          [Call.planReconcile (proceedsWith a) tw sw])).1 = none)
    (hafter : afterHandOver r (r.planReconcile (proceedsWith a) tw sw w).1.2 targetApp
      sourceApp (r.planReconcile (proceedsWith a) tw sw w).2
      (lookupTrace req a targetApp sourceApp ++
        [Call.planReconcile (proceedsWith a) tw sw]) = (w1, t1)) :
    (Reconcile r req w).trace.filter Call.isPlanReconcile =
      [Call.planReconcile (proceedsWith a) tw sw] ∧
    (∀ obj, Call.statusUpdate obj ∈ (Reconcile r req w).trace →
      obj.Status = recordedStatus (r.planReconcile (proceedsWith a) tw sw w).1.2 a) ∧
    (Reconcile r req w).res = (r.planReconcile (proceedsWith a) tw sw w).1.1 ∧
    (∃ e1, t1 = lookupTrace req a targetApp sourceApp ++
        [Call.planReconcile (proceedsWith a) tw sw] ++ e1 ∧ ∀ c ∈ e1, c.isUpdate = true) ∧
    (∃ rest, (Reconcile r req w).trace = t1 ++ Call.getAppRollout (rereadKey a) :: rest) ∧
    (∀ fresh, r.GetAppRollout (rereadKey a) w1 = .ok fresh →
      (∃ rest, (Reconcile r req w).trace =
        t1 ++ [Call.getAppRollout (rereadKey a),
          Call.statusUpdate (withStatus fresh
            (recordedStatus (r.planReconcile (proceedsWith a) tw sw w).1.2 a))] ++ rest) ∧
      ((∀ err, (r.StatusUpdate (withStatus fresh
            (recordedStatus (r.planReconcile (proceedsWith a) tw sw w).1.2 a)) w1).1 =
          some err → IsConflict err = false) →
        (Reconcile r req w).retErr = (r.StatusUpdate (withStatus fresh
            (recordedStatus (r.planReconcile (proceedsWith a) tw sw w).1.2 a)) w1).1 ∧
        (Reconcile r req w).world = (r.StatusUpdate (withStatus fresh
            (recordedStatus (r.planReconcile (proceedsWith a) tw sw w).1.2 a)) w1).2 ∧
        (Reconcile r req w).trace =
          t1 ++ [Call.getAppRollout (rereadKey a),
            Call.statusUpdate (withStatus fresh
            (recordedStatus (r.planReconcile (proceedsWith a) tw sw w).1.2 a))])) ∧
    (∀ err, r.GetAppRollout (rereadKey a) w1 = .error err → IsConflict err = false →
      (Reconcile r req w).retErr = some err ∧ (Reconcile r req w).world = w1 ∧
      (Reconcile r req w).trace = t1 ++ [Call.getAppRollout (rereadKey a)]) ∧
    ((Reconcile r req w).retErr = none →
      ∃ obj pre w0, (Reconcile r req w).trace = pre ++ [Call.statusUpdate obj] ∧
        obj.Status = recordedStatus (r.planReconcile (proceedsWith a) tw sw w).1.2 a ∧
        r.StatusUpdate obj w0 = (none, (Reconcile r req w).world)) ∧
    (Reconcile r req w).retErr =
      (updateStatus r
        (copyBack (proceedsWith a) (r.planReconcile (proceedsWith a) tw sw w).1.2
          a.Spec.TargetAppRevisionName a.Spec.SourceAppRevisionName) w1 t1).1 := by
  have honce := reconcile_plan_once hreach
  have hstep := reconcile_persisting_step hreach hok w1 t1 hafter
  have hrun := reconcile_persists_after_handOver hreach hok
  rw [hafter] at hrun
  simp only at hrun
  refine ⟨honce.1, honce.2, ?_, ?_, hstep.1, hstep.2.1, hstep.2.2.1, hstep.2.2.2, ?_⟩
  · rw [hrun]
    rfl
  · obtain ⟨e1, he1, hupd⟩ := afterHandOver_trace r
      (r.planReconcile (proceedsWith a) tw sw w).1.2 targetApp sourceApp
      (r.planReconcile (proceedsWith a) tw sw w).2
      (lookupTrace req a targetApp sourceApp ++ [Call.planReconcile (proceedsWith a) tw sw])
    rw [hafter] at he1
    exact ⟨e1, he1, hupd⟩
  · rw [hrun]
    rfl

/-- C12, on the in-memory cluster: the rollout in progress, pointed at the pair `app-v2`,
`app-v3` while the pair `app-v1`, `app-v2` is recorded, with a plan controller that moves
the batch to its verification and asks for another invocation in three seconds.  The plan
controller is invoked once, its result is returned with a nil error, and the AppRollout
stored afterwards carries the status it returned, with the new pair recorded. -/
theorem plan_status_persisted_and_result_returned_witness :
    (Reconcile (memReconciler planVerify) demoRequest retargetedStore).trace.filter
        Call.isPlanReconcile =
      [Call.planReconcile (proceedsWith retargetedRollout) (workloadOf appV3)
        (some (workloadOf appV2))] ∧
    (Reconcile (memReconciler planVerify) demoRequest retargetedStore).res =
      { Requeue := false, RequeueAfter := 3000000000 } ∧
    (Reconcile (memReconciler planVerify) demoRequest retargetedStore).retErr = none ∧
    (Reconcile (memReconciler planVerify) demoRequest retargetedStore).world =
      { appRollouts := [{ retargetedRollout with
          ResourceVersion := 1,
          Status := recordedStatus (planVerify retargetedRollout).2 retargetedRollout }],
        appConfigs := [appV2, appV3] } ∧
    (Store.getAppRollout demoRequest.NamespacedName
      (Reconcile (memReconciler planVerify) demoRequest retargetedStore).world).toOption.map
        (fun b => (b.Status.RollingState, b.Status.BatchRollingState, b.Status.CurrentBatch,
          b.Status.LastUpgradedTargetAppRevision, b.Status.LastSourceAppRevision)) =
      some (.RollingInBatchesState, .BatchVerifying, 1, "app-v3", "app-v2") ∧
    retargetedRollout.Status.BatchRollingState = .BatchReadyState ∧
    retargetedRollout.Status.LastUpgradedTargetAppRevision = "app-v2" :=
  have h := plan_status_persisted_and_result_returned (memReconciler planVerify) demoRequest
    retargetedStore retargetedRollout appV3 (some appV2) (workloadOf appV3)
    (some (workloadOf appV2)) retargetedStore
    (lookupTrace demoRequest retargetedRollout appV3 (some appV2) ++
      [Call.planReconcile (proceedsWith retargetedRollout) (workloadOf appV3)
        (some (workloadOf appV2))])
    (retargetedStore_reaches_plan planVerify) (by intro h; exact absurd h (by decide))
    (by rfl)
  have hw := (h.2.2.2.2.2.1 retargetedRollout (by rfl)).2 (by
    intro err herr
    have hnone : ((memReconciler planVerify).StatusUpdate (withStatus retargetedRollout
        (recordedStatus ((memReconciler planVerify).planReconcile (proceedsWith retargetedRollout)
          (workloadOf appV3) (some (workloadOf appV2)) retargetedStore).1.2 retargetedRollout))
        retargetedStore).1 = none := by rfl
    rw [hnone] at herr
    cases herr)
  ⟨h.1, h.2.2.1.trans (by rfl), hw.1.trans (by rfl), hw.2.1.trans (by rfl), by rfl, by rfl,
    by rfl⟩

/-- C16: first-time deployment.  When `spec.sourceAppRevisionName` is empty (and the target
revision is found and templated), Reconcile goes from the lookup of the target straight to
the workload extraction with a nil source: no other revision is looked up, no event of a
templated check is recorded and no second extraction is made.  When the plan controller
returns `RolloutSucceeded`, the only update is the one of the target revision with its
rollout annotation removed.  The status it persists records the empty string as
`lastSourceAppRevision`: every status update writes it, the status update that follows the
re-read of the AppRollout carries it (and when the server does not answer with a conflict
the invocation ends with the answer and the world of that update), and whenever the
invocation returns a nil error after the extraction, its last call is a status update
recording the empty source which the server accepted. -/
theorem first_time_deployment_skips_source {W : Type} (r : Reconciler W) (req : Request)
    (w : W) (a : AppRollout) (tgt : ApplicationConfiguration)
    (hget : r.GetAppRollout req.NamespacedName w = .ok a)
    (hgo : ¬ (Terminated a ∧ SamePair a))
    (htgt : r.GetAppConfig (targetKey req a) w = .ok tgt)
    (htempl : tgt.RollingStatus = .RollingTemplated)
    (hempty : a.Spec.SourceAppRevisionName = "") :
    (∃ ext, (Reconcile r req w).trace =
        [Call.getAppRollout req.NamespacedName, Call.getAppConfig (targetKey req a),
          Call.extractWorkloads a.Spec.ComponentList tgt none] ++ ext ∧
      (∀ c ∈ ext, c.isGetAppConfig = false ∧ c.isEvent = false ∧
        c.isExtractWorkloads = false) ∧
      (∀ tw sw, r.extractWorkloads a.Spec.ComponentList tgt none w = .ok (tw, sw) →
        (r.planReconcile (proceedsWith a) tw sw w).1.2.RollingState = .RolloutSucceedState →
        ext.filter Call.isUpdate = [Call.update (releasedTarget tgt)]) ∧
      (∀ obj, Call.statusUpdate obj ∈ ext → obj.Status.LastSourceAppRevision = "")) ∧
    (∀ tw sw (w1 : W) (t1 : List Call),
      r.extractWorkloads a.Spec.ComponentList tgt none w = .ok (tw, sw) →
      ((r.planReconcile (proceedsWith a) tw sw w).1.2.RollingState = .RolloutSucceedState →
        (handOver r tgt none (r.planReconcile (proceedsWith a) tw sw w).2
          (lookupTrace req a tgt none ++
            [Call.planReconcile (proceedsWith a) tw sw])).1 = none) →
      afterHandOver r (r.planReconcile (proceedsWith a) tw sw w).1.2 tgt none
        (r.planReconcile (proceedsWith a) tw sw w).2
        (lookupTrace req a tgt none ++ [Call.planReconcile (proceedsWith a) tw sw]) =
          (w1, t1) →
      ∀ fresh, r.GetAppRollout (rereadKey a) w1 = .ok fresh →
        (withStatus fresh (recordedStatus
          (r.planReconcile (proceedsWith a) tw sw w).1.2 a)).Status.LastSourceAppRevision =
            "" ∧
        (∃ rest, (Reconcile r req w).trace =
          t1 ++ [Call.getAppRollout (rereadKey a),
            Call.statusUpdate (withStatus fresh
              (recordedStatus (r.planReconcile (proceedsWith a) tw sw w).1.2 a))] ++ rest) ∧
        ((∀ err, (r.StatusUpdate (withStatus fresh
              (recordedStatus (r.planReconcile (proceedsWith a) tw sw w).1.2 a)) w1).1 =
            some err → IsConflict err = false) →
          (Reconcile r req w).retErr = (r.StatusUpdate (withStatus fresh
              (recordedStatus (r.planReconcile (proceedsWith a) tw sw w).1.2 a)) w1).1 ∧
          (Reconcile r req w).world = (r.StatusUpdate (withStatus fresh
              (recordedStatus (r.planReconcile (proceedsWith a) tw sw w).1.2 a)) w1).2)) ∧
    (∀ tw sw, r.extractWorkloads a.Spec.ComponentList tgt none w = .ok (tw, sw) →
      (Reconcile r req w).retErr = none →
      ∃ obj pre w0, (Reconcile r req w).trace = pre ++ [Call.statusUpdate obj] ∧
        obj.Status.LastSourceAppRevision = "" ∧
        obj.Status.LastUpgradedTargetAppRevision = a.Spec.TargetAppRevisionName ∧
        r.StatusUpdate obj w0 = (none, (Reconcile r req w).world)) := by
  refine ⟨?_, ?_, ?_⟩
  · cases hext : r.extractWorkloads a.Spec.ComponentList tgt none w with
    | error err =>
      rw [reconcile_extract_error r req w a hget hgo tgt none htgt htempl
        (Or.inl ⟨hempty, rfl⟩) err hext]
      refine ⟨[], rfl, by simp, ?_, by simp⟩
      intro tw sw h
      cases h
    | ok ws =>
      have hreach : ReachesPlan r req w a tgt none ws.1 ws.2 :=
        ⟨hget, hgo, htgt, htempl, Or.inl ⟨hempty, rfl⟩, hext⟩
      rw [reconcile_reaches_plan hreach]
      obtain ⟨e1, e2, htr, hah, hupd, hwrites, _⟩ := finishRollout_calls r (proceedsWith a)
        tgt none ws.1 ws.2 w (lookupTrace req a tgt none)
      refine ⟨Call.planReconcile (proceedsWith a) ws.1 ws.2 :: (e1 ++ e2), ?_, ?_, ?_, ?_⟩
      · rw [htr]; rfl
      · intro c hc
        rcases List.mem_cons.mp hc with h | h
        · rw [h]; exact ⟨rfl, rfl, rfl⟩
        · rcases List.mem_append.mp h with h1 | h1
          · have := isUpdate_quiet (hupd c h1)
            exact ⟨this.1, this.2.1, this.2.2.1⟩
          · have := isPersist_quiet (isPersist_of_persistOf (hwrites c h1))
            exact ⟨this.1, this.2.1, this.2.2.1⟩
      · intro tw sw hok hs
        cases hok
        have hah2 : afterHandOver r (r.planReconcile (proceedsWith a) tw sw w).1.2 tgt none
            (r.planReconcile (proceedsWith a) tw sw w).2
            (lookupTrace req a tgt none ++ [Call.planReconcile (proceedsWith a) tw sw]) =
            ((r.Update (releasedTarget tgt) (r.planReconcile (proceedsWith a) tw sw w).2).2,
              lookupTrace req a tgt none ++ [Call.planReconcile (proceedsWith a) tw sw] ++
                [Call.update (releasedTarget tgt)]) := by
          unfold afterHandOver
          rw [if_pos hs, handOver_none]
        rw [hah2] at hah
        have he1 : e1 = [Call.update (releasedTarget tgt)] :=
          (List.append_cancel_left hah).symm
        have he2 : e2.filter Call.isUpdate = [] := by
          rw [List.filter_eq_nil_iff]
          intro c hc
          simp [(isPersist_quiet (isPersist_of_persistOf (hwrites c hc))).2.2.2]
        rw [he1]
        simp only [List.filter_cons, List.filter_append, he2]
        simp [Call.isUpdate]
      · intro obj hobj
        rcases List.mem_cons.mp hobj with h | h
        · cases h
        · rcases List.mem_append.mp h with h1 | h1
          · have := hupd _ h1
            simp [Call.isUpdate] at this
          · have := hwrites _ h1
            simp only [persistOf, decide_eq_true_eq] at this
            rw [this]
            simp only [copyBack, proceedsWith_Spec]
            exact hempty
  · intro tw sw w1 t1 hext hok hafter fresh hfresh
    have hreach : ReachesPlan r req w a tgt none tw sw :=
      ⟨hget, hgo, htgt, htempl, Or.inl ⟨hempty, rfl⟩, hext⟩
    have hstep := (reconcile_persisting_step hreach hok w1 t1 hafter).2.1 fresh hfresh
    refine ⟨hempty, hstep.1, ?_⟩
    intro hstop
    exact ⟨(hstep.2 hstop).1, (hstep.2 hstop).2.1⟩
  · intro tw sw hext hnil
    have hreach : ReachesPlan r req w a tgt none tw sw :=
      ⟨hget, hgo, htgt, htempl, Or.inl ⟨hempty, rfl⟩, hext⟩
    have hok := handOver_ok_of_nil hreach hnil
    obtain ⟨obj, pre, w0, htr, hst, hacc⟩ :=
      (reconcile_persisting_step hreach hok _ _ rfl).2.2.2 hnil
    refine ⟨obj, pre, w0, htr, ?_, ?_, hacc⟩
    · rw [hst]
      exact hempty
    · rw [hst]
      rfl

/-- C16, on the in-memory cluster: the rollout of `app-v2` whose source name has been
cleared while `app-v1` is still recorded as the source, with a plan controller that reports
success.  The source `app-v1` is neither looked up nor updated, the target `app-v2` is
released, and the AppRollout stored afterwards records the empty string as
`lastSourceAppRevision`.  The rollout that never named a source leaves the cluster the same
way. -/
theorem first_time_deployment_skips_source_witness :
    sourceClearedRollout.Status.LastSourceAppRevision = "app-v1" ∧
    (∃ ext, (Reconcile (memReconciler planSucceed) demoRequest sourceClearedStore).trace =
        [Call.getAppRollout demoRequest.NamespacedName,
          Call.getAppConfig (targetKey demoRequest sourceClearedRollout),
          Call.extractWorkloads sourceClearedRollout.Spec.ComponentList appV2 none] ++ ext ∧
      (∀ c ∈ ext, c.isGetAppConfig = false ∧ c.isEvent = false ∧
        c.isExtractWorkloads = false) ∧
      ext.filter Call.isUpdate = [Call.update (releasedTarget appV2)] ∧
      (∀ obj, Call.statusUpdate obj ∈ ext → obj.Status.LastSourceAppRevision = "")) ∧
    (∃ obj pre w0,
      (Reconcile (memReconciler planSucceed) demoRequest sourceClearedStore).trace =
        pre ++ [Call.statusUpdate obj] ∧
      obj.Status.LastSourceAppRevision = "" ∧
      obj.Status.LastUpgradedTargetAppRevision = "app-v2" ∧
      (memReconciler planSucceed).StatusUpdate obj w0 =
        (none, (Reconcile (memReconciler planSucceed) demoRequest sourceClearedStore).world)) ∧
    (Store.getAppRollout demoRequest.NamespacedName
      (Reconcile (memReconciler planSucceed) demoRequest sourceClearedStore).world
        ).toOption.map (fun b => (b.Status.RollingState,
          b.Status.LastUpgradedTargetAppRevision, b.Status.LastSourceAppRevision)) =
      some (.RolloutSucceedState, "app-v2", "") ∧
    (Reconcile (memReconciler planSucceed) demoRequest sourceClearedStore).world.appConfigs =
      [appV1, releasedTarget appV2] ∧
    (Reconcile (memReconciler planSucceed) demoRequest firstStore).world =
      { appRollouts := [{ firstRollout with
          ResourceVersion := 1,
          Status := recordedStatus (planSucceed firstRollout).2 firstRollout }],
        appConfigs := [appV1, releasedTarget appV2] } :=
  have h := first_time_deployment_skips_source (memReconciler planSucceed) demoRequest
    sourceClearedStore sourceClearedRollout appV2 (by rfl) (by decide) (by rfl) (by rfl)
    (by rfl)
  let ⟨ext, h1, h2, h3, h4⟩ := h.1
  ⟨by rfl, ⟨ext, h1, h2, h3 (workloadOf appV2) none (by rfl) (by rfl), h4⟩,
   h.2.2 (workloadOf appV2) none (by rfl) (by rfl), by rfl, by rfl, by rfl⟩

/-- C11, amended: no early exit writes a status condition, because an invocation that ends
early makes no status update at all.  On the paths that end before the plan controller the
invocation is given in full: a revision lookup that fails returns `RequeueAfter` = 5 seconds
with a nil error when the revision is not found and the error with the empty result
otherwise; a revision that is not templated gives a "Rollout Paused" event and
`RequeueAfter` = 5 seconds with a nil error; a failed workload extraction returns
`RequeueAfter` = 5 seconds with the error (nil for not-found).  On these paths the calls
are reads (and that one event), the world is unchanged and the AppRollout read afterwards
is the one read before.  When an annotation update fails after the plan controller
reported success, Reconcile returns that error with the empty result, its calls after the
lookups are the plan controller and updates of application revisions, none is a status
update, and the world is the one the plan controller and those updates left: the status the
plan controller returned is not persisted. -/
theorem early_exit_persists_nothing {W : Type} (r : Reconciler W) (req : Request) (w : W)
    (a : AppRollout) (hget : r.GetAppRollout req.NamespacedName w = .ok a)
    (hgo : ¬ (Terminated a ∧ SamePair a)) :
    (∀ err, r.GetAppConfig (targetKey req a) w = .error err →
      Reconcile r req w =
        { res := if IsNotFound err then { RequeueAfter := 5 * Second } else {},
          retErr := if IsNotFound err then none else some err,
          world := w,
          trace := [Call.getAppRollout req.NamespacedName,
            Call.getAppConfig (targetKey req a)] } ∧
      r.GetAppRollout req.NamespacedName (Reconcile r req w).world = .ok a) ∧
    (∀ tgt, r.GetAppConfig (targetKey req a) w = .ok tgt →
      tgt.RollingStatus ≠ .RollingTemplated →
      Reconcile r req w =
        { res := { RequeueAfter := 5 * Second }, retErr := none, world := w,
          trace := [Call.getAppRollout req.NamespacedName,
            Call.getAppConfig (targetKey req a),
            Call.event "Rollout Paused"
              "target app revision is not ready for rolling yet"] } ∧
      r.GetAppRollout req.NamespacedName (Reconcile r req w).world = .ok a) ∧
    (∀ tgt err, r.GetAppConfig (targetKey req a) w = .ok tgt →
      tgt.RollingStatus = .RollingTemplated → a.Spec.SourceAppRevisionName ≠ "" →
      r.GetAppConfig (sourceKey req a) w = .error err →
      Reconcile r req w =
        { res := if IsNotFound err then { RequeueAfter := 5 * Second } else {},
          retErr := if IsNotFound err then none else some err,
          world := w,
          trace := [Call.getAppRollout req.NamespacedName,
            Call.getAppConfig (targetKey req a), Call.getAppConfig (sourceKey req a)] } ∧
      r.GetAppRollout req.NamespacedName (Reconcile r req w).world = .ok a) ∧
    (∀ tgt src, r.GetAppConfig (targetKey req a) w = .ok tgt →
      tgt.RollingStatus = .RollingTemplated → a.Spec.SourceAppRevisionName ≠ "" →
      r.GetAppConfig (sourceKey req a) w = .ok src →
      src.RollingStatus ≠ .RollingTemplated →
      Reconcile r req w =
        { res := { RequeueAfter := 5 * Second }, retErr := none, world := w,
          trace := [Call.getAppRollout req.NamespacedName,
            Call.getAppConfig (targetKey req a), Call.getAppConfig (sourceKey req a),
            Call.event "Rollout Paused"
              "source app revision is not ready for rolling yet"] } ∧
      r.GetAppRollout req.NamespacedName (Reconcile r req w).world = .ok a) ∧
    (∀ tgt src err, r.GetAppConfig (targetKey req a) w = .ok tgt →
      tgt.RollingStatus = .RollingTemplated →
      ((a.Spec.SourceAppRevisionName = "" ∧ src = none) ∨
        (a.Spec.SourceAppRevisionName ≠ "" ∧ ∃ s, src = some s ∧
          r.GetAppConfig (sourceKey req a) w = .ok s ∧
          s.RollingStatus = .RollingTemplated)) →
      r.extractWorkloads a.Spec.ComponentList tgt src w = .error err →
      Reconcile r req w =
        { res := { RequeueAfter := 5 * Second }, retErr := IgnoreNotFound (some err),
          world := w, trace := lookupTrace req a tgt src } ∧
      (∀ c ∈ (Reconcile r req w).trace, c.isStatusUpdate = false) ∧
      r.GetAppRollout req.NamespacedName (Reconcile r req w).world = .ok a) ∧
    (∀ tgt src tw sw err, ReachesPlan r req w a tgt src tw sw →
      (r.planReconcile (proceedsWith a) tw sw w).1.2.RollingState = .RolloutSucceedState →
      (handOver r tgt src (r.planReconcile (proceedsWith a) tw sw w).2
        (lookupTrace req a tgt src ++ [Call.planReconcile (proceedsWith a) tw sw])).1 =
          some err →
      (Reconcile r req w).res = {} ∧
      (Reconcile r req w).retErr = some err ∧
      (Reconcile r req w).world =
        (handOver r tgt src (r.planReconcile (proceedsWith a) tw sw w).2
          (lookupTrace req a tgt src ++
            [Call.planReconcile (proceedsWith a) tw sw])).2.1 ∧
      (∃ ext, (Reconcile r req w).trace =
          lookupTrace req a tgt src ++ Call.planReconcile (proceedsWith a) tw sw :: ext ∧
        ∀ c ∈ ext, c.isUpdate = true) ∧
      (∀ c ∈ (Reconcile r req w).trace, c.isStatusUpdate = false)) := by
  refine ⟨?_, ?_, ?_, ?_, ?_, ?_⟩
  · intro err herr
    rw [reconcile_target_error r req w a hget hgo err herr]
    split <;> exact ⟨rfl, hget⟩
  · intro tgt htgt htempl
    rw [reconcile_target_not_templated r req w a hget hgo tgt htgt htempl]
    exact ⟨rfl, hget⟩
  · intro tgt err htgt htempl hname herr
    rw [reconcile_source_error r req w a hget hgo tgt htgt htempl hname err herr]
    split <;> exact ⟨rfl, hget⟩
  · intro tgt src htgt htempl hname hsrc hstempl
    rw [reconcile_source_not_templated r req w a hget hgo tgt src htgt htempl hname hsrc
      hstempl]
    exact ⟨rfl, hget⟩
  · intro tgt src err htgt htempl hsrc herr
    rw [reconcile_extract_error r req w a hget hgo tgt src htgt htempl hsrc err herr]
    exact ⟨rfl, fun c hc => (lookupTrace_reads_only req a tgt src c hc).2.2, hget⟩
  · intro tgt src tw sw err hreach hsucc hfail
    obtain ⟨hres, herr, ext, hext, hupd⟩ := reconcile_handOver_fails hreach hsucc err hfail
    refine ⟨hres, herr, ?_, ⟨ext, hext, hupd⟩, ?_⟩
    · rcases hho : handOver r tgt src (r.planReconcile (proceedsWith a) tw sw w).2
        (lookupTrace req a tgt src ++ [Call.planReconcile (proceedsWith a) tw sw])
        with ⟨o, w2, t2⟩
      rw [hho] at hfail
      simp only at hfail
      subst hfail
      rw [reconcile_reaches_plan hreach,
        finishRollout_handOver_fails r _ tgt src tw sw w _ hsucc err w2 t2 hho]
    · rw [hext]
      intro c hc
      rcases List.mem_append.mp hc with h | h
      · exact (lookupTrace_reads_only req a tgt src c h).2.2
      · rcases List.mem_cons.mp h with h1 | h1
        · rw [h1]; rfl
        · exact isStatusUpdate_false_of_isUpdate (hupd c h1)

/-- C11 amended, on the in-memory cluster: the target revision missing (requeue after five
seconds, nil error, two reads, the cluster as it was), and the update of the source refused
after the plan controller reported success (the error returned, no status update, the
stored status still the one read). -/
theorem early_exit_persists_nothing_witness :
    (Reconcile (memReconciler planKeep) demoRequest missingStore =
        { res := { RequeueAfter := 5 * Second }, retErr := none, world := missingStore,
          trace := [Call.getAppRollout demoRequest.NamespacedName,
            Call.getAppConfig (targetKey demoRequest pendingRollout)] } ∧
      (memReconciler planKeep).GetAppRollout demoRequest.NamespacedName
        (Reconcile (memReconciler planKeep) demoRequest missingStore).world =
          .ok pendingRollout) ∧
    ((Reconcile (refusedUpdates planSucceed) demoRequest rollingStore).res = {} ∧
      (Reconcile (refusedUpdates planSucceed) demoRequest rollingStore).retErr =
        some (.other "update refused") ∧
      (∀ c ∈ (Reconcile (refusedUpdates planSucceed) demoRequest rollingStore).trace,
        c.isStatusUpdate = false) ∧
      (Reconcile (refusedUpdates planSucceed) demoRequest rollingStore).world =
        rollingStore) :=
  have h1 := (early_exit_persists_nothing (memReconciler planKeep) demoRequest missingStore
      pendingRollout (by rfl) (by decide)).1 (.notFound "app-v2") (by rfl)
  have h2 := (early_exit_persists_nothing (refusedUpdates planSucceed) demoRequest
      rollingStore rollingRollout (by rfl) (by decide)).2.2.2.2.2 appV2 (some appV1)
      (workloadOf appV2) (some (workloadOf appV1)) (.other "update refused")
      (rollingStore_reaches_plan planSucceed) (by rfl) (by rfl)
  ⟨⟨h1.1.trans (by rfl), h1.2⟩, h2.1, h2.2.1, h2.2.2.2.2, h2.2.2.1.trans (by rfl)⟩

end AppRolloutController
